import Mathlib

/-!
# microudp: a shallow embedding of `litex/soc/software/libnet/microudp.c`

The C file keeps its whole state in file-level statics and talks to the
Ethernet MAC through CSR accessors and four DMA buffers.  The embedding
makes that state an explicit record, the buffers explicit byte maps, and
the hardware an explicit environment: every CSR access the code performs
is appended to a trace, and what the hardware answers is read from an
oracle.

Machine integers are natural numbers; every place where the C code
truncates (a store into an `unsigned char`, `unsigned short` or
`unsigned int`) is an explicit `%`.
-/

namespace Microudp

/-! ## Bytes and buffers -/

/-- An `unsigned char`. -/
abbrev Byte := Fin 256

/-- Conversion of an integer value to `unsigned char` (keeps the low 8 bits). -/
def toByte (v : Nat) : Byte := ⟨v % 256, Nat.mod_lt v (by decide)⟩

/-- A region of byte-addressed memory, indexed from its base address:
`ethernet_buffer.raw`, or the bytes of a local struct. -/
abbrev Buf := Nat → Byte

/-- Load of an `unsigned char`: `raw[i]`. -/
def rd8 (b : Buf) (i : Nat) : Nat := (b i).val

/-- Store of an `unsigned char`: `raw[i] = v`. -/
def wr8 (b : Buf) (i : Nat) (v : Nat) : Buf := Function.update b i (toByte v)

/-- A MAC address, `unsigned char [6]`. -/
abbrev Mac := Fin 6 → Byte

/-- The loop `for(i=0;i<6;i++) dst[i] = m[i];` with `dst` at offset `off` of `b`. -/
def wrMac (b : Buf) (off : Nat) (m : Mac) : Buf :=
  wr8 (wr8 (wr8 (wr8 (wr8 (wr8 b off (m 0).val) (off + 1) (m 1).val) (off + 2) (m 2).val)
    (off + 3) (m 3).val) (off + 4) (m 4).val) (off + 5) (m 5).val

/-- The six bytes at offset `off` of `b`, read as a MAC address. -/
def rdMac (b : Buf) (off : Nat) : Mac := fun i => b (off + i.val)

/-- The all-zero MAC address, the "unresolved" sentinel. -/
def zeroMac : Mac := fun _ => 0

/-- The test `cached_mac[i] != 0` for some `i`, as the loops of
`microudp_arp_resolve` and the condition of `microudp_send` compute it. -/
def macNonZero (m : Mac) : Bool :=
  m 0 != 0 || m 1 != 0 || m 2 != 0 || m 3 != 0 || m 4 != 0 || m 5 != 0

/-! ## The target

Everything the C file takes from outside: the compile-time choice
`HW_PREAMBLE_CRC`, the byte order in which the CPU stores the multi-byte
fields of the packed structs (the file never swaps bytes, so the layout of
an `unsigned short` or `unsigned int` field is the native one), the
function `crc32` of `<crc.h>`, and the two event masks of `<hw/flags.h>`. -/

structure Platform where
  /-- `HW_PREAMBLE_CRC` is defined: the MAC inserts and checks preamble and CRC. -/
  hw_preamble_crc : Bool
  /-- The CPU stores multi-byte values most significant byte first. -/
  big_endian : Bool
  /-- `crc32(&buf[off], len)` of `<crc.h>`. -/
  crc32 : Buf → Nat → Nat → Nat
  /-- `ETHMAC_EV_SRAM_READER`. -/
  ev_sram_reader : Nat
  /-- `ETHMAC_EV_SRAM_WRITER`. -/
  ev_sram_writer : Nat

/-- Native store of an `unsigned short` at offset `off`. -/
def wr16 (p : Platform) (b : Buf) (off : Nat) (v : Nat) : Buf :=
  if p.big_endian then wr8 (wr8 b off (v / 256)) (off + 1) v
  else wr8 (wr8 b off v) (off + 1) (v / 256)

/-- Native load of an `unsigned short` at offset `off`. -/
def rd16 (p : Platform) (b : Buf) (off : Nat) : Nat :=
  if p.big_endian then rd8 b off * 256 + rd8 b (off + 1)
  else rd8 b (off + 1) * 256 + rd8 b off

/-- Native store of an `unsigned int` at offset `off`. -/
def wr32 (p : Platform) (b : Buf) (off : Nat) (v : Nat) : Buf :=
  if p.big_endian then
    wr8 (wr8 (wr8 (wr8 b off (v / 16777216)) (off + 1) (v / 65536)) (off + 2) (v / 256))
      (off + 3) v
  else
    wr8 (wr8 (wr8 (wr8 b off v) (off + 1) (v / 256)) (off + 2) (v / 65536))
      (off + 3) (v / 16777216)

/-- Native load of an `unsigned int` at offset `off`. -/
def rd32 (p : Platform) (b : Buf) (off : Nat) : Nat :=
  if p.big_endian then
    rd8 b off * 16777216 + rd8 b (off + 1) * 65536 + rd8 b (off + 2) * 256 + rd8 b (off + 3)
  else
    rd8 b (off + 3) * 16777216 + rd8 b (off + 2) * 65536 + rd8 b (off + 1) * 256 + rd8 b off

/-! ## Constants and layout -/

def ETHERTYPE_ARP : Nat := 0x0806
def ETHERTYPE_IP : Nat := 0x0800
def ARP_HWTYPE_ETHERNET : Nat := 0x0001
def ARP_PROTO_IP : Nat := 0x0800
def ARP_OPCODE_REQUEST : Nat := 0x0001
def ARP_OPCODE_REPLY : Nat := 0x0002
def IP_IPV4 : Nat := 0x45
def IP_DONT_FRAGMENT : Nat := 0x4000
def IP_TTL : Nat := 64
def IP_PROTO_UDP : Nat := 0x11

/-- `ARP_PACKET_LENGTH`: 60 with `HW_PREAMBLE_CRC`, 68 without. -/
def ARP_PACKET_LENGTH (p : Platform) : Nat := if p.hw_preamble_crc then 60 else 68

/-- Offset of `destmac` in `struct ethernet_header`: the 8 preamble bytes
come first unless `HW_PREAMBLE_CRC`. -/
def ETH_DESTMAC (p : Platform) : Nat := if p.hw_preamble_crc then 0 else 8

/-- `sizeof(struct ethernet_header)`; also the offset of `contents` in
`struct ethernet_frame`. -/
def ETH_HEADER_SIZE (p : Platform) : Nat := ETH_DESTMAC p + 14

/-- `sizeof(struct ip_header)`. -/
def IP_HEADER_SIZE : Nat := 20
/-- `sizeof(struct udp_header)`. -/
def UDP_HEADER_SIZE : Nat := 8
/-- `sizeof(struct udp_frame)` (the flexible `payload` member adds nothing). -/
def UDP_FRAME_SIZE : Nat := 28
/-- `sizeof(struct pseudo_header)`. -/
def PSEUDO_HEADER_SIZE : Nat := 12
/-- The size of `ethernet_buffer.raw`. -/
def BUFFER_SIZE : Nat := 1532

/-! ## `ip_checksum` -/

/-- The loop `while(r >> 16) r = (r & 0xffff) + (r >> 16);`.  The first
argument bounds the number of iterations; each iteration makes `r` strictly
smaller, so `r` itself is a sufficient bound (`add_overflows_closed`). -/
def add_overflows : Nat → Nat → Nat
  | 0, r => r
  | fuel + 1, r =>
    if r >>> 16 ≠ 0 then add_overflows fuel ((r &&& 0xffff) + (r >>> 16)) else r

/-- The loop `for(i=0;i<length;i++) r += (ptr[2*i] << 8) | ptr[2*i+1];` of
`ip_checksum`, with `length` already halved; `r` is an `unsigned int`. -/
def ip_checksum_acc (r : Nat) (ptr : Buf) (off : Nat) (length : Nat) : Nat :=
  (List.range length).foldl
    (fun r i => (r + ((rd8 ptr (off + 2 * i) <<< 8) ||| rd8 ptr (off + 2 * i + 1))) % 4294967296) r

/-- The value of the `unsigned int r` of `ip_checksum(r, buffer, length, complete)`
when `return r` is reached, with `buffer` pointing at offset `off` of `ptr`. -/
def ip_checksum_r (r : Nat) (ptr : Buf) (off : Nat) (length : Nat) (complete : Nat) : Nat :=
  let length := length >>> 1
  let r := ip_checksum_acc r ptr off length
  let r := add_overflows r r
  if complete ≠ 0 then
    let r := 4294967295 - r
    let r := r &&& 0xffff
    if r = 0 then 0xffff else r
  else r

/-- The function `ip_checksum(r, buffer, length, complete)`: the value of `r`
converted to the return type `unsigned short`. -/
def ip_checksum (r : Nat) (ptr : Buf) (off : Nat) (length : Nat) (complete : Nat) : Nat :=
  ip_checksum_r r ptr off length complete % 65536

/-! ## State and environment -/

/-- The value of one of the pointers `rxbuffer` / `txbuffer`: it designates
the first or the second buffer of its direction. -/
inductive BufSel
  | buf0
  | buf1
  deriving DecidableEq, Repr

/-- What the code does to the outside world, in program order: the CSR
accesses of the Ethernet MAC and the calls of the registered callback. -/
inductive Event
  /-- `ethmac_sram_reader_slot_write(v)`. -/
  | sram_reader_slot_write (v : Nat)
  /-- `ethmac_sram_reader_length_write(v)`. -/
  | sram_reader_length_write (v : Nat)
  /-- `ethmac_sram_reader_ready_read()`, with whether it returned non-zero. -/
  | sram_reader_ready_read (ready : Bool)
  /-- `ethmac_sram_reader_start_write(v)`; `mem` is the memory of the TX
  slot last written to the slot register, as it is at this moment: the
  frame the DMA engine is told to send is its first (length register) bytes. -/
  | sram_reader_start_write (v : Nat) (mem : Buf)
  /-- `ethmac_sram_reader_ev_pending_write(v)`. -/
  | sram_reader_ev_pending_write (v : Nat)
  /-- `ethmac_sram_writer_ev_pending_read()`, with whether the
  `ETHMAC_EV_SRAM_WRITER` bit was set. -/
  | sram_writer_ev_pending_read (pending : Bool)
  /-- `ethmac_sram_writer_slot_read()` and its result. -/
  | sram_writer_slot_read (v : Nat)
  /-- `ethmac_sram_writer_length_read()` and its result. -/
  | sram_writer_length_read (v : Nat)
  /-- `ethmac_sram_writer_ev_pending_write(v)`. -/
  | sram_writer_ev_pending_write (v : Nat)
  /-- `rx_callback(src_ip, src_port, dst_port, payload, length)`: `fn` is the
  function called, `payload` points at offset `payload_off` of RX buffer `buf`. -/
  | callback (fn src_ip src_port dst_port : Nat) (buf : BufSel) (payload_off length : Nat)

/-- A frame the MAC has received: what the slot and length registers of the
SRAM writer report, and the content of that slot's buffer. -/
structure RxEvent where
  slot : Nat
  length : Nat
  data : Buf

/-- The behaviour of the hardware, as an oracle.
`ready_after n` answers the `n`-th busy-wait of `send_packet`: `some d` when
the ready register reads zero `d` times and then non-zero, `none` when it
reads zero forever.  `rx n` is what the `n`-th call of `microudp_service`
finds: `none` when no receive event is pending. -/
structure Env where
  ready_after : Nat → Option Nat
  rx : Nat → Option RxEvent

/-- The statics of `microudp.c` and the memory of the four DMA buffers,
followed by the bookkeeping of the embedding (`trace`, `sends`, `polls`). -/
structure State where
  rxslot : Nat
  rxlen : Nat
  /-- The pointer `rxbuffer`. -/
  rxbuffer : BufSel
  /-- The memory `rxbuffer0` points to. -/
  rxbuffer0 : Buf
  /-- The memory `rxbuffer1` points to. -/
  rxbuffer1 : Buf
  txslot : Nat
  txlen : Nat
  /-- The pointer `txbuffer`. -/
  txbuffer : BufSel
  /-- The memory `txbuffer0` points to. -/
  txbuffer0 : Buf
  /-- The memory `txbuffer1` points to. -/
  txbuffer1 : Buf
  my_mac : Mac
  my_ip : Nat
  cached_mac : Mac
  cached_ip : Nat
  /-- The function pointer `rx_callback`; 0 is the null pointer. -/
  rx_callback : Nat
  /-- Everything done to the outside world so far, oldest first. -/
  trace : List Event
  /-- Number of busy-waits of `send_packet` so far. -/
  sends : Nat
  /-- Number of calls of `microudp_service` so far. -/
  polls : Nat

/-- The memory a TX buffer pointer designates. -/
def State.txmem (st : State) (sel : BufSel) : Buf :=
  match sel with
  | .buf0 => st.txbuffer0
  | .buf1 => st.txbuffer1

/-- The memory an RX buffer pointer designates. -/
def State.rxmem (st : State) (sel : BufSel) : Buf :=
  match sel with
  | .buf0 => st.rxbuffer0
  | .buf1 => st.rxbuffer1

/-- Replace the memory a TX buffer pointer designates. -/
def State.setTxmem (st : State) (sel : BufSel) (b : Buf) : State :=
  { st with
    txbuffer0 := if sel = BufSel.buf0 then b else st.txbuffer0
    txbuffer1 := if sel = BufSel.buf1 then b else st.txbuffer1 }

/-- The memory of TX slot number `slot`, as the DMA engine addresses it:
slot 0 is `ETHMAC_TX0_BASE`, the other is `ETHMAC_TX1_BASE`. -/
def State.slotmem (st : State) (slot : Nat) : Buf :=
  if slot = 0 then st.txbuffer0 else st.txbuffer1

/-! ## `fill_eth_header` and `send_packet` -/

/-- The function `fill_eth_header(h, destmac, srcmac, ethertype)`, with `h`
at offset 0 of `b`. -/
def fill_eth_header (p : Platform) (b : Buf) (destmac srcmac : Mac) (ethertype : Nat) : Buf :=
  let b :=
    if p.hw_preamble_crc then b
    else
      let b := (List.range 7).foldl (fun b i => wr8 b i 0x55) b
      wr8 b 7 0xd5
  let b := wrMac b (ETH_DESTMAC p) destmac
  let b := wrMac b (ETH_DESTMAC p + 6) srcmac
  wr16 p b (ETH_DESTMAC p + 12) ethertype

/-- Lines 129-137 of `send_packet`: unless `HW_PREAMBLE_CRC`, the CRC of the
bytes after the preamble is written behind the frame, least significant byte
first, and `txlen` grows by 4. -/
def append_crc (p : Platform) (st : State) : State :=
  if p.hw_preamble_crc then st
  else
    let crc := p.crc32 (st.txmem st.txbuffer) 8 ((st.txlen + 4294967296 - 8) % 4294967296)
      % 4294967296
    let b := st.txmem st.txbuffer
    let b := wr8 b st.txlen (crc &&& 0xff)
    let b := wr8 b ((st.txlen + 1) % 4294967296) ((crc &&& 0xff00) >>> 8)
    let b := wr8 b ((st.txlen + 2) % 4294967296) ((crc &&& 0xff0000) >>> 16)
    let b := wr8 b ((st.txlen + 3) % 4294967296) ((crc &&& 0xff000000) >>> 24)
    let st := st.setTxmem st.txbuffer b
    { st with txlen := (st.txlen + 4) % 4294967296 }

/-- The function `send_packet()`.  `none` means that the busy-wait on the
ready register never ends. -/
def send_packet (p : Platform) (env : Env) (st : State) : Option State :=
  let st := append_crc p st
  let st := { st with trace := st.trace ++
    [Event.sram_reader_slot_write st.txslot, Event.sram_reader_length_write st.txlen] }
  match env.ready_after st.sends with
  | none => none
  | some d =>
    let st := { st with
      trace := st.trace ++ List.replicate d (Event.sram_reader_ready_read false) ++
        [Event.sram_reader_ready_read true,
         Event.sram_reader_start_write 1 (st.slotmem st.txslot)]
      sends := st.sends + 1 }
    let st := { st with txslot := ((st.txslot + 1) % 4294967296) % 2 }
    some (if st.txslot ≠ 0 then { st with txbuffer := BufSel.buf1 }
          else { st with txbuffer := BufSel.buf0 })

/-! ## Receive path -/

/-- The assignments to the fields of the ARP frame in the buffer `b`, as both
`process_arp` (lines 192-202) and `microudp_arp_resolve` (lines 233-243)
make them, in this order: `hwtype`, `proto`, `hwsize`, `protosize`, `opcode`,
`sender_ip`, `sender_mac`, `target_ip`, `target_mac`. -/
def arp_fill (p : Platform) (b : Buf) (opcode sender_ip : Nat) (sender_mac : Mac)
    (target_ip : Nat) (target_mac : Mac) : Buf :=
  let h := ETH_HEADER_SIZE p
  let b := wr16 p b h ARP_HWTYPE_ETHERNET
  let b := wr16 p b (h + 2) ARP_PROTO_IP
  let b := wr8 b (h + 4) 6
  let b := wr8 b (h + 5) 4
  let b := wr16 p b (h + 6) opcode
  let b := wr32 p b (h + 14) sender_ip
  let b := wrMac b (h + 8) sender_mac
  let b := wr32 p b (h + 24) target_ip
  wrMac b (h + 18) target_mac

/-- The function `process_arp()`. -/
def process_arp (p : Platform) (env : Env) (st : State) : Option State :=
  let rx := st.rxmem st.rxbuffer
  let h := ETH_HEADER_SIZE p
  let tx_arp := st.txbuffer
  if st.rxlen < ARP_PACKET_LENGTH p then some st
  else if rd16 p rx h ≠ ARP_HWTYPE_ETHERNET then some st
  else if rd16 p rx (h + 2) ≠ ARP_PROTO_IP then some st
  else if rd8 rx (h + 4) ≠ 6 then some st
  else if rd8 rx (h + 5) ≠ 4 then some st
  else if rd16 p rx (h + 6) = ARP_OPCODE_REPLY then
    if rd32 p rx (h + 14) = st.cached_ip then
      some { st with cached_mac := rdMac rx (h + 8) }
    else some st
  else if rd16 p rx (h + 6) = ARP_OPCODE_REQUEST then
    if rd32 p rx (h + 24) = st.my_ip then
      let st := st.setTxmem st.txbuffer
        (fill_eth_header p (st.txmem st.txbuffer) (rdMac rx (h + 8)) st.my_mac ETHERTYPE_ARP)
      let st := { st with txlen := ARP_PACKET_LENGTH p }
      send_packet p env (st.setTxmem tx_arp
        (arp_fill p (st.txmem tx_arp) ARP_OPCODE_REPLY st.my_ip st.my_mac
          (rd32 p rx (h + 14)) (rdMac rx (h + 8))))
    else some st
  else some st

/-- The function `process_ip()`.  The callback is foreign code: its call is
recorded in the trace and it is taken not to touch the statics of this file. -/
def process_ip (p : Platform) (st : State) : State :=
  let rx := st.rxmem st.rxbuffer
  let h := ETH_HEADER_SIZE p
  if st.rxlen < ETH_HEADER_SIZE p + UDP_FRAME_SIZE then st
  else if rd8 rx h ≠ IP_IPV4 then st
  else if rd16 p rx (h + 2) < UDP_FRAME_SIZE then st
  else if rd8 rx (h + 9) ≠ IP_PROTO_UDP then st
  else if rd32 p rx (h + 16) ≠ st.my_ip then st
  else if rd16 p rx (h + 24) < UDP_HEADER_SIZE then st
  else if st.rx_callback ≠ 0 then
    { st with trace := st.trace ++
      [Event.callback st.rx_callback (rd32 p rx (h + 12)) (rd16 p rx (h + 20))
        (rd16 p rx (h + 22)) st.rxbuffer (h + UDP_FRAME_SIZE)
        (rd16 p rx (h + 24) - UDP_HEADER_SIZE)] }
  else st

/-- The test of the 8 preamble bytes in `process_frame`. -/
def preamble_ok (rx : Buf) : Bool :=
  (List.range 7).all (fun i => rd8 rx i == 0x55) && rd8 rx 7 == 0xd5

/-- The value `received_crc` of `process_frame`: the last four bytes of the
frame, first byte least significant.  The indices are computed in
`unsigned int`. -/
def received_crc (rx : Buf) (rxlen : Nat) : Nat :=
  (rd8 rx ((rxlen + 4294967296 - 1) % 4294967296) <<< 24)
    ||| (rd8 rx ((rxlen + 4294967296 - 2) % 4294967296) <<< 16)
    ||| (rd8 rx ((rxlen + 4294967296 - 3) % 4294967296) <<< 8)
    ||| rd8 rx ((rxlen + 4294967296 - 4) % 4294967296)

/-- The function `process_frame()` (`flush_cpu_dcache()` has no effect on
the state of the embedding: the received bytes are already in the buffer). -/
def process_frame (p : Platform) (env : Env) (st : State) : Option State :=
  let rx := st.rxmem st.rxbuffer
  if !p.hw_preamble_crc && !preamble_ok rx then some st
  else if !p.hw_preamble_crc &&
      received_crc rx st.rxlen
        ≠ p.crc32 rx 8 ((st.rxlen + 4294967296 - 12) % 4294967296) % 4294967296 then some st
  else
    let st :=
      if p.hw_preamble_crc then st
      else { st with rxlen := (st.rxlen + 4294967296 - 4) % 4294967296 }
    if rd16 p rx (ETH_DESTMAC p + 12) = ETHERTYPE_ARP then process_arp p env st
    else if rd16 p rx (ETH_DESTMAC p + 12) = ETHERTYPE_IP then some (process_ip p st)
    else some st

/-- The function `microudp_set_callback(callback)`. -/
def microudp_set_callback (callback : Nat) (st : State) : State :=
  { st with rx_callback := callback }

/-- The function `microudp_start(macaddr, ip)`. -/
def microudp_start (p : Platform) (macaddr : Mac) (ip : Nat) (st : State) : State :=
  { st with
    trace := st.trace ++
      [Event.sram_reader_ev_pending_write p.ev_sram_reader,
       Event.sram_writer_ev_pending_write p.ev_sram_writer]
    rxslot := 0
    txslot := 0
    rxbuffer := BufSel.buf0
    txbuffer := BufSel.buf0
    my_mac := macaddr
    my_ip := ip
    cached_ip := 0
    cached_mac := zeroMac
    rx_callback := 0 }

/-- The function `microudp_service()`. -/
def microudp_service (p : Platform) (env : Env) (st : State) : Option State :=
  match env.rx st.polls with
  | none =>
    some { st with
      trace := st.trace ++ [Event.sram_writer_ev_pending_read false]
      polls := st.polls + 1 }
  | some ev =>
    let st := { st with
      trace := st.trace ++ [Event.sram_writer_ev_pending_read true,
        Event.sram_writer_slot_read ev.slot, Event.sram_writer_length_read ev.length]
      polls := st.polls + 1
      rxslot := ev.slot
      rxlen := ev.length }
    let st :=
      if st.rxslot ≠ 0 then { st with rxbuffer := BufSel.buf1, rxbuffer1 := ev.data }
      else { st with rxbuffer := BufSel.buf0, rxbuffer0 := ev.data }
    match process_frame p env st with
    | none => none
    | some st =>
      some { st with trace := st.trace ++ [Event.sram_writer_ev_pending_write p.ev_sram_writer] }

/-! ## `microudp_arp_resolve` -/

/-- The constant `broadcast`. -/
def broadcast : Mac := fun _ => 0xff

/-- The lines of one round of `microudp_arp_resolve` that build and send the
ARP request (228-244).  The Ethernet header goes into the buffer `txbuffer`
points to now; the ARP fields go through `arp`, the pointer computed once on
entry of `microudp_arp_resolve`. -/
def arp_request (p : Platform) (env : Env) (ip : Nat) (arp : BufSel) (st : State) :
    Option State :=
  let st := st.setTxmem st.txbuffer
    (fill_eth_header p (st.txmem st.txbuffer) broadcast st.my_mac ETHERTYPE_ARP)
  let st := { st with txlen := ARP_PACKET_LENGTH p }
  send_packet p env (st.setTxmem arp
    (arp_fill p (st.txmem arp) ARP_OPCODE_REQUEST st.my_ip st.my_mac ip zeroMac))

/-- The loop `for(timeout=0;timeout<2000000;timeout++)` of
`microudp_arp_resolve`, with `n` iterations left.  The flag tells whether
the loop left the function with `return 1`. -/
def arp_poll (p : Platform) (env : Env) : Nat → State → Option (State × Bool)
  | 0, st => some (st, false)
  | n + 1, st =>
    match microudp_service p env st with
    | none => none
    | some st =>
      if macNonZero st.cached_mac then some (st, true) else arp_poll p env n st

/-- The loop `for(tries=0;tries<5;tries++)` of `microudp_arp_resolve`, with
`n` iterations left, and the `return 0` after it. -/
def arp_tries (p : Platform) (env : Env) (ip : Nat) (arp : BufSel) :
    Nat → State → Option (Nat × State)
  | 0, st => some (0, st)
  | n + 1, st =>
    match arp_request p env ip arp st with
    | none => none
    | some st =>
      match arp_poll p env 2000000 st with
      | none => none
      | some (st, true) => some (1, st)
      | some (st, false) => arp_tries p env ip arp n st

/-- The function `microudp_arp_resolve(ip)`: the returned value and the
state on return; `none` when a busy-wait never ends. -/
def microudp_arp_resolve (p : Platform) (env : Env) (ip : Nat) (st : State) :
    Option (Nat × State) :=
  let arp := st.txbuffer
  if st.cached_ip = ip && macNonZero st.cached_mac then some (1, st)
  else
    let st := { st with cached_ip := ip, cached_mac := zeroMac }
    arp_tries p env ip arp 5 st

/-! ## `microudp_send` -/

/-- The local `struct pseudo_header h` of `microudp_send` once all its
fields are assigned. -/
def pseudo_header (p : Platform) (src_ip dst_ip proto length : Nat) : Buf :=
  let h : Buf := fun _ => 0
  let h := wr8 h 9 proto
  let h := wr32 p h 0 src_ip
  let h := wr32 p h 4 dst_ip
  let h := wr16 p h 10 length
  wr8 h 8 0

/-- Lines 305-319 of `microudp_send`: the Ethernet header and the IPv4
header with a zero checksum field, written into the active TX buffer `b`. -/
def send_ip_fields (p : Platform) (b : Buf) (cached_mac my_mac : Mac) (my_ip cached_ip : Nat)
    (length : Nat) : Buf :=
  let h := ETH_HEADER_SIZE p
  let b := fill_eth_header p b cached_mac my_mac ETHERTYPE_IP
  let b := wr8 b h IP_IPV4
  let b := wr8 b (h + 1) 0
  let b := wr16 p b (h + 2) ((length + UDP_FRAME_SIZE) % 65536)
  let b := wr16 p b (h + 4) 0
  let b := wr16 p b (h + 6) IP_DONT_FRAGMENT
  let b := wr8 b (h + 8) IP_TTL
  let b := wr8 b (h + 9) IP_PROTO_UDP
  let b := wr16 p b (h + 10) 0
  let b := wr32 p b (h + 12) my_ip
  wr32 p b (h + 16) cached_ip

/-- Lines 320-321 of `microudp_send`: the IPv4 checksum is computed over the
header in the buffer and stored in its checksum field. -/
def send_ip_checksum (p : Platform) (b : Buf) : Buf :=
  let h := ETH_HEADER_SIZE p
  wr16 p b (h + 10) (ip_checksum 0 b h IP_HEADER_SIZE 1)

/-- Lines 323-326 and 330-333 of `microudp_send`: the UDP header with a zero
checksum field, and the zero byte after an odd-length payload. -/
def send_udp_fields (p : Platform) (b : Buf) (src_port dst_port length : Nat) : Buf :=
  let h := ETH_HEADER_SIZE p
  let b := wr16 p b (h + 20) src_port
  let b := wr16 p b (h + 22) dst_port
  let b := wr16 p b (h + 24) ((length + UDP_HEADER_SIZE) % 65536)
  let b := wr16 p b (h + 26) 0
  if length &&& 1 ≠ 0 then wr8 b ((h + UDP_FRAME_SIZE + length) % 4294967296) 0 else b

/-- Lines 328-336 of `microudp_send`: the value `r` stored as UDP checksum,
computed over the pseudo header and then over the UDP header and the
payload in the buffer `b`. -/
def send_udp_checksum (p : Platform) (b : Buf) (my_ip cached_ip length : Nat) : Nat :=
  let h := ETH_HEADER_SIZE p
  let hdr := pseudo_header p my_ip cached_ip IP_PROTO_UDP ((length + UDP_HEADER_SIZE) % 65536)
  let r := ip_checksum 0 hdr 0 PSEUDO_HEADER_SIZE 0
  let length := if length &&& 1 ≠ 0 then (length + 1) % 4294967296 else length
  ip_checksum r b (h + 20) ((UDP_HEADER_SIZE + length) % 4294967296) 1

/-- Lines 305-336 of `microudp_send`: everything written into the active TX
buffer `b` before `send_packet()` is called. -/
def send_fill (p : Platform) (b : Buf) (cached_mac my_mac : Mac) (my_ip cached_ip : Nat)
    (src_port dst_port length : Nat) : Buf :=
  let b := send_ip_fields p b cached_mac my_mac my_ip cached_ip length
  let b := send_ip_checksum p b
  let b := send_udp_fields p b src_port dst_port length
  wr16 p b (ETH_HEADER_SIZE p + 26) (send_udp_checksum p b my_ip cached_ip length)

/-- The function `microudp_send(src_port, dst_port, length)`: the returned
value and the state on return; `none` when the busy-wait never ends. -/
def microudp_send (p : Platform) (env : Env) (src_port dst_port length : Nat) (st : State) :
    Option (Nat × State) :=
  if !macNonZero st.cached_mac then some (0, st)
  else
    let txlen := (length + ETH_HEADER_SIZE p + UDP_FRAME_SIZE) % 4294967296
    let st := { st with txlen := if txlen < ARP_PACKET_LENGTH p then ARP_PACKET_LENGTH p else txlen }
    let b := send_fill p (st.txmem st.txbuffer) st.cached_mac st.my_mac st.my_ip st.cached_ip
      src_port dst_port length
    match send_packet p env (st.setTxmem st.txbuffer b) with
    | none => none
    | some st => some (1, st)

/-- The function `microudp_get_tx_buffer()`: the buffer and the offset in it
of the payload area the caller fills before `microudp_send`. -/
def microudp_get_tx_buffer (p : Platform) (st : State) : BufSel × Nat :=
  (st.txbuffer, ETH_HEADER_SIZE p + UDP_FRAME_SIZE)

/-! ## Notions used to state the properties -/

/-- The pointer `txbuffer` designates the buffer of slot `txslot`, which is 0
or 1: what `microudp_start` establishes and `send_packet` maintains. -/
def State.tx_consistent (st : State) : Prop :=
  (st.txslot = 0 ∧ st.txbuffer = BufSel.buf0) ∨ (st.txslot = 1 ∧ st.txbuffer = BufSel.buf1)

/-- The other buffer of a pair. -/
def BufSel.other : BufSel → BufSel
  | .buf0 => .buf1
  | .buf1 => .buf0

/-- The big-endian 16-bit word at offset `off`. -/
def word16 (b : Buf) (off : Nat) : Nat := rd8 b off * 256 + rd8 b (off + 1)

/-- The sum of the `n` big-endian 16-bit words from offset `off` on. -/
def sum16 (b : Buf) (off : Nat) : Nat → Nat
  | 0 => 0
  | n + 1 => sum16 b off n + word16 b (off + 2 * n)

/-- Folding of a sum into 16 bits with end-around carry: the carries above
bit 15 are added back until none is left. -/
def fold16 (x : Nat) : Nat := add_overflows x x

/-- The bytes `send_packet` leaves in the buffer `b` it transmits: `b` itself
with `HW_PREAMBLE_CRC`, else `b` with the four CRC bytes written from offset
`txlen` on (lines 131-135). -/
def crc_appended (p : Platform) (b : Buf) (txlen : Nat) : Buf :=
  if p.hw_preamble_crc then b
  else
    let crc := p.crc32 b 8 ((txlen + 4294967296 - 8) % 4294967296) % 4294967296
    wr8 (wr8 (wr8 (wr8 b txlen (crc &&& 0xff))
      ((txlen + 1) % 4294967296) ((crc &&& 0xff00) >>> 8))
      ((txlen + 2) % 4294967296) ((crc &&& 0xff0000) >>> 16))
      ((txlen + 3) % 4294967296) ((crc &&& 0xff000000) >>> 24)

/-- The sum a receiver forms to verify the UDP checksum of the frame in `mem`
whose payload has `length` bytes: the big-endian 16-bit words of the pseudo
header taken from the frame (source IP and destination IP, the zero byte and
protocol 17, the UDP length field), of the UDP header (checksum included) and
of the payload, whose last byte is paired with a zero byte when `length` is odd. -/
def udp_verify_sum (p : Platform) (mem : Buf) (length : Nat) : Nat :=
  let h := ETH_HEADER_SIZE p
  sum16 mem (h + 12) 4 + (0 * 256 + 17) + word16 mem (h + 24)
    + sum16 mem (h + 20) (4 + length / 2)
    + (if length % 2 = 1 then rd8 mem (h + 28 + (length - 1)) * 256 + 0 else 0)

/-- The frame in `rx` passes the preamble and CRC tests of `process_frame`
(there are none with `HW_PREAMBLE_CRC`). -/
def frame_accepted (p : Platform) (rx : Buf) (rxlen : Nat) : Bool :=
  p.hw_preamble_crc ||
    (preamble_ok rx &&
      received_crc rx rxlen == p.crc32 rx 8 ((rxlen + 4294967296 - 12) % 4294967296) % 4294967296)

/-- The frame length `process_frame` hands to the next stage: the received
length, less the 4 CRC bytes unless `HW_PREAMBLE_CRC` (an `unsigned int`). -/
def parsed_length (p : Platform) (rxlen : Nat) : Nat :=
  if p.hw_preamble_crc then rxlen else (rxlen + 4294967296 - 4) % 4294967296

/-- The frame in `rx` is an ARP reply whose sender IP is `ip`: EtherType
0x0806, at least `ARP_PACKET_LENGTH` bytes, hardware type 1, protocol type
0x0800, address sizes 6 and 4, opcode 2. -/
def is_arp_reply_from (p : Platform) (rx : Buf) (rxlen : Nat) (ip : Nat) : Bool :=
  rd16 p rx (ETH_DESTMAC p + 12) == 0x0806
    && decide (ARP_PACKET_LENGTH p ≤ parsed_length p rxlen)
    && rd16 p rx (ETH_HEADER_SIZE p) == 1
    && rd16 p rx (ETH_HEADER_SIZE p + 2) == 0x0800
    && rd8 rx (ETH_HEADER_SIZE p + 4) == 6
    && rd8 rx (ETH_HEADER_SIZE p + 5) == 4
    && rd16 p rx (ETH_HEADER_SIZE p + 6) == 2
    && rd32 p rx (ETH_HEADER_SIZE p + 14) == ip

/-- The event is a poll of the receive event flag, the first thing every
call of `microudp_service` does. -/
def Event.is_poll : Event → Bool
  | .sram_writer_ev_pending_read _ => true
  | _ => false

/-- The number of calls of `microudp_service` in a stretch of trace. -/
def polls_in (t : List Event) : Nat := t.countP Event.is_poll

/-- One step of the scan of a trace that collects the frames started outside
`microudp_service`.  The flag tells whether the scan is inside a call of
`microudp_service` that found a frame: between the poll that read the flag
set and the write that acknowledges it. -/
def scan_step (s : Bool × List Buf) (e : Event) : Bool × List Buf :=
  match e with
  | .sram_writer_ev_pending_read true => (true, s.2)
  | .sram_writer_ev_pending_write _ => (false, s.2)
  | .sram_reader_start_write _ mem => if s.1 then s else (false, s.2 ++ [mem])
  | _ => s

/-- The frames a stretch of trace starts outside `microudp_service` (those
that `microudp_arp_resolve` and `microudp_send` transmit themselves, as
opposed to the ARP replies of `process_arp`), each as the memory handed to
the DMA engine, in order. -/
def own_frames (t : List Event) : List Buf := (t.foldl scan_step (false, [])).2

/-- The events of one `send_packet`: slot and length writes, `d` polls of
the ready register that read zero and one that does not, the start write. -/
def tx_events (slot len d : Nat) (mem : Buf) : List Event :=
  [Event.sram_reader_slot_write slot, Event.sram_reader_length_write len] ++
    List.replicate d (Event.sram_reader_ready_read false) ++
    [Event.sram_reader_ready_read true, Event.sram_reader_start_write 1 mem]

/-- The event is neither the poll nor the acknowledge of a receive event. -/
def Event.inner : Event → Bool
  | .sram_writer_ev_pending_read _ => false
  | .sram_writer_ev_pending_write _ => false
  | _ => true

/-- What a received frame does to the ARP cache entry for `ip`: the sender
MAC of an accepted ARP reply from `ip` replaces the cached MAC. -/
def reply_mac (p : Platform) (ip : Nat) (ev : RxEvent) : Option Mac :=
  if frame_accepted p ev.data ev.length && is_arp_reply_from p ev.data ev.length ip then
    some (rdMac ev.data (ETH_HEADER_SIZE p + 8))
  else none

/-! ## A concrete system, for worked examples -/

/-- A big-endian target whose MAC handles preamble and CRC. -/
def demo_platform : Platform where
  hw_preamble_crc := true
  big_endian := true
  crc32 := fun _ _ _ => 0
  ev_sram_reader := 1
  ev_sram_writer := 1

/-- A big-endian target that computes preamble and CRC in software. -/
def demo_platform_sw : Platform where
  hw_preamble_crc := false
  big_endian := true
  crc32 := fun _ _ _ => 0
  ev_sram_reader := 1
  ev_sram_writer := 1

/-- A little-endian target whose MAC handles preamble and CRC. -/
def demo_platform_le : Platform where
  hw_preamble_crc := true
  big_endian := false
  crc32 := fun _ _ _ => 0
  ev_sram_reader := 1
  ev_sram_writer := 1

/-- Hardware that is always ready to transmit and never receives anything. -/
def demo_env : Env where
  ready_after := fun _ => some 0
  rx := fun _ => none

/-- The state at power-up: all statics and all buffers zero. -/
def demo_blank : State where
  rxslot := 0
  rxlen := 0
  rxbuffer := BufSel.buf0
  rxbuffer0 := fun _ => 0
  rxbuffer1 := fun _ => 0
  txslot := 0
  txlen := 0
  txbuffer := BufSel.buf0
  txbuffer0 := fun _ => 0
  txbuffer1 := fun _ => 0
  my_mac := zeroMac
  my_ip := 0
  cached_mac := zeroMac
  cached_ip := 0
  rx_callback := 0
  trace := []
  sends := 0
  polls := 0

/-- The host MAC address AA:BB:CC:DD:EE:FF. -/
def demo_mac : Mac := ![0xaa, 0xbb, 0xcc, 0xdd, 0xee, 0xff]

/-- The peer MAC address 11:22:33:44:55:66. -/
def demo_peer_mac : Mac := ![0x11, 0x22, 0x33, 0x44, 0x55, 0x66]

/-- The host IP address 10.0.0.1. -/
def demo_ip : Nat := 0x0a000001

/-- The peer IP address 10.0.0.2. -/
def demo_peer_ip : Nat := 0x0a000002

/-- The state after `microudp_start(AA:BB:CC:DD:EE:FF, 10.0.0.1)`. -/
def demo_started : State := microudp_start demo_platform demo_mac demo_ip demo_blank

/-- The started state once the cache holds (10.0.0.2, 11:22:33:44:55:66) and
the caller has written the payload 1, 2, 3, 4 into the buffer of
`microudp_get_tx_buffer`. -/
def demo_resolved : State :=
  { demo_started with
    cached_ip := demo_peer_ip
    cached_mac := demo_peer_mac
    txbuffer0 := wr8 (wr8 (wr8 (wr8 demo_started.txbuffer0 42 1) 43 2) 44 3) 45 4 }

/-! ## Notions used in the proofs -/

/-- The tests of `process_arp` that requests and replies share (lines
170-174): length, hardware type, protocol type, address sizes. -/
def arp_checks (p : Platform) (rx : Buf) (rxlen : Nat) : Bool :=
  decide (ARP_PACKET_LENGTH p ≤ rxlen)
    && rd16 p rx (ETH_HEADER_SIZE p) == 1
    && rd16 p rx (ETH_HEADER_SIZE p + 2) == 0x0800
    && rd8 rx (ETH_HEADER_SIZE p + 4) == 6
    && rd8 rx (ETH_HEADER_SIZE p + 5) == 4

/-- The state in which `process_arp` calls `send_packet` to answer a request
(lines 187-202). -/
def arp_reply_state (p : Platform) (st : State) : State :=
  let rx := st.rxmem st.rxbuffer
  let h := ETH_HEADER_SIZE p
  let tx_arp := st.txbuffer
  let st := st.setTxmem st.txbuffer
    (fill_eth_header p (st.txmem st.txbuffer) (rdMac rx (h + 8)) st.my_mac ETHERTYPE_ARP)
  let st := { st with txlen := ARP_PACKET_LENGTH p }
  st.setTxmem tx_arp
    (arp_fill p (st.txmem tx_arp) ARP_OPCODE_REPLY st.my_ip st.my_mac
      (rd32 p rx (h + 14)) (rdMac rx (h + 8)))

/-- The values written to the slot register of the SRAM reader in a stretch
of trace, in order: the TX slot of each transmission. -/
def slot_writes : List Event → List Nat
  | [] => []
  | Event.sram_reader_slot_write v :: t => v :: slot_writes t
  | _ :: t => slot_writes t

/-- The values written to the length register of the SRAM reader in a stretch
of trace, in order: the length of each transmission. -/
def length_writes : List Event → List Nat
  | [] => []
  | Event.sram_reader_length_write v :: t => v :: length_writes t
  | _ :: t => length_writes t

/-- The number of CRC bytes `send_packet` appends: 4, or 0 with
`HW_PREAMBLE_CRC`. -/
def CRC_SIZE (p : Platform) : Nat := if p.hw_preamble_crc then 0 else 4

/-- The value of `txlen` when `microudp_send` calls `send_packet`: the sum of
line 302, computed in `unsigned int`, raised to `ARP_PACKET_LENGTH` by line 303. -/
def send_txlen (p : Platform) (length : Nat) : Nat :=
  if (length + ETH_HEADER_SIZE p + UDP_FRAME_SIZE) % 4294967296 < ARP_PACKET_LENGTH p
  then ARP_PACKET_LENGTH p
  else (length + ETH_HEADER_SIZE p + UDP_FRAME_SIZE) % 4294967296

/-- An IPv4/UDP frame of 42 bytes for 10.0.0.1, as it lies in an RX buffer of
a target whose MAC handles preamble and CRC: Ethernet and IPv4 headers, a UDP
header whose length field is 0xFFFF, and no payload byte. -/
def demo_udp_frame : Buf :=
  let b := fill_eth_header demo_platform (fun _ => 0) demo_mac demo_peer_mac ETHERTYPE_IP
  let b := wr8 b 14 IP_IPV4
  let b := wr16 demo_platform b 16 28
  let b := wr8 b 23 IP_PROTO_UDP
  let b := wr32 demo_platform b 26 demo_peer_ip
  let b := wr32 demo_platform b 30 demo_ip
  let b := wr16 demo_platform b 34 1234
  let b := wr16 demo_platform b 36 5678
  wr16 demo_platform b 38 0xffff

/-- The started state with callback 1 registered and `demo_udp_frame`, of 42
bytes, in the active RX buffer. -/
def demo_udp_state : State :=
  { demo_started with
    rx_callback := 1
    rxlen := 42
    rxbuffer0 := demo_udp_frame }

/-- The slots of `n` successive transmissions, the first of which uses slot
`s`: `s`, then the other slot, and so on in turn. -/
def alternating (s n : Nat) : List Nat := (List.range n).map (fun k => (s + k) % 2)

/-- The code has run from state `st` to state `st'`: the trace has grown, every
length written to the length register satisfies `P`, and when `txbuffer`
designated the buffer of slot `txslot` before, it does so after, the slots
written to the slot register alternate from `st.txslot` on, and `txslot` is
the slot after the last one written. -/
def tx_run (P : Nat → Prop) (st st' : State) : Prop :=
  ∃ new, st'.trace = st.trace ++ new
    ∧ (∀ v ∈ length_writes new, P v)
    ∧ (st.tx_consistent → st'.tx_consistent
        ∧ slot_writes new = alternating st.txslot (slot_writes new).length
        ∧ st'.txslot = (st.txslot + (slot_writes new).length) % 2)

/-- The lengths the ARP code writes to the length register. -/
def arp_len (p : Platform) (v : Nat) : Prop := v = ARP_PACKET_LENGTH p + CRC_SIZE p

/-- The states the program can be in once `microudp_start` has returned, each
with the events since that return: the state `microudp_start` leaves, and
every state reached from there by a call of `microudp_set_callback`,
`microudp_send`, `microudp_arp_resolve` or `microudp_service` that returns,
or by the caller writing into the buffer of `microudp_get_tx_buffer`. -/
inductive Reachable (p : Platform) (env : Env) : State → List Event → Prop
  | start (macaddr : Mac) (ip : Nat) (st : State) :
      Reachable p env (microudp_start p macaddr ip st) []
  | set_callback (callback : Nat) (st : State) (t : List Event) :
      Reachable p env st t → Reachable p env (microudp_set_callback callback st) t
  | fill (b : Buf) (st : State) (t : List Event) :
      Reachable p env st t → Reachable p env (st.setTxmem st.txbuffer b) t
  | send (src_port dst_port length : Nat) (st : State) (t : List Event) (r : Nat) (st' : State)
      (new : List Event) :
      Reachable p env st t →
      microudp_send p env src_port dst_port length st = some (r, st') →
      st'.trace = st.trace ++ new → Reachable p env st' (t ++ new)
  | resolve (ip : Nat) (st : State) (t : List Event) (r : Nat) (st' : State) (new : List Event) :
      Reachable p env st t →
      microudp_arp_resolve p env ip st = some (r, st') →
      st'.trace = st.trace ++ new → Reachable p env st' (t ++ new)
  | service (st : State) (t : List Event) (st' : State) (new : List Event) :
      Reachable p env st t →
      microudp_service p env st = some st' →
      st'.trace = st.trace ++ new → Reachable p env st' (t ++ new)

/-- The function `crc32(&b[off], len)` depends on nothing but the `len` bytes
it is given. -/
def Platform.crc32_local (p : Platform) : Prop :=
  ∀ (b c : Buf) (off len : Nat), (∀ i, i < len → b (off + i) = c (off + i)) →
    p.crc32 b off len = p.crc32 c off len

/-- An ARP request of 60 bytes from 10.0.0.2 at 11:22:33:44:55:66 for the
address 10.0.0.1, as it lies in an RX buffer of a target whose MAC handles
preamble and CRC. -/
def demo_request : Buf :=
  arp_fill demo_platform
    (fill_eth_header demo_platform (fun _ => 0) broadcast demo_peer_mac ETHERTYPE_ARP)
    ARP_OPCODE_REQUEST demo_peer_ip demo_peer_mac demo_ip zeroMac

/-- The started state with `demo_request` in the active RX buffer. -/
def demo_asked : State :=
  { demo_started with
    rxlen := 60
    rxbuffer0 := demo_request }

/-- A started state of a target that computes preamble and CRC in software,
in which the hardware reports a received frame of 3 bytes while the active RX
buffer starts with the preamble of an earlier frame. -/
def demo_runt : State :=
  { microudp_start demo_platform_sw demo_mac demo_ip demo_blank with
    rxlen := 3
    rxbuffer0 :=
      fill_eth_header demo_platform_sw (fun _ => 0) broadcast demo_peer_mac ETHERTYPE_ARP }

/-- A started state of a target that computes preamble and CRC in software,
with an Ethernet header written by `fill_eth_header` in the active TX buffer
and `txlen` set to 68. -/
def demo_framed : State :=
  { microudp_start demo_platform_sw demo_mac demo_ip demo_blank with
    txlen := 68
    txbuffer0 :=
      fill_eth_header demo_platform_sw (fun _ => 0) broadcast demo_mac ETHERTYPE_ARP }

/-! # Properties -/

set_option linter.unusedVariables false

theorem add_overflows_closed (fuel : Nat) : ∀ r, r ≤ fuel →
    add_overflows fuel r = if r = 0 then 0 else (r - 1) % 65535 + 1 := by
  induction fuel with
  | zero => intro r hr; have : r = 0 := by omega
            subst this; simp [add_overflows]
  | succ n ih =>
    intro r hr
    simp only [add_overflows, Nat.shiftRight_eq_div_pow, Nat.and_pow_two_sub_one_eq_mod r 16,
      show (0xffff : Nat) = 2 ^ 16 - 1 by norm_num]
    norm_num
    by_cases h : r < 65536
    · rw [if_pos (by omega)]
      split <;> omega
    · rw [if_neg (by omega), ih _ (by omega)]
      split <;> split <;> omega

theorem rd8_lt (b : Buf) (i : Nat) : rd8 b i < 256 := (b i).isLt

@[simp] theorem rd8_wr8_same (b : Buf) (i v : Nat) : rd8 (wr8 b i v) i = v % 256 := by
  simp [rd8, wr8, toByte]

theorem rd8_wr8_ne (b : Buf) (i j v : Nat) (h : j ≠ i) : rd8 (wr8 b i v) j = rd8 b j := by
  simp [rd8, wr8, toByte, h]

theorem shl8_or (a b : Nat) (h : b < 256) : (a <<< 8) ||| b = a * 256 + b := by
  rw [Nat.shiftLeft_eq, Nat.mul_comm, ← Nat.mul_add_lt_is_or (by simpa using h)]

theorem ip_checksum_acc_eq (r : Nat) (ptr : Buf) (off n : Nat) :
    ip_checksum_acc r ptr off n % 4294967296 = (r + sum16 ptr off n) % 4294967296 := by
  induction n with
  | zero => simp [ip_checksum_acc, sum16]
  | succ n ih =>
    unfold ip_checksum_acc at ih ⊢
    rw [List.range_succ, List.foldl_append]
    simp only [List.foldl_cons, List.foldl_nil, sum16, word16]
    rw [shl8_or _ _ (rd8_lt _ _)]
    omega

theorem sum16_le (b : Buf) (off n : Nat) : sum16 b off n ≤ n * 65535 := by
  induction n with
  | zero => simp [sum16]
  | succ n ih =>
    have h1 := rd8_lt b (off + 2 * n)
    have h2 := rd8_lt b (off + 2 * n + 1)
    simp only [sum16, word16]
    omega

theorem sum16_split (b : Buf) (off m n : Nat) :
    sum16 b off (m + n) = sum16 b off m + sum16 b (off + 2 * m) n := by
  induction n with
  | zero => simp [sum16]
  | succ n ih =>
    rw [← Nat.add_assoc, sum16, sum16, ih]
    have : off + 2 * (m + n) = off + 2 * m + 2 * n := by ring
    rw [this]; omega

theorem sum16_congr (b c : Buf) (off n : Nat)
    (h : ∀ i, off ≤ i → i < off + 2 * n → b i = c i) : sum16 b off n = sum16 c off n := by
  induction n with
  | zero => simp [sum16]
  | succ n ih =>
    simp only [sum16, word16, rd8]
    rw [ih (fun i h1 h2 => h i h1 (by omega)), h _ (by omega) (by omega), h _ (by omega) (by omega)]

theorem and_ffff (x : Nat) : x &&& 0xffff = x % 65536 :=
  Nat.and_pow_two_sub_one_eq_mod x 16

theorem add_overflows_self (r : Nat) :
    add_overflows r r = if r = 0 then 0 else (r - 1) % 65535 + 1 :=
  add_overflows_closed r r (Nat.le_refl r)

theorem add_overflows_le (r : Nat) : add_overflows r r ≤ 65535 := by
  rw [add_overflows_self]; split <;> omega

theorem ip_checksum_r_le (r : Nat) (ptr : Buf) (off length complete : Nat) :
    ip_checksum_r r ptr off length complete ≤ 65535 := by
  unfold ip_checksum_r
  simp only [and_ffff]
  have h := add_overflows_le (ip_checksum_acc r ptr off (length >>> 1))
  split
  · split <;> omega
  · exact h

theorem ip_checksum_eq_r (r : Nat) (ptr : Buf) (off length complete : Nat) :
    ip_checksum r ptr off length complete = ip_checksum_r r ptr off length complete := by
  unfold ip_checksum
  exact Nat.mod_eq_of_lt (by have := ip_checksum_r_le r ptr off length complete; omega)

/-- Claim C10.  For every seed, buffer, length and `complete`, the
carry-folding loop of `ip_checksum` ends with its condition false, the value
of `r` at `return r` is at most 0xffff, so the conversion to `unsigned short`
loses nothing; and when `complete` is non-zero the result is never 0: a
complement that is 0 is returned as 0xffff. -/
theorem ip_checksum_never_zero (r : Nat) (ptr : Buf) (off length complete : Nat) :
    add_overflows (ip_checksum_acc r ptr off (length >>> 1))
        (ip_checksum_acc r ptr off (length >>> 1)) >>> 16 = 0
    ∧ ip_checksum_r r ptr off length complete ≤ 0xffff
    ∧ ip_checksum r ptr off length complete = ip_checksum_r r ptr off length complete
    ∧ (complete ≠ 0 → ip_checksum r ptr off length complete ≠ 0)
    ∧ (complete ≠ 0 →
        (4294967295 - add_overflows (ip_checksum_acc r ptr off (length >>> 1))
          (ip_checksum_acc r ptr off (length >>> 1))) &&& 0xffff = 0 →
        ip_checksum r ptr off length complete = 0xffff) := by
  have hle := add_overflows_le (ip_checksum_acc r ptr off (length >>> 1))
  refine ⟨?_, ip_checksum_r_le _ _ _ _ _, ip_checksum_eq_r _ _ _ _ _, ?_, ?_⟩
  · rw [Nat.shiftRight_eq_div_pow]; norm_num; omega
  · intro hc
    rw [ip_checksum_eq_r]
    unfold ip_checksum_r
    simp only [and_ffff] at *
    rw [if_pos hc]
    split <;> omega
  · intro hc h0
    rw [ip_checksum_eq_r]
    unfold ip_checksum_r
    simp only [hc, ne_eq, not_false_eq_true, if_true, h0]

theorem ip_checksum_never_zero_witness :
    ip_checksum 0 (fun _ => 0) 0 20 1 ≠ 0 :=
  (ip_checksum_never_zero 0 (fun _ => 0) 0 20 1).2.2.2.1 (by decide)

theorem ip_checksum_acc_zero (ptr : Buf) (off n : Nat) (hn : n ≤ 65536) :
    ip_checksum_acc 0 ptr off n = sum16 ptr off n := by
  have h := ip_checksum_acc_eq 0 ptr off n
  have hle := sum16_le ptr off n
  have hlt : ip_checksum_acc 0 ptr off n < 4294967296 := by
    cases n with
    | zero => simp [ip_checksum_acc]
    | succ n =>
      unfold ip_checksum_acc
      rw [List.range_succ, List.foldl_append]
      simp only [List.foldl_cons, List.foldl_nil]
      omega
  have : n * 65535 < 4294967296 := by nlinarith
  omega

/-- Claim C7.  For a 20-byte IPv4 header at offset `off` of `H` whose checksum
field (bytes 10 and 11) is zero, storing `ip_checksum(0, H, 20, 1)` in that
field, most significant byte first, makes the verification pass
`ip_checksum(0, H', 20, 0)` return 0xffff.  This covers the corner cases:
when the header words sum to 0 or fold to 0xffff, the checksum is 0xffff. -/
theorem ip_checksum_verifies (H : Buf) (off : Nat)
    (h10 : rd8 H (off + 10) = 0) (h11 : rd8 H (off + 11) = 0) :
    ip_checksum 0
        (wr8 (wr8 H (off + 10) (ip_checksum 0 H off 20 1 >>> 8)) (off + 11)
          (ip_checksum 0 H off 20 1))
        off 20 0 = 0xffff
    ∧ (sum16 H off 10 = 0 → ip_checksum 0 H off 20 1 = 0xffff)
    ∧ (add_overflows (sum16 H off 10) (sum16 H off 10) = 0xffff →
        ip_checksum 0 H off 20 1 = 0xffff) := by
  have hS := sum16_le H off 10
  have hc : ip_checksum 0 H off 20 1 =
      if 65535 - add_overflows (sum16 H off 10) (sum16 H off 10) = 0 then 65535
      else 65535 - add_overflows (sum16 H off 10) (sum16 H off 10) := by
    rw [ip_checksum_eq_r]
    unfold ip_checksum_r
    have hf := add_overflows_le (sum16 H off 10)
    simp only [show (20 : Nat) >>> 1 = 10 by decide, ip_checksum_acc_zero H off 10 (by omega),
      and_ffff, ne_eq, one_ne_zero, not_false_eq_true, if_true]
    have : (4294967295 - add_overflows (sum16 H off 10) (sum16 H off 10)) % 65536
        = 65535 - add_overflows (sum16 H off 10) (sum16 H off 10) := by omega
    rw [this]
  generalize hcdef : ip_checksum 0 H off 20 1 = c at hc
  have hcle : c ≤ 65535 := by rw [← hcdef, ip_checksum_eq_r]; exact ip_checksum_r_le _ _ _ _ _
  have hsum : sum16 (wr8 (wr8 H (off + 10) (c >>> 8)) (off + 11) c) off 10
      = sum16 H off 10 + c := by
    rw [show (10 : Nat) = 5 + (1 + 4) by rfl, sum16_split, sum16_split, sum16_split H,
      sum16_split H]
    rw [sum16_congr _ H off 5, sum16_congr _ H (off + 2 * 5 + 2 * 1) 4]
    · simp only [sum16, word16, Nat.mul_zero, Nat.add_zero, Nat.zero_add]
      rw [rd8_wr8_same, rd8_wr8_ne _ _ _ _ (by omega), rd8_wr8_same, h10, h11,
        Nat.shiftRight_eq_div_pow]
      omega
    · intro i h1 h2
      simp [wr8, Function.update, show i ≠ off + 10 by omega, show i ≠ off + 11 by omega]
    · intro i h1 h2
      simp [wr8, Function.update, show i ≠ off + 10 by omega, show i ≠ off + 11 by omega]
  refine ⟨?_, ?_, ?_⟩
  · rw [ip_checksum_eq_r]
    unfold ip_checksum_r
    simp only [show (20 : Nat) >>> 1 = 10 by decide, ip_checksum_acc_zero _ off 10 (by omega),
      hsum, ne_eq, not_true_eq_false, if_false]
    rw [add_overflows_self] at hc ⊢
    split at hc <;> split at hc <;> split <;> omega
  · intro h0
    rw [h0] at hc
    rw [hc]; decide
  · intro h0
    rw [h0] at hc
    rw [hc]; decide

theorem ip_checksum_verifies_witness :
    ip_checksum 0
        (wr8 (wr8 (fun _ => 0) (0 + 10) (ip_checksum 0 (fun _ => 0) 0 20 1 >>> 8)) (0 + 11)
          (ip_checksum 0 (fun _ => 0) 0 20 1))
        0 20 0 = 0xffff :=
  (ip_checksum_verifies (fun _ => 0) 0 (by decide) (by decide)).1

theorem wr8_apply (b : Buf) (i v j : Nat) : wr8 b i v j = if j = i then toByte v else b j := by
  simp [wr8, Function.update]

theorem rd8_wr8 (b : Buf) (i v j : Nat) :
    rd8 (wr8 b i v) j = if j = i then v % 256 else rd8 b j := by
  simp only [rd8, wr8_apply]; split <;> simp [toByte]

theorem macNonZero_eq_false (m : Mac) : macNonZero m = false ↔ m = zeroMac := by
  constructor
  · intro h
    simp only [macNonZero, Bool.or_eq_false_iff, bne_eq_false_iff_eq] at h
    funext i
    fin_cases i <;> simp [zeroMac, h]
  · intro h; subst h; rfl

theorem macNonZero_eq_true (m : Mac) : macNonZero m = true ↔ m ≠ zeroMac := by
  rw [ne_eq, ← macNonZero_eq_false]; simp

/-- Claim C1.  With an all-zero `cached_mac`, `microudp_send` returns 0 and
leaves the whole state as it was, for every `src_port`, `dst_port` and
`length`: nothing is appended to the trace (no write to the slot, length or
start register of the DMA engine), and `txslot`, `txlen`, `txbuffer`, the
contents of the TX buffers and the ARP cache are unchanged. -/
theorem microudp_send_unresolved (p : Platform) (env : Env) (src_port dst_port length : Nat)
    (st : State) (h : ∀ i, st.cached_mac i = 0) :
    microudp_send p env src_port dst_port length st = some (0, st) := by
  have : macNonZero st.cached_mac = false := by
    rw [macNonZero_eq_false]; funext i; simpa [zeroMac] using h i
  simp [microudp_send, this]

theorem append_crc_frame (p : Platform) (st : State) :
    (append_crc p st).sends = st.sends ∧ (append_crc p st).trace = st.trace
    ∧ (append_crc p st).polls = st.polls ∧ (append_crc p st).cached_ip = st.cached_ip
    ∧ (append_crc p st).cached_mac = st.cached_mac ∧ (append_crc p st).my_ip = st.my_ip
    ∧ (append_crc p st).my_mac = st.my_mac ∧ (append_crc p st).rxslot = st.rxslot
    ∧ (append_crc p st).rxlen = st.rxlen ∧ (append_crc p st).rxbuffer = st.rxbuffer
    ∧ (append_crc p st).rxbuffer0 = st.rxbuffer0 ∧ (append_crc p st).rxbuffer1 = st.rxbuffer1
    ∧ (append_crc p st).rx_callback = st.rx_callback ∧ (append_crc p st).txslot = st.txslot
    ∧ (append_crc p st).txbuffer = st.txbuffer := by
  unfold append_crc
  split
  · exact ⟨rfl, rfl, rfl, rfl, rfl, rfl, rfl, rfl, rfl, rfl, rfl, rfl, rfl, rfl, rfl⟩
  · cases hb : st.txbuffer <;> simp [State.setTxmem, hb]

theorem send_packet_frame (p : Platform) (env : Env) (st st' : State)
    (h : send_packet p env st = some st') :
    st'.cached_ip = st.cached_ip ∧ st'.cached_mac = st.cached_mac
    ∧ st'.my_ip = st.my_ip ∧ st'.my_mac = st.my_mac
    ∧ st'.rxslot = st.rxslot ∧ st'.rxlen = st.rxlen ∧ st'.rxbuffer = st.rxbuffer
    ∧ st'.rxbuffer0 = st.rxbuffer0 ∧ st'.rxbuffer1 = st.rxbuffer1
    ∧ st'.rx_callback = st.rx_callback ∧ st'.polls = st.polls
    ∧ st'.sends = st.sends + 1 := by
  obtain ⟨a1, -, a3, a4, a5, a6, a7, a8, a9, a10, a11, a12, a13, -, -⟩ := append_crc_frame p st
  unfold send_packet at h
  generalize append_crc p st = X at *
  simp only at h
  split at h
  · exact absurd h (by simp)
  · simp only [Option.some.injEq] at h
    subst h
    split <;> exact ⟨a4, a5, a6, a7, a8, a9, a10, a11, a12, a13, a3, by rw [← a1]⟩

theorem send_packet_isSome (p : Platform) (env : Env) (st : State)
    (h : (env.ready_after st.sends).isSome = true) : (send_packet p env st).isSome = true := by
  obtain ⟨d, hd⟩ := Option.isSome_iff_exists.mp h
  obtain ⟨a1, -⟩ := append_crc_frame p st
  unfold send_packet
  generalize append_crc p st = X at *
  simp only [a1, hd]
  rfl

theorem send_packet_spec (p : Platform) (env : Env) (st : State) (d : Nat)
    (hr : env.ready_after st.sends = some d) (hc : st.tx_consistent) :
    ∃ st', send_packet p env st = some st'
      ∧ st'.trace = st.trace ++
          [Event.sram_reader_slot_write st.txslot,
           Event.sram_reader_length_write
             (if p.hw_preamble_crc then st.txlen else (st.txlen + 4) % 4294967296)] ++
          List.replicate d (Event.sram_reader_ready_read false) ++
          [Event.sram_reader_ready_read true,
           Event.sram_reader_start_write 1 (crc_appended p (st.txmem st.txbuffer) st.txlen)]
      ∧ st'.txmem st.txbuffer = crc_appended p (st.txmem st.txbuffer) st.txlen
      ∧ st'.txmem st.txbuffer.other = st.txmem st.txbuffer.other
      ∧ st'.txbuffer = st.txbuffer.other
      ∧ st'.tx_consistent
      ∧ st'.txlen = (if p.hw_preamble_crc then st.txlen else (st.txlen + 4) % 4294967296)
      ∧ st'.sends = st.sends + 1 ∧ st'.polls = st.polls
      ∧ st'.cached_ip = st.cached_ip ∧ st'.cached_mac = st.cached_mac
      ∧ st'.my_ip = st.my_ip ∧ st'.my_mac = st.my_mac
      ∧ st'.rxslot = st.rxslot ∧ st'.rxlen = st.rxlen ∧ st'.rxbuffer = st.rxbuffer
      ∧ st'.rxbuffer0 = st.rxbuffer0 ∧ st'.rxbuffer1 = st.rxbuffer1
      ∧ st'.rx_callback = st.rx_callback := by
  rcases hc with ⟨h1, h2⟩ | ⟨h1, h2⟩ <;> cases hp : p.hw_preamble_crc <;>
    simp [send_packet, append_crc, hp, hr, h1, h2, State.txmem, State.setTxmem, State.slotmem,
      crc_appended, BufSel.other, State.tx_consistent]

/-! ### Reads over writes -/

theorem wr8_of_ne (b : Buf) (i v j : Nat) (h : j ≠ i) : wr8 b i v j = b j := by
  simp [wr8_apply, h]

theorem wr16_of_ne (p : Platform) (b : Buf) (off v j : Nat) (h : j < off ∨ off + 2 ≤ j) :
    wr16 p b off v j = b j := by
  unfold wr16; split <;> rw [wr8_of_ne _ _ _ _ (by omega), wr8_of_ne _ _ _ _ (by omega)]

theorem wr32_of_ne (p : Platform) (b : Buf) (off v j : Nat) (h : j < off ∨ off + 4 ≤ j) :
    wr32 p b off v j = b j := by
  unfold wr32; split <;>
    rw [wr8_of_ne _ _ _ _ (by omega), wr8_of_ne _ _ _ _ (by omega),
      wr8_of_ne _ _ _ _ (by omega), wr8_of_ne _ _ _ _ (by omega)]

theorem wrMac_of_ne (b : Buf) (off : Nat) (m : Mac) (j : Nat) (h : j < off ∨ off + 6 ≤ j) :
    wrMac b off m j = b j := by
  unfold wrMac
  rw [wr8_of_ne _ _ _ _ (by omega), wr8_of_ne _ _ _ _ (by omega), wr8_of_ne _ _ _ _ (by omega),
    wr8_of_ne _ _ _ _ (by omega), wr8_of_ne _ _ _ _ (by omega), wr8_of_ne _ _ _ _ (by omega)]

theorem rd8_congr (b c : Buf) (j : Nat) (h : b j = c j) : rd8 b j = rd8 c j := by
  simp [rd8, h]

theorem rd16_congr (p : Platform) (b c : Buf) (off : Nat)
    (h : ∀ j, off ≤ j → j < off + 2 → b j = c j) : rd16 p b off = rd16 p c off := by
  simp only [rd16, rd8, h off (by omega) (by omega), h (off + 1) (by omega) (by omega)]

theorem rd32_congr (p : Platform) (b c : Buf) (off : Nat)
    (h : ∀ j, off ≤ j → j < off + 4 → b j = c j) : rd32 p b off = rd32 p c off := by
  simp only [rd32, rd8, h off (by omega) (by omega), h (off + 1) (by omega) (by omega),
    h (off + 2) (by omega) (by omega), h (off + 3) (by omega) (by omega)]

theorem rdMac_congr (b c : Buf) (off : Nat)
    (h : ∀ j, off ≤ j → j < off + 6 → b j = c j) : rdMac b off = rdMac c off := by
  funext i
  have := i.isLt
  exact h _ (by omega) (by omega)

theorem rd16_wr16 (p : Platform) (b : Buf) (off v : Nat) :
    rd16 p (wr16 p b off v) off = v % 65536 := by
  cases he : p.big_endian <;> simp [rd16, wr16, he, rd8_wr8] <;> omega

theorem rd32_wr32 (p : Platform) (b : Buf) (off v : Nat) :
    rd32 p (wr32 p b off v) off = v % 4294967296 := by
  cases he : p.big_endian <;> simp [rd32, wr32, he, rd8_wr8] <;> omega

theorem toByte_val (x : Byte) : toByte x.val = x := by
  apply Fin.ext
  simp only [toByte]
  exact Nat.mod_eq_of_lt x.isLt

theorem rdMac_wrMac (b : Buf) (off : Nat) (m : Mac) : rdMac (wrMac b off m) off = m := by
  funext i
  fin_cases i <;> simp [rdMac, wrMac, wr8_apply, toByte_val]

/-- Reading a byte, a short, a word or a MAC address at `off` gives the same
in two buffers that agree on the bytes read. -/
theorem rd8_wr16_ne (p : Platform) (b : Buf) (off v j : Nat) (h : j < off ∨ off + 2 ≤ j) :
    rd8 (wr16 p b off v) j = rd8 b j := rd8_congr _ _ _ (wr16_of_ne _ _ _ _ _ h)

theorem rd8_wr32_ne (p : Platform) (b : Buf) (off v j : Nat) (h : j < off ∨ off + 4 ≤ j) :
    rd8 (wr32 p b off v) j = rd8 b j := rd8_congr _ _ _ (wr32_of_ne _ _ _ _ _ h)

theorem rd8_wrMac_ne (b : Buf) (off : Nat) (m : Mac) (j : Nat) (h : j < off ∨ off + 6 ≤ j) :
    rd8 (wrMac b off m) j = rd8 b j := rd8_congr _ _ _ (wrMac_of_ne _ _ _ _ h)

theorem rd16_wr8_ne (p : Platform) (b : Buf) (i v off : Nat) (h : i < off ∨ off + 2 ≤ i) :
    rd16 p (wr8 b i v) off = rd16 p b off :=
  rd16_congr _ _ _ _ (fun j _ _ => wr8_of_ne _ _ _ _ (by omega))

theorem rd16_wr16_ne (p : Platform) (b : Buf) (o v off : Nat) (h : o + 2 ≤ off ∨ off + 2 ≤ o) :
    rd16 p (wr16 p b o v) off = rd16 p b off :=
  rd16_congr _ _ _ _ (fun j _ _ => wr16_of_ne _ _ _ _ _ (by omega))

theorem rd16_wr32_ne (p : Platform) (b : Buf) (o v off : Nat) (h : o + 4 ≤ off ∨ off + 2 ≤ o) :
    rd16 p (wr32 p b o v) off = rd16 p b off :=
  rd16_congr _ _ _ _ (fun j _ _ => wr32_of_ne _ _ _ _ _ (by omega))

theorem rd16_wrMac_ne (p : Platform) (b : Buf) (o : Nat) (m : Mac) (off : Nat)
    (h : o + 6 ≤ off ∨ off + 2 ≤ o) : rd16 p (wrMac b o m) off = rd16 p b off :=
  rd16_congr _ _ _ _ (fun j _ _ => wrMac_of_ne _ _ _ _ (by omega))

theorem rd32_wr8_ne (p : Platform) (b : Buf) (i v off : Nat) (h : i < off ∨ off + 4 ≤ i) :
    rd32 p (wr8 b i v) off = rd32 p b off :=
  rd32_congr _ _ _ _ (fun j _ _ => wr8_of_ne _ _ _ _ (by omega))

theorem rd32_wr16_ne (p : Platform) (b : Buf) (o v off : Nat) (h : o + 2 ≤ off ∨ off + 4 ≤ o) :
    rd32 p (wr16 p b o v) off = rd32 p b off :=
  rd32_congr _ _ _ _ (fun j _ _ => wr16_of_ne _ _ _ _ _ (by omega))

theorem rd32_wr32_ne (p : Platform) (b : Buf) (o v off : Nat) (h : o + 4 ≤ off ∨ off + 4 ≤ o) :
    rd32 p (wr32 p b o v) off = rd32 p b off :=
  rd32_congr _ _ _ _ (fun j _ _ => wr32_of_ne _ _ _ _ _ (by omega))

theorem rd32_wrMac_ne (p : Platform) (b : Buf) (o : Nat) (m : Mac) (off : Nat)
    (h : o + 6 ≤ off ∨ off + 4 ≤ o) : rd32 p (wrMac b o m) off = rd32 p b off :=
  rd32_congr _ _ _ _ (fun j _ _ => wrMac_of_ne _ _ _ _ (by omega))

theorem rdMac_wr8_ne (b : Buf) (i v off : Nat) (h : i < off ∨ off + 6 ≤ i) :
    rdMac (wr8 b i v) off = rdMac b off :=
  rdMac_congr _ _ _ (fun j _ _ => wr8_of_ne _ _ _ _ (by omega))

theorem rdMac_wr16_ne (p : Platform) (b : Buf) (o v off : Nat) (h : o + 2 ≤ off ∨ off + 6 ≤ o) :
    rdMac (wr16 p b o v) off = rdMac b off :=
  rdMac_congr _ _ _ (fun j _ _ => wr16_of_ne _ _ _ _ _ (by omega))

theorem rdMac_wr32_ne (p : Platform) (b : Buf) (o v off : Nat) (h : o + 4 ≤ off ∨ off + 6 ≤ o) :
    rdMac (wr32 p b o v) off = rdMac b off :=
  rdMac_congr _ _ _ (fun j _ _ => wr32_of_ne _ _ _ _ _ (by omega))

theorem rdMac_wrMac_ne (b : Buf) (o : Nat) (m : Mac) (off : Nat)
    (h : o + 6 ≤ off ∨ off + 6 ≤ o) : rdMac (wrMac b o m) off = rdMac b off :=
  rdMac_congr _ _ _ (fun j _ _ => wrMac_of_ne _ _ _ _ (by omega))

/-! ### `fill_eth_header` -/

theorem preamble_of_ge (b : Buf) (j : Nat) (h : 8 ≤ j) :
    wr8 ((List.range 7).foldl (fun b i => wr8 b i 0x55) b) 7 0xd5 j = b j := by
  simp only [show List.range 7 = [0, 1, 2, 3, 4, 5, 6] by decide, List.foldl_cons, List.foldl_nil]
  simp (disch := omega) only [wr8_of_ne]

theorem fill_eth_header_of_ge (p : Platform) (b : Buf) (d s : Mac) (t j : Nat)
    (h : ETH_HEADER_SIZE p ≤ j) : fill_eth_header p b d s t j = b j := by
  unfold ETH_HEADER_SIZE at h
  unfold fill_eth_header
  simp only
  rw [wr16_of_ne _ _ _ _ _ (by omega), wrMac_of_ne _ _ _ _ (by omega),
    wrMac_of_ne _ _ _ _ (by omega)]
  split
  · rfl
  · rename_i hp
    have : ETH_DESTMAC p = 8 := by simp [ETH_DESTMAC, hp]
    exact preamble_of_ge _ _ (by omega)

theorem fill_eth_header_destmac (p : Platform) (b : Buf) (d s : Mac) (t : Nat) :
    rdMac (fill_eth_header p b d s t) (ETH_DESTMAC p) = d := by
  unfold fill_eth_header
  simp only
  rw [rdMac_wr16_ne _ _ _ _ _ (by omega), rdMac_wrMac_ne _ _ _ _ (by omega), rdMac_wrMac]

theorem fill_eth_header_srcmac (p : Platform) (b : Buf) (d s : Mac) (t : Nat) :
    rdMac (fill_eth_header p b d s t) (ETH_DESTMAC p + 6) = s := by
  unfold fill_eth_header
  simp only
  rw [rdMac_wr16_ne _ _ _ _ _ (by omega), rdMac_wrMac]

theorem fill_eth_header_ethertype (p : Platform) (b : Buf) (d s : Mac) (t : Nat) :
    rd16 p (fill_eth_header p b d s t) (ETH_DESTMAC p + 12) = t % 65536 := by
  unfold fill_eth_header
  simp only
  rw [rd16_wr16]

set_option maxHeartbeats 1000000 in
theorem send_fill_fields (p : Platform) (b : Buf) (cm mm : Mac) (mi ci sp dp length : Nat)
    (hl : ETH_HEADER_SIZE p + 28 + length < 4294967296) :
    rdMac (send_fill p b cm mm mi ci sp dp length) (ETH_DESTMAC p) = cm
    ∧ rdMac (send_fill p b cm mm mi ci sp dp length) (ETH_DESTMAC p + 6) = mm
    ∧ rd16 p (send_fill p b cm mm mi ci sp dp length) (ETH_DESTMAC p + 12) = 0x0800
    ∧ rd8 (send_fill p b cm mm mi ci sp dp length) (ETH_HEADER_SIZE p) = 0x45
    ∧ rd8 (send_fill p b cm mm mi ci sp dp length) (ETH_HEADER_SIZE p + 1) = 0
    ∧ rd16 p (send_fill p b cm mm mi ci sp dp length) (ETH_HEADER_SIZE p + 2)
        = (length + 28) % 65536
    ∧ rd16 p (send_fill p b cm mm mi ci sp dp length) (ETH_HEADER_SIZE p + 4) = 0
    ∧ rd16 p (send_fill p b cm mm mi ci sp dp length) (ETH_HEADER_SIZE p + 6) = 0x4000
    ∧ rd8 (send_fill p b cm mm mi ci sp dp length) (ETH_HEADER_SIZE p + 8) = 64
    ∧ rd8 (send_fill p b cm mm mi ci sp dp length) (ETH_HEADER_SIZE p + 9) = 17
    ∧ rd32 p (send_fill p b cm mm mi ci sp dp length) (ETH_HEADER_SIZE p + 12)
        = mi % 4294967296
    ∧ rd32 p (send_fill p b cm mm mi ci sp dp length) (ETH_HEADER_SIZE p + 16)
        = ci % 4294967296
    ∧ rd16 p (send_fill p b cm mm mi ci sp dp length) (ETH_HEADER_SIZE p + 20) = sp % 65536
    ∧ rd16 p (send_fill p b cm mm mi ci sp dp length) (ETH_HEADER_SIZE p + 22) = dp % 65536
    ∧ rd16 p (send_fill p b cm mm mi ci sp dp length) (ETH_HEADER_SIZE p + 24)
        = (length + 8) % 65536
    := by
  have hpad : (ETH_HEADER_SIZE p + UDP_FRAME_SIZE + length) % 4294967296
      = ETH_HEADER_SIZE p + 28 + length := Nat.mod_eq_of_lt hl
  refine ⟨?_, ?_, ?_, ?_, ?_, ?_, ?_, ?_, ?_, ?_, ?_, ?_, ?_, ?_, ?_⟩
  all_goals
    unfold send_fill send_udp_fields send_ip_checksum send_ip_fields
    simp only [hpad]
    unfold ETH_HEADER_SIZE
  all_goals try split
  all_goals
    simp (disch := omega) only [rdMac_wr8_ne, rdMac_wr16_ne, rdMac_wr32_ne, rdMac_wrMac_ne,
      rd8_wr8_ne, rd8_wr16_ne, rd8_wr32_ne, rd8_wrMac_ne, rd16_wr8_ne, rd16_wr16_ne, rd16_wr32_ne,
      rd16_wrMac_ne, rd32_wr8_ne, rd32_wr16_ne, rd32_wr32_ne, rd32_wrMac_ne,
      rd16_wr16, rd32_wr32, rdMac_wrMac, rd8_wr8_same, fill_eth_header_destmac,
      fill_eth_header_srcmac, fill_eth_header_ethertype,
      UDP_FRAME_SIZE, UDP_HEADER_SIZE, IP_IPV4, IP_TTL, IP_PROTO_UDP, IP_DONT_FRAGMENT, ETHERTYPE_IP]
  all_goals try (first | rfl | omega)

theorem send_fill_payload (p : Platform) (b : Buf) (cm mm : Mac) (mi ci sp dp length : Nat)
    (hl : ETH_HEADER_SIZE p + 28 + length < 4294967296) (i : Nat) (hi : i < length) :
    send_fill p b cm mm mi ci sp dp length (ETH_HEADER_SIZE p + 28 + i)
      = b (ETH_HEADER_SIZE p + 28 + i) := by
  have hpad : (ETH_HEADER_SIZE p + UDP_FRAME_SIZE + length) % 4294967296
      = ETH_HEADER_SIZE p + 28 + length := Nat.mod_eq_of_lt hl
  unfold send_fill send_udp_fields send_ip_checksum send_ip_fields
  simp only [hpad]
  split <;>
  · simp (disch := omega) only [wr8_of_ne, wr16_of_ne, wr32_of_ne]
    exact fill_eth_header_of_ge _ _ _ _ _ _ (by omega)

theorem crc_appended_of_lt (p : Platform) (b : Buf) (txlen j : Nat)
    (hl : txlen + 3 < 4294967296) (h : j < txlen) : crc_appended p b txlen j = b j := by
  unfold crc_appended
  split
  · rfl
  · simp only
    rw [Nat.mod_eq_of_lt (show txlen + 1 < 4294967296 by omega),
      Nat.mod_eq_of_lt (show txlen + 2 < 4294967296 by omega),
      Nat.mod_eq_of_lt (show txlen + 3 < 4294967296 by omega)]
    simp (disch := omega) only [wr8_of_ne]

theorem exists_ne_zero_iff (m : Mac) : (∃ i, m i ≠ 0) ↔ macNonZero m = true := by
  rw [macNonZero_eq_true]
  constructor
  · rintro ⟨i, hi⟩ h; exact hi (by rw [h]; rfl)
  · intro h; by_contra hc; push_neg at hc; exact h (funext hc)

theorem microudp_arp_resolve_miss (p : Platform) (env : Env) (ip : Nat) (st : State)
    (hmiss : ¬ (st.cached_ip = ip ∧ ∃ i, st.cached_mac i ≠ 0)) :
    microudp_arp_resolve p env ip st
      = arp_tries p env ip st.txbuffer 5 { st with cached_ip := ip, cached_mac := zeroMac } := by
  rw [exists_ne_zero_iff] at hmiss
  unfold microudp_arp_resolve
  simp only
  rw [if_neg]
  simpa using hmiss

theorem ETH_HEADER_SIZE_le (p : Platform) : ETH_HEADER_SIZE p ≤ 22 := by
  unfold ETH_HEADER_SIZE ETH_DESTMAC; split <;> omega

theorem ETH_HEADER_SIZE_ge (p : Platform) : 14 ≤ ETH_HEADER_SIZE p := by
  unfold ETH_HEADER_SIZE; omega

theorem ETH_HEADER_SIZE_ARP (p : Platform) : ETH_HEADER_SIZE p + 46 = ARP_PACKET_LENGTH p := by
  unfold ETH_HEADER_SIZE ETH_DESTMAC ARP_PACKET_LENGTH; split <;> rfl

/-- The length `microudp_send` stores in `txlen`. -/
theorem send_txlen_eq (p : Platform) (length : Nat)
    (h : length + ETH_HEADER_SIZE p + 28 < 4294967296) :
    (if (length + ETH_HEADER_SIZE p + 28) % 4294967296 < ARP_PACKET_LENGTH p
      then ARP_PACKET_LENGTH p else (length + ETH_HEADER_SIZE p + 28) % 4294967296)
      = max (length + ETH_HEADER_SIZE p + 28) (ARP_PACKET_LENGTH p) := by
  rw [Nat.mod_eq_of_lt h]
  split <;> omega

/-- A `microudp_send` with a resolved destination and a ready MAC returns 1
after one transmission of the buffer it has filled. -/
theorem microudp_send_ok (p : Platform) (env : Env) (src_port dst_port length : Nat)
    (st : State) (d : Nat)
    (hmac : ∃ i, st.cached_mac i ≠ 0)
    (hfit : ETH_HEADER_SIZE p + UDP_FRAME_SIZE + length + (if p.hw_preamble_crc then 0 else 4)
      ≤ BUFFER_SIZE)
    (hready : env.ready_after st.sends = some d)
    (hcons : st.tx_consistent) :
    ∃ st',
      microudp_send p env src_port dst_port length st = some (1, st')
      ∧ st'.trace = st.trace ++
          [Event.sram_reader_slot_write st.txslot,
           Event.sram_reader_length_write
             (max (length + ETH_HEADER_SIZE p + UDP_FRAME_SIZE) (ARP_PACKET_LENGTH p)
               + (if p.hw_preamble_crc then 0 else 4))] ++
          List.replicate d (Event.sram_reader_ready_read false) ++
          [Event.sram_reader_ready_read true,
           Event.sram_reader_start_write 1
            (crc_appended p
              (send_fill p (st.txmem st.txbuffer) st.cached_mac st.my_mac st.my_ip st.cached_ip
                src_port dst_port length)
              (max (length + ETH_HEADER_SIZE p + UDP_FRAME_SIZE) (ARP_PACKET_LENGTH p)))] := by
  have hH := ETH_HEADER_SIZE_le p
  have hH2 := ETH_HEADER_SIZE_ge p
  have hA := ETH_HEADER_SIZE_ARP p
  simp only [UDP_FRAME_SIZE, BUFFER_SIZE] at hfit ⊢
  have hlen : length ≤ 1500 := by omega
  have hnz : macNonZero st.cached_mac = true := (exists_ne_zero_iff _).mp hmac
  have htx := send_txlen_eq p length (by omega)
  generalize hF : send_fill p (st.txmem st.txbuffer) st.cached_mac st.my_mac st.my_ip
    st.cached_ip src_port dst_port length = F
  obtain ⟨st', hsend, htrace, -⟩ :=
    send_packet_spec p env (({ st with txlen :=
        (max (length + ETH_HEADER_SIZE p + 28) (ARP_PACKET_LENGTH p)) } : State).setTxmem
        st.txbuffer F) d
      (by cases hb : st.txbuffer <;> simpa [State.setTxmem, hb] using hready)
      (by
        rcases hcons with ⟨h1, h2⟩ | ⟨h1, h2⟩
        · left; simp [State.setTxmem, h1, h2]
        · right; simp [State.setTxmem, h1, h2])
  refine ⟨st', ?_, ?_⟩
  · unfold microudp_send
    simp only [hnz, Bool.not_true, Bool.false_eq_true, if_false, UDP_FRAME_SIZE, htx]
    change (match send_packet p env (({ st with txlen :=
        (max (length + ETH_HEADER_SIZE p + 28) (ARP_PACKET_LENGTH p)) } : State).setTxmem
        st.txbuffer (send_fill p (st.txmem st.txbuffer) st.cached_mac st.my_mac st.my_ip
          st.cached_ip src_port dst_port length)) with
      | none => none
      | some st => some (1, st)) = _
    rw [hF, hsend]
  · rw [htrace]
    have e1 : (({ st with txlen :=
        (max (length + ETH_HEADER_SIZE p + 28) (ARP_PACKET_LENGTH p)) } : State).setTxmem
        st.txbuffer F).txmem (({ st with txlen :=
        (max (length + ETH_HEADER_SIZE p + 28) (ARP_PACKET_LENGTH p)) } : State).setTxmem
        st.txbuffer F).txbuffer = F := by
      cases hb : st.txbuffer <;> simp [State.setTxmem, State.txmem, hb]
    rw [e1]
    have : (max (length + ETH_HEADER_SIZE p + 28) (ARP_PACKET_LENGTH p) + 4) % 4294967296
        = max (length + ETH_HEADER_SIZE p + 28) (ARP_PACKET_LENGTH p) + 4 :=
      Nat.mod_eq_of_lt (by omega)
    cases hb : st.txbuffer <;> cases hp : p.hw_preamble_crc <;> simp [State.setTxmem, this]

/-- Claim C2.  With a `cached_mac` that is not all-zero, a payload that fits
the TX buffer and a MAC that becomes ready after `d` polls, `microudp_send`
returns 1 and hands exactly one frame to the hardware: its trace grows by
one slot write, one length write, the polls of the ready register and one
start write, whose memory `mem` holds destination MAC = `cached_mac`, source
MAC = host MAC, EtherType 0x0800, version byte 0x45, diff-services 0, total
length = `length + 28`, identification 0, flags/fragment 0x4000, TTL 64,
protocol 17, source IP = host IP, destination IP = `cached_ip`, the two
ports, UDP length = `length + 8` (both lengths unpadded, odd or even), and
the first `length` payload bytes as the caller left them.  The fields are
read as the code reads them, with the loads of the target. -/
theorem microudp_send_frame (p : Platform) (env : Env) (src_port dst_port length : Nat)
    (st : State) (d : Nat)
    (hmac : ∃ i, st.cached_mac i ≠ 0)
    (hfit : ETH_HEADER_SIZE p + UDP_FRAME_SIZE + length + (if p.hw_preamble_crc then 0 else 4)
      ≤ BUFFER_SIZE)
    (hready : env.ready_after st.sends = some d)
    (hcons : st.tx_consistent)
    (hsp : src_port < 65536) (hdp : dst_port < 65536)
    (hmi : st.my_ip < 4294967296) (hci : st.cached_ip < 4294967296) :
    ∃ st' mem,
      microudp_send p env src_port dst_port length st = some (1, st')
      ∧ st'.trace = st.trace ++
          [Event.sram_reader_slot_write st.txslot,
           Event.sram_reader_length_write
             (max (length + ETH_HEADER_SIZE p + UDP_FRAME_SIZE) (ARP_PACKET_LENGTH p)
               + (if p.hw_preamble_crc then 0 else 4))] ++
          List.replicate d (Event.sram_reader_ready_read false) ++
          [Event.sram_reader_ready_read true, Event.sram_reader_start_write 1 mem]
      ∧ rdMac mem (ETH_DESTMAC p) = st.cached_mac
      ∧ rdMac mem (ETH_DESTMAC p + 6) = st.my_mac
      ∧ rd16 p mem (ETH_DESTMAC p + 12) = 0x0800
      ∧ rd8 mem (ETH_HEADER_SIZE p) = 0x45
      ∧ rd8 mem (ETH_HEADER_SIZE p + 1) = 0
      ∧ rd16 p mem (ETH_HEADER_SIZE p + 2) = length + 28
      ∧ rd16 p mem (ETH_HEADER_SIZE p + 4) = 0
      ∧ rd16 p mem (ETH_HEADER_SIZE p + 6) = 0x4000
      ∧ rd8 mem (ETH_HEADER_SIZE p + 8) = 64
      ∧ rd8 mem (ETH_HEADER_SIZE p + 9) = 17
      ∧ rd32 p mem (ETH_HEADER_SIZE p + 12) = st.my_ip
      ∧ rd32 p mem (ETH_HEADER_SIZE p + 16) = st.cached_ip
      ∧ rd16 p mem (ETH_HEADER_SIZE p + 20) = src_port
      ∧ rd16 p mem (ETH_HEADER_SIZE p + 22) = dst_port
      ∧ rd16 p mem (ETH_HEADER_SIZE p + 24) = length + 8
      ∧ (∀ i, i < length →
          mem (ETH_HEADER_SIZE p + UDP_FRAME_SIZE + i)
            = st.txmem st.txbuffer (ETH_HEADER_SIZE p + UDP_FRAME_SIZE + i)) := by
  obtain ⟨st', hsend, htrace⟩ :=
    microudp_send_ok p env src_port dst_port length st d hmac hfit hready hcons
  have hH := ETH_HEADER_SIZE_le p
  have hH2 := ETH_HEADER_SIZE_ge p
  have hA := ETH_HEADER_SIZE_ARP p
  simp only [UDP_FRAME_SIZE, BUFFER_SIZE] at hfit hsend htrace ⊢
  have hlen : length ≤ 1500 := by omega
  generalize htxlen : max (length + ETH_HEADER_SIZE p + 28) (ARP_PACKET_LENGTH p) = txlen
    at htrace
  have hfields := send_fill_fields p (st.txmem st.txbuffer) st.cached_mac st.my_mac st.my_ip
    st.cached_ip src_port dst_port length (by omega)
  have hpay := send_fill_payload p (st.txmem st.txbuffer) st.cached_mac st.my_mac st.my_ip
    st.cached_ip src_port dst_port length (by omega)
  generalize send_fill p (st.txmem st.txbuffer) st.cached_mac st.my_mac st.my_ip
    st.cached_ip src_port dst_port length = F at htrace hfields hpay
  obtain ⟨f1, f2, f3, f4, f5, f6, f7, f8, f9, f10, f11, f12, f13, f14, f15⟩ := hfields
  have hlow : ∀ j, j < txlen → crc_appended p F txlen j = F j :=
    fun j hj => crc_appended_of_lt p F txlen j (by omega) hj
  refine ⟨st', crc_appended p F txlen, hsend, htrace, ?_, ?_, ?_, ?_, ?_, ?_, ?_, ?_, ?_, ?_,
    ?_, ?_, ?_, ?_, ?_, ?_⟩
  · rw [rdMac_congr _ F _ (fun j _ _ => hlow j (by unfold ETH_HEADER_SIZE at hA; omega))]
    exact f1
  · rw [rdMac_congr _ F _ (fun j _ _ => hlow j (by unfold ETH_HEADER_SIZE at hA; omega))]
    exact f2
  · rw [rd16_congr _ _ F _ (fun j _ _ => hlow j (by unfold ETH_HEADER_SIZE at hA; omega))]
    exact f3
  · rw [rd8_congr _ F _ (hlow _ (by omega))]; exact f4
  · rw [rd8_congr _ F _ (hlow _ (by omega))]; exact f5
  · rw [rd16_congr _ _ F _ (fun j _ _ => hlow j (by omega)), f6]
    exact Nat.mod_eq_of_lt (by omega)
  · rw [rd16_congr _ _ F _ (fun j _ _ => hlow j (by omega))]; exact f7
  · rw [rd16_congr _ _ F _ (fun j _ _ => hlow j (by omega))]; exact f8
  · rw [rd8_congr _ F _ (hlow _ (by omega))]; exact f9
  · rw [rd8_congr _ F _ (hlow _ (by omega))]; exact f10
  · rw [rd32_congr _ _ F _ (fun j _ _ => hlow j (by omega)), f11]
    exact Nat.mod_eq_of_lt hmi
  · rw [rd32_congr _ _ F _ (fun j _ _ => hlow j (by omega)), f12]
    exact Nat.mod_eq_of_lt hci
  · rw [rd16_congr _ _ F _ (fun j _ _ => hlow j (by omega)), f13]
    exact Nat.mod_eq_of_lt hsp
  · rw [rd16_congr _ _ F _ (fun j _ _ => hlow j (by omega)), f14]
    exact Nat.mod_eq_of_lt hdp
  · rw [rd16_congr _ _ F _ (fun j _ _ => hlow j (by omega)), f15]
    exact Nat.mod_eq_of_lt (by omega)
  · intro i hi
    rw [hlow _ (by omega)]
    exact hpay i hi

theorem ip_checksum_acc_small (r : Nat) (ptr : Buf) (off n : Nat)
    (h : r + n * 65535 < 4294967296) :
    ip_checksum_acc r ptr off n = r + sum16 ptr off n := by
  induction n with
  | zero => simp [ip_checksum_acc, sum16]
  | succ n ih =>
    have ih := ih (by omega)
    unfold ip_checksum_acc at ih ⊢
    rw [List.range_succ, List.foldl_append]
    simp only [List.foldl_cons, List.foldl_nil, sum16, word16]
    rw [shl8_or _ _ (rd8_lt _ _), ih]
    have h1 := rd8_lt ptr (off + 2 * n)
    have h2 := rd8_lt ptr (off + 2 * n + 1)
    have h3 := sum16_le ptr off n
    rw [Nat.mod_eq_of_lt (by omega)]
    omega

theorem fold16_eq (x : Nat) : fold16 x = if x = 0 then 0 else (x - 1) % 65535 + 1 :=
  add_overflows_self x

/-- `ip_checksum` without completion is the folded sum of the words. -/
theorem ip_checksum_plain (r : Nat) (ptr : Buf) (off length : Nat)
    (h : r + (length >>> 1) * 65535 < 4294967296) :
    ip_checksum r ptr off length 0 = fold16 (r + sum16 ptr off (length >>> 1)) := by
  rw [ip_checksum_eq_r]
  unfold ip_checksum_r
  simp only [ne_eq, not_true_eq_false, if_false, ip_checksum_acc_small r ptr off _ h, fold16]

/-- `ip_checksum` with completion is the complement of the folded sum, with
0xffff in place of 0. -/
theorem ip_checksum_complete (r : Nat) (ptr : Buf) (off length : Nat)
    (h : r + (length >>> 1) * 65535 < 4294967296) :
    ip_checksum r ptr off length 1 =
      if fold16 (r + sum16 ptr off (length >>> 1)) = 65535 then 65535
      else 65535 - fold16 (r + sum16 ptr off (length >>> 1)) := by
  rw [ip_checksum_eq_r]
  unfold ip_checksum_r
  simp only [ne_eq, one_ne_zero, not_false_eq_true, if_true, ip_checksum_acc_small r ptr off _ h,
    and_ffff]
  have hf : fold16 (r + sum16 ptr off (length >>> 1)) ≤ 65535 := add_overflows_le _
  unfold fold16 at hf ⊢
  split <;> split <;> omega

/-- Replacing a zero word by `c` adds `c` to the sum of the words. -/
theorem sum16_set_word (b : Buf) (off n k c : Nat) (hk : k < n) (hc : c < 65536)
    (h0 : word16 b (off + 2 * k) = 0) :
    sum16 (wr8 (wr8 b (off + 2 * k) (c / 256)) (off + 2 * k + 1) c) off n = sum16 b off n + c := by
  obtain ⟨m, rfl⟩ : ∃ m, n = k + (1 + m) := ⟨n - k - 1, by omega⟩
  rw [sum16_split, sum16_split _ _ 1 m, sum16_split b, sum16_split b _ 1 m]
  rw [sum16_congr _ b off k, sum16_congr _ b (off + 2 * k + 2 * 1) m]
  · simp only [sum16, word16, Nat.mul_zero, Nat.add_zero, Nat.zero_add] at h0 ⊢
    rw [rd8_wr8_same, rd8_wr8_ne _ _ _ _ (by omega), rd8_wr8_same]
    omega
  · intro i h1 h2
    rw [wr8_of_ne _ _ _ _ (by omega), wr8_of_ne _ _ _ _ (by omega)]
  · intro i h1 h2
    rw [wr8_of_ne _ _ _ _ (by omega), wr8_of_ne _ _ _ _ (by omega)]

theorem wr16_be (p : Platform) (hbe : p.big_endian = true) (b : Buf) (off v : Nat) :
    wr16 p b off v = wr8 (wr8 b off (v / 256)) (off + 1) v := by
  simp [wr16, hbe]

theorem word16_lt (b : Buf) (off : Nat) : word16 b off < 65536 := by
  have h1 := rd8_lt b off
  have h2 := rd8_lt b (off + 1)
  unfold word16; omega

theorem word16_eq_rd16 (p : Platform) (hbe : p.big_endian = true) (b : Buf) (off : Nat) :
    word16 b off = rd16 p b off := by
  simp [word16, rd16, hbe]

theorem sum16_two_eq_rd32 (p : Platform) (hbe : p.big_endian = true) (b : Buf) (off : Nat) :
    sum16 b off 2 = rd32 p b off / 65536 + rd32 p b off % 65536 := by
  have h1 := rd8_lt b off
  have h2 := rd8_lt b (off + 1)
  have h3 := rd8_lt b (off + 2)
  have h4 := rd8_lt b (off + 3)
  simp only [sum16, word16, rd32, hbe, if_true, Nat.mul_zero, Nat.add_zero, Nat.zero_add,
    Nat.mul_one, Nat.add_assoc, show 2 + 1 = 3 by rfl]
  omega

theorem sum16_congr_word (b c : Buf) (off : Nat) (h : ∀ j, off ≤ j → j < off + 2 → b j = c j) :
    word16 b off = word16 c off := by
  simp only [word16, rd8, h off (by omega) (by omega), h (off + 1) (by omega) (by omega)]

/-- The sum of the words of the pseudo header of `microudp_send`. -/
theorem pseudo_header_sum (p : Platform) (hbe : p.big_endian = true) (mi ci ul : Nat) :
    sum16 (pseudo_header p mi ci IP_PROTO_UDP ul) 0 6
      = (mi % 4294967296 / 65536 + mi % 4294967296 % 65536)
        + (ci % 4294967296 / 65536 + ci % 4294967296 % 65536) + 17 + ul % 65536 := by
  have e0 : rd32 p (pseudo_header p mi ci IP_PROTO_UDP ul) 0 = mi % 4294967296 := by
    unfold pseudo_header
    simp (disch := omega) only [rd32_wr8_ne, rd32_wr16_ne, rd32_wr32_ne, rd32_wr32]
  have e4 : rd32 p (pseudo_header p mi ci IP_PROTO_UDP ul) 4 = ci % 4294967296 := by
    unfold pseudo_header
    simp (disch := omega) only [rd32_wr8_ne, rd32_wr16_ne, rd32_wr32_ne, rd32_wr32]
  have e8 : rd8 (pseudo_header p mi ci IP_PROTO_UDP ul) 8 = 0 := by
    unfold pseudo_header
    simp only [rd8_wr8_same]
  have e9 : rd8 (pseudo_header p mi ci IP_PROTO_UDP ul) 9 = 17 := by
    unfold pseudo_header
    simp (disch := omega) only [rd8_wr8_ne, rd8_wr16_ne, rd8_wr32_ne, rd8_wr8_same, IP_PROTO_UDP]
  have e10 : rd16 p (pseudo_header p mi ci IP_PROTO_UDP ul) 10 = ul % 65536 := by
    unfold pseudo_header
    simp (disch := omega) only [rd16_wr8_ne, rd16_wr16]
  have s1 := sum16_two_eq_rd32 p hbe (pseudo_header p mi ci IP_PROTO_UDP ul) 0
  have s2 := sum16_two_eq_rd32 p hbe (pseudo_header p mi ci IP_PROTO_UDP ul) 4
  have s3 := word16_eq_rd16 p hbe (pseudo_header p mi ci IP_PROTO_UDP ul) 10
  rw [show (6 : Nat) = 2 + (2 + (1 + 1)) by rfl, sum16_split, sum16_split, sum16_split, s1, e0]
  simp only [Nat.zero_add, show 2 * 2 = 4 by rfl, show 4 + 2 * 2 = 8 by rfl,
    show 8 + 2 * 1 = 10 by rfl]
  rw [s2, e4]
  simp only [sum16, Nat.mul_zero, Nat.add_zero, Nat.zero_add, s3, e10]
  simp only [word16, e8, e9]
  omega

theorem send_udp_fields_checksum_zero (p : Platform) (b : Buf) (sp dp length : Nat)
    (hl : ETH_HEADER_SIZE p + 28 + length < 4294967296) :
    word16 (send_udp_fields p b sp dp length) (ETH_HEADER_SIZE p + 26) = 0 := by
  unfold send_udp_fields word16
  simp only [UDP_FRAME_SIZE, Nat.mod_eq_of_lt hl]
  split
  · rw [rd8_wr8_ne _ _ _ _ (by omega), rd8_wr8_ne _ _ _ _ (by omega)]
    unfold wr16
    split <;> simp [rd8_wr8]
  · unfold wr16
    split <;> simp [rd8_wr8]

theorem send_udp_fields_pad (p : Platform) (b : Buf) (sp dp length : Nat)
    (hl : ETH_HEADER_SIZE p + 28 + length < 4294967296) (hodd : length % 2 = 1) :
    rd8 (send_udp_fields p b sp dp length) (ETH_HEADER_SIZE p + 28 + length) = 0 := by
  unfold send_udp_fields
  simp only [UDP_FRAME_SIZE, Nat.mod_eq_of_lt hl, Nat.and_one_is_mod, hodd, ne_eq, one_ne_zero,
    not_false_eq_true, if_true, rd8_wr8_same, Nat.zero_mod]

/-- A sum completed with the complement of its folded value folds to 0xffff;
the seed `P` may be folded beforehand. -/
theorem fold16_verify (P S : Nat) (hP : 0 < P) :
    fold16 (P + S + (if fold16 (fold16 P + S) = 65535 then 65535
      else 65535 - fold16 (fold16 P + S))) = 65535 := by
  simp only [fold16_eq]
  split_ifs <;> first | omega | contradiction

/-- The UDP checksum stored by `microudp_send` verifies, in every buffer
that agrees with the filled one up to the end of the payload. -/
theorem send_fill_udp_sum (p : Platform) (hbe : p.big_endian = true) (b : Buf) (cm mm : Mac)
    (mi ci sp dp length : Nat) (hl : length ≤ 1500) (mem : Buf)
    (hmem : ∀ j, j < ETH_HEADER_SIZE p + 28 + length →
      mem j = send_fill p b cm mm mi ci sp dp length j) :
    fold16 (udp_verify_sum p mem length) = 0xffff
    ∧ word16 mem (ETH_HEADER_SIZE p + 26) ≠ 0 := by
  have hH := ETH_HEADER_SIZE_le p
  have hfields := send_fill_fields p b cm mm mi ci sp dp length (by omega)
  obtain ⟨-, -, -, -, -, -, -, -, -, -, f11, f12, -, -, f15⟩ := hfields
  -- the buffer before the checksum is stored
  have hF : send_fill p b cm mm mi ci sp dp length
      = wr16 p (send_udp_fields p (send_ip_checksum p (send_ip_fields p b cm mm mi ci length))
          sp dp length) (ETH_HEADER_SIZE p + 26)
          (send_udp_checksum p (send_udp_fields p (send_ip_checksum p
            (send_ip_fields p b cm mm mi ci length)) sp dp length) mi ci length) := rfl
  have h0 := send_udp_fields_checksum_zero p
    (send_ip_checksum p (send_ip_fields p b cm mm mi ci length)) sp dp length (by omega)
  have hpad := send_udp_fields_pad p
    (send_ip_checksum p (send_ip_fields p b cm mm mi ci length)) sp dp length (by omega)
  generalize send_udp_fields p (send_ip_checksum p (send_ip_fields p b cm mm mi ci length))
    sp dp length = B3 at hF h0 hpad
  generalize hFdef : send_fill p b cm mm mi ci sp dp length = F at hF hmem f11 f12 f15
  -- the pseudo header
  have hP := pseudo_header_sum p hbe mi ci ((length + 8) % 65536)
  have hr0 := ip_checksum_plain 0 (pseudo_header p mi ci IP_PROTO_UDP ((length + 8) % 65536))
    0 12 (by simp only [show (12 : Nat) >>> 1 = 6 by decide]; omega)
  simp only [show (12 : Nat) >>> 1 = 6 by decide, Nat.zero_add] at hr0
  -- the stored checksum
  have hlen' : ((UDP_HEADER_SIZE + if length &&& 1 ≠ 0 then (length + 1) % 4294967296 else length)
      % 4294967296) >>> 1 = 4 + (length + 1) / 2 := by
    simp only [UDP_HEADER_SIZE, Nat.and_one_is_mod, Nat.shiftRight_eq_div_pow]
    split <;> omega
  have hr : send_udp_checksum p B3 mi ci length
      = if fold16 (fold16 (sum16 (pseudo_header p mi ci IP_PROTO_UDP ((length + 8) % 65536)) 0 6)
            + sum16 B3 (ETH_HEADER_SIZE p + 20) (4 + (length + 1) / 2)) = 65535 then 65535
        else 65535 - fold16 (fold16 (sum16 (pseudo_header p mi ci IP_PROTO_UDP
            ((length + 8) % 65536)) 0 6)
            + sum16 B3 (ETH_HEADER_SIZE p + 20) (4 + (length + 1) / 2)) := by
    unfold send_udp_checksum
    simp only [PSEUDO_HEADER_SIZE, show UDP_HEADER_SIZE = 8 from rfl] at hlen' ⊢
    have hf : fold16 (sum16 (pseudo_header p mi ci IP_PROTO_UDP ((length + 8) % 65536)) 0 6)
        ≤ 65535 := add_overflows_le _
    rw [hr0, ip_checksum_complete _ _ _ _ (by rw [hlen']; omega), hlen']
  generalize send_udp_checksum p B3 mi ci length = r at hr hF
  generalize sum16 (pseudo_header p mi ci IP_PROTO_UDP ((length + 8) % 65536)) 0 6 = P at hP hr
  -- the words summed by the code
  have hS : sum16 B3 (ETH_HEADER_SIZE p + 20) (4 + (length + 1) / 2)
      = sum16 B3 (ETH_HEADER_SIZE p + 20) (4 + length / 2)
        + (if length % 2 = 1 then rd8 B3 (ETH_HEADER_SIZE p + 28 + (length - 1)) * 256 + 0
           else 0) := by
    by_cases hodd : length % 2 = 1
    · rw [if_pos hodd, show 4 + (length + 1) / 2 = (4 + length / 2) + 1 by omega, sum16, word16,
        show ETH_HEADER_SIZE p + 20 + 2 * (4 + length / 2)
          = ETH_HEADER_SIZE p + 28 + (length - 1) by omega,
        show ETH_HEADER_SIZE p + 28 + (length - 1) + 1 = ETH_HEADER_SIZE p + 28 + length by omega,
        hpad hodd]
    · rw [if_neg hodd, show 4 + (length + 1) / 2 = 4 + length / 2 by omega]
      rfl
  have hf1 : fold16 P ≤ 65535 := add_overflows_le _
  have hf2 : fold16 (fold16 P + sum16 B3 (ETH_HEADER_SIZE p + 20) (4 + (length + 1) / 2))
      ≤ 65535 := add_overflows_le _
  have hr16 : r < 65536 := by rw [hr]; split <;> omega
  -- the words summed by the receiver
  rw [wr16_be p hbe] at hF
  have hV1 : sum16 mem (ETH_HEADER_SIZE p + 20) (4 + length / 2)
      = sum16 B3 (ETH_HEADER_SIZE p + 20) (4 + length / 2) + r := by
    rw [sum16_congr mem F _ _ (fun j _ _ => hmem j (by omega)), hF]
    have := sum16_set_word B3 (ETH_HEADER_SIZE p + 20) (4 + length / 2) 3 r (by omega) hr16
      (by rw [show ETH_HEADER_SIZE p + 20 + 2 * 3 = ETH_HEADER_SIZE p + 26 by omega]; exact h0)
    rw [show ETH_HEADER_SIZE p + 20 + 2 * 3 = ETH_HEADER_SIZE p + 26 by omega] at this
    exact this
  have hV2 : length % 2 = 1 → rd8 mem (ETH_HEADER_SIZE p + 28 + (length - 1))
      = rd8 B3 (ETH_HEADER_SIZE p + 28 + (length - 1)) := by
    intro hodd
    rw [rd8_congr mem F _ (hmem _ (by omega)), hF, rd8_wr8_ne _ _ _ _ (by omega),
      rd8_wr8_ne _ _ _ _ (by omega)]
  have hV3 : sum16 mem (ETH_HEADER_SIZE p + 12) 4
      = (mi % 4294967296 / 65536 + mi % 4294967296 % 65536)
        + (ci % 4294967296 / 65536 + ci % 4294967296 % 65536) := by
    rw [sum16_congr mem F _ _ (fun j _ _ => hmem j (by omega)),
      show (4 : Nat) = 2 + 2 by rfl, sum16_split, sum16_two_eq_rd32 p hbe,
      sum16_two_eq_rd32 p hbe, f11,
      show ETH_HEADER_SIZE p + 12 + 2 * 2 = ETH_HEADER_SIZE p + 16 by omega, f12]
  have hV4 : word16 mem (ETH_HEADER_SIZE p + 24) = (length + 8) % 65536 := by
    rw [sum16_congr_word mem F _ (fun j _ _ => hmem j (by omega)), word16_eq_rd16 p hbe, f15]
  have hV5 : word16 mem (ETH_HEADER_SIZE p + 26) = r := by
    rw [sum16_congr_word mem F _ (fun j _ _ => hmem j (by omega)), hF, word16, rd8_wr8_same,
      rd8_wr8_ne _ _ _ _ (by omega), rd8_wr8_same]
    omega
  have hfv := fold16_verify P (sum16 B3 (ETH_HEADER_SIZE p + 20) (4 + (length + 1) / 2))
    (by omega)
  rw [← hr] at hfv
  constructor
  · have hV : udp_verify_sum p mem length
        = P + sum16 B3 (ETH_HEADER_SIZE p + 20) (4 + (length + 1) / 2) + r := by
      unfold udp_verify_sum
      simp only
      rw [hV1, hV3, hV4, hS, hP]
      by_cases hodd : length % 2 = 1
      · rw [if_pos hodd, if_pos hodd, hV2 hodd]
        omega
      · rw [if_neg hodd, if_neg hodd]
        omega
    rw [hV, hfv]
  · rw [hV5, hr]
    split <;> omega

/-- Claim C8, as amended.  On a big-endian target, every successful `microudp_send` of an
in-bounds payload, of even or odd length, emits a frame whose UDP checksum
verifies: the big-endian words of the pseudo header taken from the frame, of
the UDP header with the stored checksum, and of the payload extended by a
zero byte when its length is odd, sum to a value that folds to 0xffff; and
the stored UDP checksum is not 0. -/
theorem microudp_send_udp_checksum (p : Platform) (env : Env) (src_port dst_port length : Nat)
    (st : State) (d : Nat)
    (hbe : p.big_endian = true)
    (hmac : ∃ i, st.cached_mac i ≠ 0)
    (hfit : ETH_HEADER_SIZE p + UDP_FRAME_SIZE + length + (if p.hw_preamble_crc then 0 else 4)
      ≤ BUFFER_SIZE)
    (hready : env.ready_after st.sends = some d)
    (hcons : st.tx_consistent) :
    ∃ st' mem,
      microudp_send p env src_port dst_port length st = some (1, st')
      ∧ st'.trace = st.trace ++
          [Event.sram_reader_slot_write st.txslot,
           Event.sram_reader_length_write
             (max (length + ETH_HEADER_SIZE p + UDP_FRAME_SIZE) (ARP_PACKET_LENGTH p)
               + (if p.hw_preamble_crc then 0 else 4))] ++
          List.replicate d (Event.sram_reader_ready_read false) ++
          [Event.sram_reader_ready_read true, Event.sram_reader_start_write 1 mem]
      ∧ fold16 (udp_verify_sum p mem length) = 0xffff
      ∧ word16 mem (ETH_HEADER_SIZE p + 26) ≠ 0 := by
  obtain ⟨st', hsend, htrace⟩ :=
    microudp_send_ok p env src_port dst_port length st d hmac hfit hready hcons
  have hH := ETH_HEADER_SIZE_le p
  have hH2 := ETH_HEADER_SIZE_ge p
  have hA := ETH_HEADER_SIZE_ARP p
  simp only [UDP_FRAME_SIZE, BUFFER_SIZE] at hfit
  exact ⟨st', _, hsend, htrace,
    send_fill_udp_sum p hbe _ _ _ _ _ _ _ length (by omega) _
      (fun j hj => crc_appended_of_lt _ _ _ _ (by simp only [UDP_FRAME_SIZE]; omega)
        (by simp only [UDP_FRAME_SIZE]; omega))⟩

/-- `process_arp`, with its tests gathered. -/
theorem process_arp_eq (p : Platform) (env : Env) (st : State) :
    process_arp p env st =
      if arp_checks p (st.rxmem st.rxbuffer) st.rxlen = true then
        if rd16 p (st.rxmem st.rxbuffer) (ETH_HEADER_SIZE p + 6) = 2 then
          if rd32 p (st.rxmem st.rxbuffer) (ETH_HEADER_SIZE p + 14) = st.cached_ip then
            some { st with cached_mac := rdMac (st.rxmem st.rxbuffer) (ETH_HEADER_SIZE p + 8) }
          else some st
        else if rd16 p (st.rxmem st.rxbuffer) (ETH_HEADER_SIZE p + 6) = 1
            ∧ rd32 p (st.rxmem st.rxbuffer) (ETH_HEADER_SIZE p + 24) = st.my_ip then
          send_packet p env (arp_reply_state p st)
        else some st
      else some st := by
  unfold process_arp arp_checks arp_reply_state
  simp only [ARP_HWTYPE_ETHERNET, ARP_PROTO_IP, ARP_OPCODE_REPLY, ARP_OPCODE_REQUEST,
    Bool.and_eq_true, decide_eq_true_eq, beq_iff_eq]
  generalize send_packet p env _ = B
  generalize (some { st with
    cached_mac := rdMac (st.rxmem st.rxbuffer) (ETH_HEADER_SIZE p + 8) } : Option State) = A
  generalize (some st : Option State) = C
  generalize rd16 p (st.rxmem st.rxbuffer) (ETH_HEADER_SIZE p) = v1
  generalize rd16 p (st.rxmem st.rxbuffer) (ETH_HEADER_SIZE p + 2) = v2
  generalize rd8 (st.rxmem st.rxbuffer) (ETH_HEADER_SIZE p + 4) = v3
  generalize rd8 (st.rxmem st.rxbuffer) (ETH_HEADER_SIZE p + 5) = v4
  generalize rd16 p (st.rxmem st.rxbuffer) (ETH_HEADER_SIZE p + 6) = v5
  generalize rd32 p (st.rxmem st.rxbuffer) (ETH_HEADER_SIZE p + 14) = v6
  generalize rd32 p (st.rxmem st.rxbuffer) (ETH_HEADER_SIZE p + 24) = v7
  by_cases h1 : st.rxlen < ARP_PACKET_LENGTH p
  · simp [h1, Nat.not_le.mpr h1]
  by_cases h2 : v1 = 1 <;> by_cases h3 : v2 = 2048 <;> by_cases h4 : v3 = 6 <;>
    by_cases h5 : v4 = 4 <;> by_cases h6 : v5 = 2 <;> by_cases h7 : v5 = 1 <;>
    by_cases h8 : v7 = st.my_ip <;> simp [h1, Nat.not_lt.mp h1, h2, h3, h4, h5, h6, h7, h8]

theorem arp_reply_state_frame (p : Platform) (st : State) :
    (arp_reply_state p st).sends = st.sends ∧ (arp_reply_state p st).trace = st.trace
    ∧ (arp_reply_state p st).polls = st.polls ∧ (arp_reply_state p st).cached_ip = st.cached_ip
    ∧ (arp_reply_state p st).cached_mac = st.cached_mac
    ∧ (arp_reply_state p st).my_ip = st.my_ip ∧ (arp_reply_state p st).my_mac = st.my_mac
    ∧ ((arp_reply_state p st).tx_consistent ↔ st.tx_consistent) :=
  ⟨rfl, rfl, rfl, rfl, rfl, rfl, rfl, Iff.rfl⟩

theorem is_arp_reply_from_eq (p : Platform) (rx : Buf) (rxlen ip : Nat) :
    is_arp_reply_from p rx rxlen ip
      = (rd16 p rx (ETH_DESTMAC p + 12) == 0x0806 && arp_checks p rx (parsed_length p rxlen)
          && rd16 p rx (ETH_HEADER_SIZE p + 6) == 2 && rd32 p rx (ETH_HEADER_SIZE p + 14) == ip) := by
  simp only [is_arp_reply_from, arp_checks, Bool.and_assoc]

theorem process_arp_cache (p : Platform) (env : Env) (st st' : State)
    (h : process_arp p env st = some st') :
    st'.cached_ip = st.cached_ip
    ∧ st'.cached_mac =
        (if (arp_checks p (st.rxmem st.rxbuffer) st.rxlen
          && rd16 p (st.rxmem st.rxbuffer) (ETH_HEADER_SIZE p + 6) == 2
          && rd32 p (st.rxmem st.rxbuffer) (ETH_HEADER_SIZE p + 14) == st.cached_ip) = true
        then rdMac (st.rxmem st.rxbuffer) (ETH_HEADER_SIZE p + 8) else st.cached_mac)
    ∧ st'.polls = st.polls := by
  rw [process_arp_eq] at h
  simp only [Bool.and_eq_true, beq_iff_eq]
  split_ifs at h with h1 h2 h3 h4
  · cases h
    exact ⟨rfl, by rw [if_pos ⟨⟨h1, h2⟩, h3⟩], rfl⟩
  · cases h
    exact ⟨rfl, by rw [if_neg (fun hc => h3 hc.2)], rfl⟩
  · obtain ⟨g1, g2, -, -, -, -, -, -, -, -, g3, -⟩ := send_packet_frame p env _ _ h
    exact ⟨g1, by rw [g2, if_neg (fun hc => h2 hc.1.2)]; rfl, g3⟩
  · cases h
    exact ⟨rfl, by rw [if_neg (fun hc => h2 hc.1.2)], rfl⟩
  · cases h
    exact ⟨rfl, by rw [if_neg (fun hc => h1 hc.1.1)], rfl⟩

theorem process_ip_cache (p : Platform) (st : State) :
    (process_ip p st).cached_ip = st.cached_ip ∧ (process_ip p st).cached_mac = st.cached_mac
    ∧ (process_ip p st).polls = st.polls ∧ (process_ip p st).sends = st.sends
    ∧ (process_ip p st).my_ip = st.my_ip ∧ (process_ip p st).my_mac = st.my_mac := by
  unfold process_ip
  simp only
  split_ifs <;> exact ⟨rfl, rfl, rfl, rfl, rfl, rfl⟩

theorem rxmem_with_rxlen (st : State) (n : Nat) (sel : BufSel) :
    ({ st with rxlen := n } : State).rxmem sel = st.rxmem sel := by
  cases sel <;> rfl

/-- `process_frame`, with its tests gathered. -/
theorem process_frame_eq (p : Platform) (env : Env) (st : State) :
    process_frame p env st =
      if frame_accepted p (st.rxmem st.rxbuffer) st.rxlen = true then
        if rd16 p (st.rxmem st.rxbuffer) (ETH_DESTMAC p + 12) = ETHERTYPE_ARP then
          process_arp p env { st with rxlen := parsed_length p st.rxlen }
        else if rd16 p (st.rxmem st.rxbuffer) (ETH_DESTMAC p + 12) = ETHERTYPE_IP then
          some (process_ip p { st with rxlen := parsed_length p st.rxlen })
        else some { st with rxlen := parsed_length p st.rxlen }
      else some st := by
  unfold process_frame frame_accepted parsed_length
  cases hp : p.hw_preamble_crc
  · by_cases h1 : preamble_ok (st.rxmem st.rxbuffer) = true
    · by_cases h2 : received_crc (st.rxmem st.rxbuffer) st.rxlen
          = p.crc32 (st.rxmem st.rxbuffer) 8 ((st.rxlen + 4294967296 - 12) % 4294967296)
            % 4294967296
      · simp [h1, h2]
      · simp [h1, h2]
    · simp [h1]
  · simp

theorem process_frame_cache (p : Platform) (env : Env) (st st' : State)
    (h : process_frame p env st = some st') :
    st'.cached_ip = st.cached_ip
    ∧ st'.cached_mac =
        (if (frame_accepted p (st.rxmem st.rxbuffer) st.rxlen
          && is_arp_reply_from p (st.rxmem st.rxbuffer) st.rxlen st.cached_ip) = true
        then rdMac (st.rxmem st.rxbuffer) (ETH_HEADER_SIZE p + 8) else st.cached_mac)
    ∧ st'.polls = st.polls := by
  rw [process_frame_eq] at h
  rw [is_arp_reply_from_eq]
  simp only [ETHERTYPE_ARP, ETHERTYPE_IP] at h
  simp only [Bool.and_eq_true, beq_iff_eq]
  split_ifs at h with hacc h3 h4
  · obtain ⟨e1, e2, e3⟩ := process_arp_cache p env _ _ h
    simp only [rxmem_with_rxlen, Bool.and_eq_true, beq_iff_eq] at e2
    refine ⟨e1, ?_, e3⟩
    rw [e2]
    by_cases hc : (arp_checks p (st.rxmem st.rxbuffer) (parsed_length p st.rxlen) = true
        ∧ rd16 p (st.rxmem st.rxbuffer) (ETH_HEADER_SIZE p + 6) = 2)
        ∧ rd32 p (st.rxmem st.rxbuffer) (ETH_HEADER_SIZE p + 14) = st.cached_ip
    · rw [if_pos hc, if_pos ⟨hacc, ⟨⟨⟨h3, hc.1.1⟩, hc.1.2⟩, hc.2⟩⟩]
    · rw [if_neg hc, if_neg (fun hx => hc ⟨⟨hx.2.1.1.2, hx.2.1.2⟩, hx.2.2⟩)]
  · cases h
    obtain ⟨e1, e2, e3, -⟩ := process_ip_cache p { st with rxlen := parsed_length p st.rxlen }
    exact ⟨e1, by rw [e2, if_neg (fun hx => h3 hx.2.1.1.1)], e3⟩
  · cases h
    exact ⟨rfl, by rw [if_neg (fun hx => h3 hx.2.1.1.1)], rfl⟩
  · cases h
    exact ⟨rfl, by rw [if_neg (fun hx => hacc hx.1)], rfl⟩

theorem scan_inner (t : List Event) (h : ∀ e ∈ t, Event.inner e = true) (acc : List Buf) :
    t.foldl scan_step (true, acc) = (true, acc) := by
  induction t with
  | nil => rfl
  | cons e t ih =>
    rw [List.foldl_cons]
    have he := h e (List.mem_cons_self _ _)
    have : scan_step (true, acc) e = (true, acc) := by
      cases e <;> simp_all [scan_step, Event.inner]
    rw [this]
    exact ih (fun e' he' => h e' (List.mem_cons_of_mem _ he'))

theorem polls_in_inner (t : List Event) (h : ∀ e ∈ t, Event.inner e = true) : polls_in t = 0 := by
  unfold polls_in
  rw [List.countP_eq_zero]
  intro e he
  have := h e he
  cases e <;> simp_all [Event.is_poll, Event.inner]

theorem polls_in_append (t u : List Event) : polls_in (t ++ u) = polls_in t + polls_in u := by
  unfold polls_in; exact List.countP_append _ _ _

theorem scan_ready (d : Nat) (s : Bool × List Buf) :
    (List.replicate d (Event.sram_reader_ready_read false)).foldl scan_step s = s := by
  induction d with
  | zero => rfl
  | succ d ih => rw [List.replicate_succ, List.foldl_cons]; exact ih

theorem tx_events_inner (slot len d : Nat) (mem : Buf) :
    ∀ e ∈ tx_events slot len d mem, Event.inner e = true := by
  intro e he
  simp only [tx_events, List.mem_append, List.mem_cons, List.mem_singleton, List.mem_replicate,
    List.not_mem_nil, or_false] at he
  rcases he with ((rfl | rfl) | ⟨-, rfl⟩) | rfl | rfl <;> rfl

theorem scan_tx_events (slot len d : Nat) (mem : Buf) (acc : List Buf) :
    (tx_events slot len d mem).foldl scan_step (false, acc) = (false, acc ++ [mem]) := by
  simp only [tx_events, List.foldl_append, List.foldl_cons, List.foldl_nil, scan_step, scan_ready]
  rfl

theorem send_packet_spec2 (p : Platform) (env : Env) (st : State) (d : Nat)
    (hr : env.ready_after st.sends = some d) (hc : st.tx_consistent) :
    ∃ st', send_packet p env st = some st'
      ∧ st'.trace = st.trace ++ tx_events st.txslot
          (if p.hw_preamble_crc then st.txlen else (st.txlen + 4) % 4294967296) d
          (crc_appended p (st.txmem st.txbuffer) st.txlen)
      ∧ st'.tx_consistent ∧ st'.sends = st.sends + 1 := by
  obtain ⟨st', h1, h2, -, -, -, h3, -, h4, -⟩ := send_packet_spec p env st d hr hc
  exact ⟨st', h1, by rw [h2]; simp [tx_events], h3, h4⟩

@[simp] theorem setTxmem_trace (st : State) (sel : BufSel) (b : Buf) :
    (st.setTxmem sel b).trace = st.trace := rfl
@[simp] theorem setTxmem_sends (st : State) (sel : BufSel) (b : Buf) :
    (st.setTxmem sel b).sends = st.sends := rfl
@[simp] theorem setTxmem_polls (st : State) (sel : BufSel) (b : Buf) :
    (st.setTxmem sel b).polls = st.polls := rfl
@[simp] theorem setTxmem_txslot (st : State) (sel : BufSel) (b : Buf) :
    (st.setTxmem sel b).txslot = st.txslot := rfl
@[simp] theorem setTxmem_txlen (st : State) (sel : BufSel) (b : Buf) :
    (st.setTxmem sel b).txlen = st.txlen := rfl
@[simp] theorem setTxmem_txbuffer (st : State) (sel : BufSel) (b : Buf) :
    (st.setTxmem sel b).txbuffer = st.txbuffer := rfl
@[simp] theorem setTxmem_my_ip (st : State) (sel : BufSel) (b : Buf) :
    (st.setTxmem sel b).my_ip = st.my_ip := rfl
@[simp] theorem setTxmem_my_mac (st : State) (sel : BufSel) (b : Buf) :
    (st.setTxmem sel b).my_mac = st.my_mac := rfl
@[simp] theorem setTxmem_cached_ip (st : State) (sel : BufSel) (b : Buf) :
    (st.setTxmem sel b).cached_ip = st.cached_ip := rfl
@[simp] theorem setTxmem_cached_mac (st : State) (sel : BufSel) (b : Buf) :
    (st.setTxmem sel b).cached_mac = st.cached_mac := rfl
@[simp] theorem setTxmem_txmem_same (st : State) (sel : BufSel) (b : Buf) :
    (st.setTxmem sel b).txmem sel = b := by cases sel <;> rfl
theorem setTxmem_txmem_other (st : State) (sel sel2 : BufSel) (b : Buf) (h : sel2 ≠ sel) :
    (st.setTxmem sel b).txmem sel2 = st.txmem sel2 := by
  cases sel <;> cases sel2 <;> first | rfl | exact absurd rfl h
@[simp] theorem setTxmem_consistent (st : State) (sel : BufSel) (b : Buf) :
    (st.setTxmem sel b).tx_consistent ↔ st.tx_consistent := Iff.rfl
@[simp] theorem txmem_with_txlen (st : State) (n : Nat) (sel : BufSel) :
    ({ st with txlen := n } : State).txmem sel = st.txmem sel := by cases sel <;> rfl

theorem process_arp_spec (p : Platform) (env : Env) (st : State)
    (hready : ∀ n, (env.ready_after n).isSome = true) (hc : st.tx_consistent) :
    ∃ st' mid, process_arp p env st = some st'
      ∧ st'.trace = st.trace ++ mid ∧ (∀ e ∈ mid, Event.inner e = true)
      ∧ st'.tx_consistent ∧ st'.my_ip = st.my_ip ∧ st'.my_mac = st.my_mac
      ∧ st'.polls = st.polls := by
  rw [process_arp_eq]
  split_ifs
  · exact ⟨_, [], rfl, (List.append_nil _).symm, fun e he => absurd he (List.not_mem_nil e), hc,
      rfl, rfl, rfl⟩
  · exact ⟨_, [], rfl, (List.append_nil _).symm, fun e he => absurd he (List.not_mem_nil e), hc,
      rfl, rfl, rfl⟩
  · obtain ⟨d, hd⟩ := Option.isSome_iff_exists.mp (hready st.sends)
    obtain ⟨st', h1, h2, h3, -⟩ := send_packet_spec2 p env (arp_reply_state p st) d hd hc
    obtain ⟨-, -, g1, g2, -, -, -, -, -, -, g3, -⟩ :=
      send_packet_frame p env (arp_reply_state p st) st' h1
    exact ⟨st', _, h1, h2, tx_events_inner _ _ _ _, h3, g1, g2, g3⟩
  · exact ⟨_, [], rfl, (List.append_nil _).symm, fun e he => absurd he (List.not_mem_nil e), hc,
      rfl, rfl, rfl⟩
  · exact ⟨_, [], rfl, (List.append_nil _).symm, fun e he => absurd he (List.not_mem_nil e), hc,
      rfl, rfl, rfl⟩

theorem process_ip_spec (p : Platform) (st : State) :
    ∃ mid, (process_ip p st).trace = st.trace ++ mid ∧ (∀ e ∈ mid, Event.inner e = true)
      ∧ ((process_ip p st).tx_consistent ↔ st.tx_consistent) := by
  unfold process_ip
  simp only
  split_ifs
  all_goals first
    | exact ⟨[], (List.append_nil _).symm, fun e he => absurd he (List.not_mem_nil e), Iff.rfl⟩
    | exact ⟨_, rfl, by simp [Event.inner], Iff.rfl⟩

theorem process_frame_spec (p : Platform) (env : Env) (st : State)
    (hready : ∀ n, (env.ready_after n).isSome = true) (hc : st.tx_consistent) :
    ∃ st' mid, process_frame p env st = some st'
      ∧ st'.trace = st.trace ++ mid ∧ (∀ e ∈ mid, Event.inner e = true)
      ∧ st'.tx_consistent ∧ st'.my_ip = st.my_ip ∧ st'.my_mac = st.my_mac
      ∧ st'.polls = st.polls := by
  rw [process_frame_eq]
  split_ifs
  · exact process_arp_spec p env { st with rxlen := parsed_length p st.rxlen } hready hc
  · obtain ⟨mid, h1, h2, h3⟩ := process_ip_spec p { st with rxlen := parsed_length p st.rxlen }
    obtain ⟨-, -, g1, -, g2, g3⟩ := process_ip_cache p
      { st with rxlen := parsed_length p st.rxlen }
    exact ⟨_, mid, rfl, h1, h2, h3.mpr hc, g2, g3, g1⟩
  · exact ⟨_, [], rfl, by simp, by simp, hc, rfl, rfl, rfl⟩
  · exact ⟨_, [], rfl, by simp, by simp, hc, rfl, rfl, rfl⟩

theorem microudp_service_cache (p : Platform) (env : Env) (st st' : State)
    (h : microudp_service p env st = some st') :
    st'.cached_ip = st.cached_ip
    ∧ st'.cached_mac =
        match env.rx st.polls with
        | none => st.cached_mac
        | some ev => (reply_mac p st.cached_ip ev).getD st.cached_mac := by
  unfold microudp_service at h
  cases hev : env.rx st.polls with
  | none =>
    simp only [hev, Option.some.injEq] at h
    subst h
    exact ⟨rfl, rfl⟩
  | some ev =>
    simp only [hev] at h
    split at h
    · exact absurd h (by simp)
    · rename_i s1 hs1
      simp only [Option.some.injEq] at h
      subst h
      obtain ⟨e1, e2, -⟩ := process_frame_cache p env _ _ hs1
      by_cases hs : ev.slot = 0
      · simp only [hs, ne_eq, not_true_eq_false, if_false, State.rxmem] at e1 e2
        exact ⟨e1, by rw [e2]; simp only [reply_mac]; split <;> rfl⟩
      · simp only [hs, ne_eq, not_false_eq_true, if_true, State.rxmem] at e1 e2
        exact ⟨e1, by rw [e2]; simp only [reply_mac]; split <;> rfl⟩

theorem microudp_service_spec (p : Platform) (env : Env) (st : State)
    (hready : ∀ n, (env.ready_after n).isSome = true) (hc : st.tx_consistent) :
    ∃ st' t, microudp_service p env st = some st'
      ∧ st'.trace = st.trace ++ t ∧ polls_in t = 1
      ∧ (∀ acc, t.foldl scan_step (false, acc) = (false, acc))
      ∧ st'.tx_consistent ∧ st'.my_ip = st.my_ip ∧ st'.my_mac = st.my_mac
      ∧ st'.polls = st.polls + 1 := by
  unfold microudp_service
  cases hev : env.rx st.polls with
  | none =>
    exact ⟨_, [Event.sram_writer_ev_pending_read false], rfl, rfl, rfl, fun _ => rfl, hc, rfl,
      rfl, rfl⟩
  | some ev =>
    simp only
    generalize hX : (if ({ st with
      trace := st.trace ++ [Event.sram_writer_ev_pending_read true,
        Event.sram_writer_slot_read ev.slot, Event.sram_writer_length_read ev.length]
      polls := st.polls + 1
      rxslot := ev.slot
      rxlen := ev.length } : State).rxslot ≠ 0 then _ else _ : State) = X
    have hXf : X.trace = st.trace ++ [Event.sram_writer_ev_pending_read true,
        Event.sram_writer_slot_read ev.slot, Event.sram_writer_length_read ev.length]
        ∧ X.tx_consistent ∧ X.my_ip = st.my_ip ∧ X.my_mac = st.my_mac
        ∧ X.polls = st.polls + 1 := by
      subst hX
      split <;> exact ⟨rfl, hc, rfl, rfl, rfl⟩
    obtain ⟨x1, x2, x3, x4, x5⟩ := hXf
    obtain ⟨s1, mid, h1, h2, h3, h4, h5, h6, h7⟩ := process_frame_spec p env X hready x2
    rw [h1]
    refine ⟨_, [Event.sram_writer_ev_pending_read true,
        Event.sram_writer_slot_read ev.slot, Event.sram_writer_length_read ev.length] ++ mid ++
        [Event.sram_writer_ev_pending_write p.ev_sram_writer], rfl, ?_, ?_, ?_, h4, ?_, ?_, ?_⟩
    · simp only [h2, x1, List.append_assoc]
    · rw [polls_in_append, polls_in_append, polls_in_inner mid h3]
      rfl
    · intro acc
      rw [List.foldl_append, List.foldl_append]
      simp only [List.foldl_cons, List.foldl_nil, scan_step, scan_inner mid h3]
    · simp only [h5, x3]
    · simp only [h6, x4]
    · simp only [h7, x5]

theorem arp_poll_spec (p : Platform) (env : Env) (ip : Nat)
    (hready : ∀ n, (env.ready_after n).isSome = true) :
    ∀ n st, st.tx_consistent → st.cached_ip = ip → st.cached_mac = zeroMac →
    (∀ j, j < n → ∀ ev, env.rx (st.polls + j) = some ev →
      ∀ m, reply_mac p ip ev = some m → m = zeroMac) →
    ∃ st' t, arp_poll p env n st = some (st', false)
      ∧ st'.trace = st.trace ++ t ∧ polls_in t = n
      ∧ (∀ acc, t.foldl scan_step (false, acc) = (false, acc))
      ∧ st'.tx_consistent ∧ st'.my_ip = st.my_ip ∧ st'.my_mac = st.my_mac
      ∧ st'.polls = st.polls + n ∧ st'.cached_ip = ip ∧ st'.cached_mac = zeroMac := by
  intro n
  induction n with
  | zero =>
    intro st hc hip hmac _
    exact ⟨st, [], rfl, by simp, rfl, fun _ => rfl, hc, rfl, rfl, rfl, hip, hmac⟩
  | succ n ih =>
    intro st hc hip hmac hno
    obtain ⟨s1, t1, h1, h2, h3, h4, h5, h6, h7, h8⟩ := microudp_service_spec p env st hready hc
    obtain ⟨c1, c2⟩ := microudp_service_cache p env st s1 h1
    have hmac1 : s1.cached_mac = zeroMac := by
      rw [c2]
      cases hev : env.rx st.polls with
      | none => exact hmac
      | some ev =>
        simp only
        cases hm : reply_mac p st.cached_ip ev with
        | none => exact hmac
        | some m =>
          rw [hip] at hm
          exact hno 0 (Nat.succ_pos n) ev (by simpa using hev) m hm
    obtain ⟨s2, t2, g1, g2, g3, g4, g5, g6, g7, g8, g9, g10⟩ := ih s1 h5 (by rw [c1, hip]) hmac1
      (fun j hj ev hev m hm => hno (j + 1) (by omega) ev
        (by rw [h8] at hev; rw [← hev]; congr 1; omega) m hm)
    refine ⟨s2, t1 ++ t2, ?_, ?_, ?_, ?_, g5, by rw [g6, h6], by rw [g7, h7], by rw [g8, h8]; omega,
      g9, g10⟩
    · rw [arp_poll, h1]
      simp only [(macNonZero_eq_false _).mpr hmac1, Bool.false_eq_true, if_false]
      exact g1
    · rw [g2, h2, List.append_assoc]
    · rw [polls_in_append, h3, g3]; omega
    · intro acc
      rw [List.foldl_append, h4, g4]

theorem ARP_PACKET_LENGTH_lt (p : Platform) : ARP_PACKET_LENGTH p + 3 < 4294967296 := by
  unfold ARP_PACKET_LENGTH; split <;> omega

theorem arp_fill_of_lt (p : Platform) (b : Buf) (op sip : Nat) (smac : Mac) (tip : Nat)
    (tmac : Mac) (j : Nat) (h : j < ETH_HEADER_SIZE p) :
    arp_fill p b op sip smac tip tmac j = b j := by
  unfold arp_fill
  simp (disch := omega) only [wr8_of_ne, wr16_of_ne, wr32_of_ne, wrMac_of_ne]

theorem rdMac_arp_fill (p : Platform) (b : Buf) (op sip : Nat) (smac : Mac) (tip : Nat)
    (tmac : Mac) (off : Nat) (h : off + 6 ≤ ETH_HEADER_SIZE p) :
    rdMac (arp_fill p b op sip smac tip tmac) off = rdMac b off :=
  rdMac_congr _ _ _ (fun j _ _ => arp_fill_of_lt p b op sip smac tip tmac j (by omega))

theorem other_ne (b : BufSel) : b.other ≠ b := by cases b <;> decide

theorem other_other (b : BufSel) : b.other.other = b := by cases b <;> rfl

theorem ne_eq_other (a b : BufSel) (h : a ≠ b) : a = b.other := by
  cases a <;> cases b <;> first | rfl | exact absurd rfl h

/-- One ARP request of `microudp_arp_resolve`.  The frame handed to the
hardware is broadcast.  When `arp` designates the buffer `txbuffer` points
to, the other buffer is left alone; when it designates the other buffer, the
frame has a fresh Ethernet header and after it the bytes the buffer held. -/
theorem arp_request_spec (p : Platform) (env : Env) (ip : Nat) (arp : BufSel) (st : State)
    (hready : ∀ n, (env.ready_after n).isSome = true) (hc : st.tx_consistent) :
    ∃ st' l d mem, arp_request p env ip arp st = some st'
      ∧ st'.trace = st.trace ++ tx_events st.txslot l d mem
      ∧ rdMac mem (ETH_DESTMAC p) = broadcast
      ∧ st'.tx_consistent ∧ st'.my_ip = st.my_ip ∧ st'.my_mac = st.my_mac
      ∧ st'.polls = st.polls ∧ st'.cached_ip = st.cached_ip
      ∧ st'.cached_mac = st.cached_mac
      ∧ st'.txbuffer = st.txbuffer.other
      ∧ (arp = st.txbuffer → st'.txmem st.txbuffer.other = st.txmem st.txbuffer.other)
      ∧ (arp ≠ st.txbuffer → ∀ j, ETH_HEADER_SIZE p ≤ j → j < ARP_PACKET_LENGTH p →
          mem j = st.txmem st.txbuffer j) := by
  obtain ⟨d, hd⟩ := Option.isSome_iff_exists.mp (hready st.sends)
  unfold arp_request
  simp only
  generalize hX : State.setTxmem _ arp _ = X
  have hXf : X.sends = st.sends ∧ X.trace = st.trace ∧ X.tx_consistent
      ∧ X.my_ip = st.my_ip ∧ X.my_mac = st.my_mac ∧ X.polls = st.polls
      ∧ X.cached_ip = st.cached_ip ∧ X.cached_mac = st.cached_mac
      ∧ X.txslot = st.txslot ∧ X.txlen = ARP_PACKET_LENGTH p
      ∧ rdMac (X.txmem X.txbuffer) (ETH_DESTMAC p) = broadcast
      ∧ X.txbuffer = st.txbuffer
      ∧ (arp = st.txbuffer → X.txmem st.txbuffer.other = st.txmem st.txbuffer.other)
      ∧ (arp ≠ st.txbuffer → X.txmem st.txbuffer
          = fill_eth_header p (st.txmem st.txbuffer) broadcast st.my_mac ETHERTYPE_ARP) := by
    subst hX
    refine ⟨by simp, by simp, by simpa [State.tx_consistent] using hc, by simp, by simp, by simp,
      by simp, by simp, by simp, by simp, ?_, by simp, ?_, ?_⟩
    · have hH : ETH_DESTMAC p + 6 ≤ ETH_HEADER_SIZE p := by unfold ETH_HEADER_SIZE; omega
      cases hb : st.txbuffer <;> cases arp <;>
        simp only [State.setTxmem, State.txmem, hb, if_true, if_false, reduceCtorEq,
          rdMac_arp_fill _ _ _ _ _ _ _ _ hH, fill_eth_header_destmac]
    · intro harp
      subst harp
      cases hb : st.txbuffer <;>
        simp only [State.setTxmem, State.txmem, hb, BufSel.other, if_true, if_false, reduceCtorEq]
    · intro harp
      cases hb : st.txbuffer <;> cases arp <;>
        first
        | exact absurd hb.symm harp
        | simp only [State.setTxmem, State.txmem, hb, if_true, if_false, reduceCtorEq]
  obtain ⟨x1, x2, x3, x4, x5, x6, x7, x8, x9, x10, x11, x12, x13, x14⟩ := hXf
  obtain ⟨st', h1, h2, -, h3, h4, h5, -⟩ := send_packet_spec p env X d (by rw [x1]; exact hd) x3
  obtain ⟨g1, g2, g3, g4, -, -, -, -, -, -, g5, -⟩ := send_packet_frame p env X st' h1
  have hA := ARP_PACKET_LENGTH_lt p
  have hA2 := ETH_HEADER_SIZE_ARP p
  refine ⟨st', (if p.hw_preamble_crc then X.txlen else (X.txlen + 4) % 4294967296), d,
    crc_appended p (X.txmem X.txbuffer) X.txlen, h1, ?_, ?_, h5, by rw [g3, x4], by rw [g4, x5],
    by rw [g5, x6], by rw [g1, x7], by rw [g2, x8], by rw [h4, x12], ?_, ?_⟩
  · rw [h2, x2, x9]
    simp [tx_events]
  · rw [x10, rdMac_congr _ (X.txmem X.txbuffer) _
      (fun j _ _ => crc_appended_of_lt p _ _ j hA (by unfold ETH_HEADER_SIZE at hA2; omega))]
    exact x11
  · intro harp
    rw [← x12, h3, x12, x13 harp]
  · intro harp j hj1 hj2
    rw [x12, x14 harp, x10, crc_appended_of_lt p _ _ j hA hj2]
    exact fill_eth_header_of_ge p _ _ _ _ j hj1

theorem arp_tries_spec (p : Platform) (env : Env) (ip : Nat) (arp : BufSel)
    (hready : ∀ n, (env.ready_after n).isSome = true) :
    ∀ k st, st.tx_consistent → st.cached_ip = ip → st.cached_mac = zeroMac →
    (∀ j, j < k * 2000000 → ∀ ev, env.rx (st.polls + j) = some ev →
      ∀ m, reply_mac p ip ev = some m → m = zeroMac) →
    ∃ st' t frames, arp_tries p env ip arp k st = some (0, st')
      ∧ st'.trace = st.trace ++ t ∧ polls_in t = k * 2000000
      ∧ (∀ acc, t.foldl scan_step (false, acc) = (false, acc ++ frames))
      ∧ frames.length = k ∧ (∀ mem ∈ frames, rdMac mem (ETH_DESTMAC p) = broadcast)
      ∧ st'.tx_consistent ∧ st'.polls = st.polls + k * 2000000
      ∧ st'.cached_ip = ip ∧ st'.cached_mac = zeroMac := by
  intro k
  induction k with
  | zero =>
    intro st hc hip hmac _
    exact ⟨st, [], [], rfl, by simp, rfl, fun _ => by simp, rfl, by simp, hc, by simp, hip, hmac⟩
  | succ k ih =>
    intro st hc hip hmac hno
    obtain ⟨s1, l, d, mem, h1, h2, h3, h4, -, -, h7, h8, h9, -⟩ :=
      arp_request_spec p env ip arp st hready hc
    obtain ⟨s2, t2, g1, g2, g3, g4, g5, -, -, g8, g9, g10⟩ :=
      arp_poll_spec p env ip hready 2000000 s1 h4 (by rw [h8, hip]) (by rw [h9, hmac])
        (fun j hj ev hev m hm => hno j (by omega) ev (by rw [h7] at hev; exact hev) m hm)
    obtain ⟨s3, t3, frames, f1, f2, f3, f4, f5, f6, f7, f8, f9, f10⟩ := ih s2 g5 g9 g10
      (fun j hj ev hev m hm => hno (2000000 + j) (by omega) ev
        (by rw [g8, h7] at hev; rw [← hev]; congr 1; omega) m hm)
    refine ⟨s3, tx_events st.txslot l d mem ++ t2 ++ t3, mem :: frames, ?_, ?_, ?_, ?_, ?_, ?_,
      f7, by rw [f8, g8, h7]; omega, f9, f10⟩
    · rw [arp_tries, h1]
      simp only [g1]
      exact f1
    · rw [f2, g2, h2]; simp only [List.append_assoc]
    · rw [polls_in_append, polls_in_append, polls_in_inner _ (tx_events_inner _ _ _ _), g3, f3]
      omega
    · intro acc
      rw [List.foldl_append, List.foldl_append, scan_tx_events, g4, f4]
      simp
    · simp [f5]
    · intro m hm
      rcases List.mem_cons.mp hm with rfl | hm
      · exact h3
      · exact f6 m hm

/-- Claim C5.  When `ip` is not a cache hit, the ready flag is always
eventually set and none of the next 5 x 2,000,000 polls of
`microudp_service` receives an ARP reply that makes `cached_mac` non-zero,
`microudp_arp_resolve(ip)` returns 0 with `cached_ip = ip` and `cached_mac`
all-zero, after exactly 5 x 2,000,000 polls and exactly 5 transmissions of
its own, each to the broadcast MAC. -/
theorem microudp_arp_resolve_timeout (p : Platform) (env : Env) (ip : Nat) (st : State)
    (hmiss : ¬ (st.cached_ip = ip ∧ ∃ i, st.cached_mac i ≠ 0))
    (hready : ∀ n, (env.ready_after n).isSome = true)
    (hnoreply : ∀ j, j < 5 * 2000000 → ∀ ev, env.rx (st.polls + j) = some ev →
      ∀ m, reply_mac p ip ev = some m → m = zeroMac)
    (hcons : st.tx_consistent) :
    ∃ st' new,
      microudp_arp_resolve p env ip st = some (0, st')
      ∧ st'.cached_ip = ip ∧ st'.cached_mac = zeroMac
      ∧ st'.polls = st.polls + 5 * 2000000
      ∧ st'.trace = st.trace ++ new
      ∧ polls_in new = 5 * 2000000
      ∧ (own_frames new).length = 5
      ∧ (∀ mem ∈ own_frames new, rdMac mem (ETH_DESTMAC p) = broadcast) := by
  obtain ⟨st', t, frames, h1, h2, h3, h4, h5, h6, -, h8, h9, h10⟩ :=
    arp_tries_spec p env ip st.txbuffer hready 5
      { st with cached_ip := ip, cached_mac := zeroMac }
      (by simpa [State.tx_consistent] using hcons) rfl rfl hnoreply
  have hown : own_frames t = frames := by
    unfold own_frames; rw [h4]; rfl
  refine ⟨st', t, ?_, h9, h10, h8, h2, h3, by rw [hown, h5], by rw [hown]; exact h6⟩
  rw [← h1]
  exact microudp_arp_resolve_miss p env ip st hmiss

theorem arp_poll_silent (p : Platform) (env : Env) :
    ∀ n st, macNonZero st.cached_mac = false → (∀ j, j < n → env.rx (st.polls + j) = none) →
      arp_poll p env n st
        = some ({ st with
            trace := st.trace ++ List.replicate n (Event.sram_writer_ev_pending_read false)
            polls := st.polls + n }, false) := by
  intro n
  induction n with
  | zero => intro st _ _; simp [arp_poll]
  | succ n ih =>
    intro st h hrx
    have h0 : env.rx st.polls = none := by simpa using hrx 0 (Nat.succ_pos n)
    rw [arp_poll]
    simp only [microudp_service, h0, h, Bool.false_eq_true, if_false]
    rw [ih { st with
        trace := st.trace ++ [Event.sram_writer_ev_pending_read false]
        polls := st.polls + 1 } h (fun j hj => by
      have := hrx (j + 1) (by omega)
      rw [← this]; congr 1; simp only []; omega)]
    simp only [List.replicate_succ, List.append_assoc, List.singleton_append, Nat.add_assoc,
      Nat.add_comm 1 n]

theorem scan_idle (n : Nat) (s : Bool × List Buf) :
    (List.replicate n (Event.sram_writer_ev_pending_read false)).foldl scan_step s = s := by
  induction n with
  | zero => rfl
  | succ n ih => rw [List.replicate_succ, List.foldl_cons]; exact ih

/-- When nothing is received during the first round of `microudp_arp_resolve`,
the second request goes out with a fresh Ethernet header only: from the end
of that header on, the frame is what the other TX buffer held on entry. -/
theorem arp_resolve_second_frame (p : Platform) (env : Env) (ip : Nat) (st : State)
    (hmiss : ¬ (st.cached_ip = ip ∧ ∃ i, st.cached_mac i ≠ 0))
    (hready : ∀ n, (env.ready_after n).isSome = true)
    (hsilent : ∀ j, j < 2000000 → env.rx (st.polls + j) = none)
    (hnoreply : ∀ j, j < 5 * 2000000 → ∀ ev, env.rx (st.polls + j) = some ev →
      ∀ m, reply_mac p ip ev = some m → m = zeroMac)
    (hcons : st.tx_consistent) :
    ∃ st' new f1 f2 rest,
      microudp_arp_resolve p env ip st = some (0, st')
      ∧ st'.trace = st.trace ++ new
      ∧ own_frames new = f1 :: f2 :: rest
      ∧ (∀ j, ETH_HEADER_SIZE p ≤ j → j < ARP_PACKET_LENGTH p →
          f2 j = st.txmem st.txbuffer.other j) := by
  rw [microudp_arp_resolve_miss p env ip st hmiss]
  -- the state once the cache entry is invalidated
  obtain ⟨s0, hs0⟩ : ∃ s0 : State, s0 = { st with cached_ip := ip, cached_mac := zeroMac } :=
    ⟨_, rfl⟩
  have hs0f : s0.tx_consistent ∧ s0.txbuffer = st.txbuffer ∧ s0.txslot = st.txslot
      ∧ s0.trace = st.trace ∧ s0.polls = st.polls ∧ s0.cached_ip = ip ∧ s0.cached_mac = zeroMac
      ∧ s0.txmem st.txbuffer.other = st.txmem st.txbuffer.other := by
    subst hs0
    refine ⟨by simpa [State.tx_consistent] using hcons, rfl, rfl, rfl, rfl, rfl, rfl, ?_⟩
    cases st.txbuffer.other <;> rfl
  obtain ⟨z1, z2, z3, z4, z5, z6, z7, z8⟩ := hs0f
  rw [← hs0]
  -- first round
  obtain ⟨s1, l1, d1, f1, a1, a2, -, a4, -, -, a7, a8, a9, a10, a11, -⟩ :=
    arp_request_spec p env ip st.txbuffer s0 hready z1
  have a11 := a11 z2.symm
  rw [z2] at a10 a11
  rw [z8] at a11
  rw [z4, z3] at a2
  rw [z5] at a7
  rw [z6] at a8
  rw [z7] at a9
  have b1 := arp_poll_silent p env 2000000 s1 (by rw [a9]; rfl)
    (fun j hj => by rw [a7]; exact hsilent j hj)
  -- second round
  generalize hs1 : ({ s1 with
      trace := s1.trace ++ List.replicate 2000000 (Event.sram_writer_ev_pending_read false)
      polls := s1.polls + 2000000 } : State) = s1' at b1
  have hs1f : s1'.tx_consistent ∧ s1'.txbuffer = st.txbuffer.other
      ∧ s1'.txmem st.txbuffer.other = st.txmem st.txbuffer.other
      ∧ s1'.cached_ip = ip ∧ s1'.cached_mac = zeroMac ∧ s1'.polls = st.polls + 2000000
      ∧ s1'.trace = s1.trace ++ List.replicate 2000000 (Event.sram_writer_ev_pending_read false)
      ∧ s1'.txslot = s1.txslot := by
    subst hs1
    refine ⟨by simpa [State.tx_consistent] using a4, a10, ?_, a8, a9, by simp only [a7], rfl, rfl⟩
    rw [← a11]
    cases st.txbuffer.other <;> rfl
  obtain ⟨c1, c2, c3, c4, c5, c6, c7, c8⟩ := hs1f
  obtain ⟨s2, l2, d2, f2, e1, e2, -, e4, -, -, e7, e8, e9, -, -, e12⟩ :=
    arp_request_spec p env ip st.txbuffer s1' hready c1
  have e12 := e12 (by rw [c2]; exact (other_ne _).symm)
  obtain ⟨s2', t2, g1, g2, -, g4, g5, -, -, g8, g9, g10⟩ :=
    arp_poll_spec p env ip hready 2000000 s2 e4 (by rw [e8, c4]) (by rw [e9, c5])
      (fun j hj ev hev m hm => hnoreply (2000000 + j) (by omega) ev
        (by rw [e7, c6] at hev; rw [← hev]; congr 1; omega) m hm)
  obtain ⟨s3, t3, frames, f1', f2', -, f4, -, -, -, -, -, -⟩ :=
    arp_tries_spec p env ip st.txbuffer hready 3 s2' g5 g9 g10
      (fun j hj ev hev m hm => hnoreply (4000000 + j) (by omega) ev
        (by rw [g8, e7, c6] at hev; rw [← hev]; congr 1; omega) m hm)
  refine ⟨s3, tx_events st.txslot l1 d1 f1
      ++ List.replicate 2000000 (Event.sram_writer_ev_pending_read false)
      ++ tx_events s1.txslot l2 d2 f2 ++ t2 ++ t3, f1, f2, frames, ?_, ?_, ?_, ?_⟩
  · rw [show (5 : Nat) = 3 + 1 + 1 by rfl, arp_tries, a1]
    simp only [b1]
    rw [arp_tries, e1]
    simp only [g1]
    exact f1'
  · rw [f2', g2, e2, c7, a2, c8]
    simp only [List.append_assoc]
  · unfold own_frames
    rw [List.foldl_append, List.foldl_append, List.foldl_append, List.foldl_append,
      scan_tx_events, scan_idle, scan_tx_events, g4, f4]
    simp
  · intro j hj1 hj2
    rw [e12 j hj1 hj2, c2, c3]

theorem arp_request_cache (p : Platform) (env : Env) (ip : Nat) (arp : BufSel) (st st' : State)
    (h : arp_request p env ip arp st = some st') :
    st'.cached_ip = st.cached_ip ∧ st'.cached_mac = st.cached_mac := by
  unfold arp_request at h
  obtain ⟨h1, h2, -⟩ := send_packet_frame p env _ _ h
  rw [h1, h2]
  exact ⟨rfl, rfl⟩

/-- Claim C6.  When `cached_ip` equals `ip` and some byte of `cached_mac` is
non-zero, `microudp_arp_resolve(ip)` returns 1 with the state untouched: no
event is appended to the trace (nothing transmitted, `microudp_service` not
polled) and the cache, `txslot` and `txlen` are unchanged.  In every other
state the call runs its five rounds from the state in which `cached_ip` is
`ip` and `cached_mac` is all-zero, and the cache is still so when the first
request has been handed to the hardware. -/
theorem microudp_arp_resolve_cache_hit (p : Platform) (env : Env) (ip : Nat) (st : State) :
    (st.cached_ip = ip → (∃ i, st.cached_mac i ≠ 0) →
      microudp_arp_resolve p env ip st = some (1, st))
    ∧ (¬ (st.cached_ip = ip ∧ ∃ i, st.cached_mac i ≠ 0) →
      microudp_arp_resolve p env ip st
        = arp_tries p env ip st.txbuffer 5 { st with cached_ip := ip, cached_mac := zeroMac }
      ∧ ∀ st1,
        arp_request p env ip st.txbuffer { st with cached_ip := ip, cached_mac := zeroMac }
          = some st1 →
        st1.cached_ip = ip ∧ st1.cached_mac = zeroMac) := by
  constructor
  · intro h1 h2
    simp [microudp_arp_resolve, h1, (exists_ne_zero_iff _).mp h2]
  · intro h
    exact ⟨microudp_arp_resolve_miss p env ip st h,
      fun st1 h1 => arp_request_cache p env ip _ _ st1 h1⟩

/-- Claim C3, at a failing input.  After `microudp_start` on zeroed TX buffers,
with a MAC that is always ready and nothing received,
`microudp_arp_resolve(10.0.0.2)` returns 0 after at least two transmissions
of its own, and in the frame of the second round the ARP hardware type, the
opcode and the target IP are all 0: the request fields of that round were
not written into the buffer that is sent. -/
theorem arp_resolve_second_request_stale :
    ∃ st' new f1 f2 rest,
      microudp_arp_resolve demo_platform demo_env demo_peer_ip demo_started = some (0, st')
      ∧ st'.trace = demo_started.trace ++ new
      ∧ own_frames new = f1 :: f2 :: rest
      ∧ rd16 demo_platform f2 (ETH_HEADER_SIZE demo_platform) = 0
      ∧ rd16 demo_platform f2 (ETH_HEADER_SIZE demo_platform + 6) = 0
      ∧ rd32 demo_platform f2 (ETH_HEADER_SIZE demo_platform + 24) = 0 := by
  obtain ⟨st', new, f1, f2, rest, h1, h2, h3, h4⟩ :=
    arp_resolve_second_frame demo_platform demo_env demo_peer_ip demo_started
      (by decide) (fun _ => rfl) (fun _ _ => rfl)
      (fun j _ ev hev => absurd hev (by simp [demo_env])) (Or.inl ⟨rfl, rfl⟩)
  have hz : ∀ j, 14 ≤ j → j < 60 → f2 j = (fun _ => 0 : Buf) j := fun j a b => h4 j a b
  refine ⟨st', new, f1, f2, rest, h1, h2, h3, ?_, ?_, ?_⟩
  · rw [rd16_congr _ f2 (fun _ => 0) _ (fun j a b => hz j (by simpa [ETH_HEADER_SIZE, ETH_DESTMAC, demo_platform] using a) (by simp [ETH_HEADER_SIZE, ETH_DESTMAC, demo_platform] at b; omega))]
    rfl
  · rw [rd16_congr _ f2 (fun _ => 0) _ (fun j a b => hz j (by simp [ETH_HEADER_SIZE, ETH_DESTMAC, demo_platform] at a; omega) (by simp [ETH_HEADER_SIZE, ETH_DESTMAC, demo_platform] at b; omega))]
    rfl
  · rw [rd32_congr _ f2 (fun _ => 0) _ (fun j a b => hz j (by simp [ETH_HEADER_SIZE, ETH_DESTMAC, demo_platform] at a; omega) (by simp [ETH_HEADER_SIZE, ETH_DESTMAC, demo_platform] at b; omega))]
    rfl

theorem microudp_send_unresolved_witness :
    (∀ i, demo_started.cached_mac i = 0)
    ∧ microudp_send demo_platform demo_env 1234 5678 4 demo_started = some (0, demo_started) :=
  ⟨fun _ => rfl,
    microudp_send_unresolved demo_platform demo_env 1234 5678 4 demo_started (fun _ => rfl)⟩

theorem microudp_send_frame_witness :
    ∃ st' mem,
      microudp_send demo_platform demo_env 1234 5678 4 demo_resolved = some (1, st')
      ∧ st'.trace = demo_resolved.trace ++
          [Event.sram_reader_slot_write 0, Event.sram_reader_length_write 60,
           Event.sram_reader_ready_read true, Event.sram_reader_start_write 1 mem]
      ∧ rdMac mem 0 = demo_peer_mac
      ∧ rd16 demo_platform mem 38 = 12
      ∧ rd16 demo_platform mem 16 = 32 := by
  obtain ⟨st', mem, h1, h2, h3, -, -, -, -, h4, -, -, -, -, -, -, -, -, h5, -⟩ :=
    microudp_send_frame demo_platform demo_env 1234 5678 4 demo_resolved 0
      ⟨0, by decide⟩ (by decide) rfl (Or.inl ⟨rfl, rfl⟩) (by decide) (by decide) (by decide)
      (by decide)
  exact ⟨st', mem, h1, h2, h3, h5, h4⟩

theorem microudp_arp_resolve_timeout_witness :
    ∃ st' new,
      microudp_arp_resolve demo_platform demo_env demo_peer_ip demo_started = some (0, st')
      ∧ st'.cached_ip = demo_peer_ip ∧ st'.cached_mac = zeroMac
      ∧ st'.polls = demo_started.polls + 5 * 2000000
      ∧ st'.trace = demo_started.trace ++ new
      ∧ polls_in new = 5 * 2000000
      ∧ (own_frames new).length = 5
      ∧ (∀ mem ∈ own_frames new, rdMac mem (ETH_DESTMAC demo_platform) = broadcast) :=
  microudp_arp_resolve_timeout demo_platform demo_env demo_peer_ip demo_started
    (by decide) (fun _ => rfl) (fun j _ ev hev => absurd hev (by simp [demo_env]))
    (Or.inl ⟨rfl, rfl⟩)

theorem microudp_arp_resolve_cache_hit_witness :
    microudp_arp_resolve demo_platform demo_env demo_peer_ip demo_resolved
      = some (1, demo_resolved) :=
  (microudp_arp_resolve_cache_hit demo_platform demo_env demo_peer_ip demo_resolved).1 rfl
    ⟨0, by decide⟩

theorem microudp_send_udp_checksum_witness :
    ∃ st' mem,
      microudp_send demo_platform_sw demo_env 1234 5678 3 demo_resolved = some (1, st')
      ∧ st'.trace = demo_resolved.trace ++
          [Event.sram_reader_slot_write 0, Event.sram_reader_length_write 72,
           Event.sram_reader_ready_read true, Event.sram_reader_start_write 1 mem]
      ∧ fold16 (udp_verify_sum demo_platform_sw mem 3) = 0xffff
      ∧ word16 mem 48 ≠ 0 :=
  microudp_send_udp_checksum demo_platform_sw demo_env 1234 5678 3 demo_resolved 0 rfl
    ⟨0, by decide⟩ (by decide) rfl (Or.inl ⟨rfl, rfl⟩)

/-! ### Receive path, transmit bounds and reachable states -/

theorem slot_writes_append (a b : List Event) :
    slot_writes (a ++ b) = slot_writes a ++ slot_writes b := by
  induction a with
  | nil => rfl
  | cons e t ih => cases e <;> simp [slot_writes, ih]

theorem length_writes_append (a b : List Event) :
    length_writes (a ++ b) = length_writes a ++ length_writes b := by
  induction a with
  | nil => rfl
  | cons e t ih => cases e <;> simp [length_writes, ih]

theorem slot_writes_ready (d : Nat) :
    slot_writes (List.replicate d (Event.sram_reader_ready_read false)) = [] := by
  induction d with
  | zero => rfl
  | succ n ih => simpa [List.replicate_succ, slot_writes] using ih

theorem length_writes_ready (d : Nat) :
    length_writes (List.replicate d (Event.sram_reader_ready_read false)) = [] := by
  induction d with
  | zero => rfl
  | succ n ih => simpa [List.replicate_succ, length_writes] using ih

theorem slot_writes_tx_events (slot len d : Nat) (mem : Buf) :
    slot_writes (tx_events slot len d mem) = [slot] := by
  simp [tx_events, slot_writes_append, slot_writes_ready, slot_writes]

theorem length_writes_tx_events (slot len d : Nat) (mem : Buf) :
    length_writes (tx_events slot len d mem) = [len] := by
  simp [tx_events, length_writes_append, length_writes_ready, length_writes]

theorem append_crc_mem (p : Platform) (st : State) :
    (append_crc p st).txlen = (if p.hw_preamble_crc then st.txlen else (st.txlen + 4) % 4294967296)
    ∧ (append_crc p st).txmem st.txbuffer = crc_appended p (st.txmem st.txbuffer) st.txlen
    ∧ (append_crc p st).txmem st.txbuffer.other = st.txmem st.txbuffer.other := by
  cases hp : p.hw_preamble_crc <;> cases hb : st.txbuffer <;>
    simp [append_crc, hp, hb, State.txmem, State.setTxmem, crc_appended, BufSel.other]

theorem txmem_frame (X Y : State) (h0 : Y.txbuffer0 = X.txbuffer0) (h1 : Y.txbuffer1 = X.txbuffer1)
    (sel : BufSel) : Y.txmem sel = X.txmem sel := by
  cases sel <;> simp [State.txmem, h0, h1]

/-- What a call of `send_packet` that returns has done. -/
theorem send_packet_inv (p : Platform) (env : Env) (st st' : State)
    (h : send_packet p env st = some st') :
    ∃ d mem, env.ready_after st.sends = some d
      ∧ st'.trace = st.trace ++ tx_events st.txslot
          (if p.hw_preamble_crc then st.txlen else (st.txlen + 4) % 4294967296) d mem
      ∧ st'.txlen = (if p.hw_preamble_crc then st.txlen else (st.txlen + 4) % 4294967296)
      ∧ st'.txslot = (st.txslot + 1) % 4294967296 % 2
      ∧ st'.txbuffer = (if (st.txslot + 1) % 4294967296 % 2 ≠ 0 then BufSel.buf1 else BufSel.buf0)
      ∧ st'.txmem st.txbuffer = crc_appended p (st.txmem st.txbuffer) st.txlen
      ∧ st'.txmem st.txbuffer.other = st.txmem st.txbuffer.other
      ∧ (st.tx_consistent → mem = crc_appended p (st.txmem st.txbuffer) st.txlen
          ∧ st'.tx_consistent ∧ st'.txbuffer = st.txbuffer.other
          ∧ st'.txslot = (st.txslot + 1) % 2) := by
  obtain ⟨a1, a2, -, -, -, -, -, -, -, -, -, -, -, a14, a15⟩ := append_crc_frame p st
  obtain ⟨m1, m2, m3⟩ := append_crc_mem p st
  unfold send_packet at h
  generalize append_crc p st = X at *
  simp only [a1] at h
  cases hr : env.ready_after st.sends with
  | none => rw [hr] at h; exact absurd h (by simp)
  | some d =>
    rw [hr] at h
    simp only [Option.some.injEq, a14, a2] at h
    refine ⟨d, X.slotmem st.txslot, rfl, ?_, ?_, ?_, ?_, ?_, ?_, ?_⟩
    · subst h; split <;> simp [tx_events, m1, State.slotmem]
    · subst h; split <;> exact m1
    · subst h; split <;> rfl
    · subst h; split <;> rename_i hc <;> simp at hc ⊢
    · rw [← m2]; subst h; split <;> exact txmem_frame _ _ rfl rfl _
    · rw [← m3]; subst h; split <;> exact txmem_frame _ _ rfl rfl _
    · intro hc
      rcases hc with ⟨h1, h2⟩ | ⟨h1, h2⟩
      · refine ⟨?_, ?_, ?_, ?_⟩
        · rw [← m2, h2, h1]; rfl
        · subst h; simp [h1, State.tx_consistent]
        · subst h; simp [h1, h2, BufSel.other]
        · subst h; simp [h1]
      · refine ⟨?_, ?_, ?_, ?_⟩
        · rw [← m2, h2, h1]; rfl
        · subst h; simp [h1, State.tx_consistent]
        · subst h; simp [h1, h2, BufSel.other]
        · subst h; simp [h1]

/-- What a call of `microudp_send` that finds a cached MAC and returns has done. -/
theorem microudp_send_inv (p : Platform) (env : Env) (src_port dst_port length : Nat)
    (st : State) (r : Nat) (st' : State)
    (hmac : macNonZero st.cached_mac = true)
    (h : microudp_send p env src_port dst_port length st = some (r, st')) :
    r = 1 ∧ ∃ d mem, env.ready_after st.sends = some d
      ∧ st'.trace = st.trace ++ tx_events st.txslot
          (if p.hw_preamble_crc then send_txlen p length
            else (send_txlen p length + 4) % 4294967296) d mem
      ∧ st'.txlen = (if p.hw_preamble_crc then send_txlen p length
            else (send_txlen p length + 4) % 4294967296)
      ∧ st'.txmem st.txbuffer = crc_appended p
          (send_fill p (st.txmem st.txbuffer) st.cached_mac st.my_mac st.my_ip st.cached_ip
            src_port dst_port length) (send_txlen p length)
      ∧ st'.txmem st.txbuffer.other = st.txmem st.txbuffer.other
      ∧ st'.cached_ip = st.cached_ip ∧ st'.cached_mac = st.cached_mac
      ∧ (st.tx_consistent → mem = crc_appended p
          (send_fill p (st.txmem st.txbuffer) st.cached_mac st.my_mac st.my_ip st.cached_ip
            src_port dst_port length) (send_txlen p length)
          ∧ st'.tx_consistent ∧ st'.txslot = (st.txslot + 1) % 2) := by
  unfold microudp_send at h
  simp only [hmac, Bool.not_true, Bool.false_eq_true, if_false] at h
  split at h
  · exact absurd h (by simp)
  · rename_i st2 hs
    simp only [Option.some.injEq, Prod.mk.injEq] at h
    obtain ⟨hr, hst⟩ := h
    subst hst
    obtain ⟨d, mem, g1, g2, g3, g4, g5, g6, g7, g8⟩ := send_packet_inv p env _ _ hs
    obtain ⟨f1, f2, -⟩ := send_packet_frame p env _ _ hs
    refine ⟨hr.symm, d, mem, g1, ?_, ?_, ?_, ?_, f1, f2, ?_⟩
    · simpa [send_txlen] using g2
    · simpa [send_txlen] using g3
    · simpa [send_txlen] using g6
    · simp only [setTxmem_txbuffer] at g7
      rw [g7]
      exact setTxmem_txmem_other _ _ _ _ (by cases st.txbuffer <;> simp [BufSel.other])
    · intro hc
      obtain ⟨k1, k2, k3, k4⟩ := g8 hc
      exact ⟨by simpa [send_txlen] using k1, k2, by simpa using k4⟩

/-- A call of `microudp_send` that finds a cached MAC returns when the MAC
becomes ready. -/
theorem microudp_send_isSome (p : Platform) (env : Env) (src_port dst_port length : Nat)
    (st : State) (hmac : macNonZero st.cached_mac = true)
    (hr : (env.ready_after st.sends).isSome = true) :
    ∃ st', microudp_send p env src_port dst_port length st = some (1, st') := by
  unfold microudp_send
  simp only [hmac, Bool.not_true, Bool.false_eq_true, if_false]
  have := send_packet_isSome p env
    (({ st with txlen := send_txlen p length } : State).setTxmem st.txbuffer
      (send_fill p (st.txmem st.txbuffer) st.cached_mac st.my_mac st.my_ip st.cached_ip
        src_port dst_port length)) hr
  obtain ⟨st', hst'⟩ := Option.isSome_iff_exists.mp this
  refine ⟨st', ?_⟩
  simp only [send_txlen] at hst'
  simp only [txmem_with_txlen]
  rw [hst']

theorem send_fill_of_ge (p : Platform) (b : Buf) (cm mm : Mac) (mi ci sp dp length j : Nat)
    (hl : ETH_HEADER_SIZE p + 28 + length < 4294967296)
    (hj : ETH_HEADER_SIZE p + 28 ≤ j)
    (hne : length % 2 = 1 → j ≠ ETH_HEADER_SIZE p + 28 + length) :
    send_fill p b cm mm mi ci sp dp length j = b j := by
  have hpad : (ETH_HEADER_SIZE p + UDP_FRAME_SIZE + length) % 4294967296
      = ETH_HEADER_SIZE p + 28 + length := Nat.mod_eq_of_lt hl
  unfold send_fill send_udp_fields send_ip_checksum send_ip_fields
  simp only [hpad, Nat.and_one_is_mod]
  split
  · have := hne (by omega)
    simp (disch := omega) only [wr8_of_ne, wr16_of_ne, wr32_of_ne]
    exact fill_eth_header_of_ge _ _ _ _ _ _ (by omega)
  · simp (disch := omega) only [wr8_of_ne, wr16_of_ne, wr32_of_ne]
    exact fill_eth_header_of_ge _ _ _ _ _ _ (by omega)

theorem crc_appended_of_ge (p : Platform) (b : Buf) (txlen j : Nat)
    (hl : txlen + 3 < 4294967296) (h : txlen + 4 ≤ j) : crc_appended p b txlen j = b j := by
  unfold crc_appended
  split
  · rfl
  · simp only
    rw [Nat.mod_eq_of_lt (show txlen + 1 < 4294967296 by omega),
      Nat.mod_eq_of_lt (show txlen + 2 < 4294967296 by omega),
      Nat.mod_eq_of_lt (show txlen + 3 < 4294967296 by omega)]
    simp (disch := omega) only [wr8_of_ne]

theorem crc_appended_hw (p : Platform) (b : Buf) (txlen : Nat) (h : p.hw_preamble_crc = true) :
    crc_appended p b txlen = b := by
  simp [crc_appended, h]

theorem send_txlen_max (p : Platform) (length : Nat)
    (h : length + ETH_HEADER_SIZE p + 28 < 4294967296) :
    send_txlen p length = max (length + ETH_HEADER_SIZE p + 28) (ARP_PACKET_LENGTH p) := by
  unfold send_txlen
  exact send_txlen_eq p length h

/-- Claim C19.  With a cached MAC that is not all-zero, a `length` of at
most 1532 less the Ethernet header size, 28 and the CRC size, and a MAC that
becomes ready, `microudp_send` returns 1; the length it hands to the
hardware is the exact sum max(`length` + header size + 28,
`ARP_PACKET_LENGTH`) + CRC size, with no wrap-around in `unsigned int`, and it
is at most 1532; no byte at index 1532 or above of either TX buffer is
changed, whatever the buffers held; and the index of the pad byte behind an
odd-length payload is below 1532. -/
theorem microudp_send_in_bounds (p : Platform) (env : Env) (src_port dst_port length : Nat)
    (st : State) (d : Nat)
    (hmac : ∃ i, st.cached_mac i ≠ 0)
    (hlen : length + ETH_HEADER_SIZE p + UDP_FRAME_SIZE + CRC_SIZE p ≤ BUFFER_SIZE)
    (hready : env.ready_after st.sends = some d) :
    ∃ st' mem,
      microudp_send p env src_port dst_port length st = some (1, st')
      ∧ st'.trace = st.trace ++ tx_events st.txslot
          (max (length + ETH_HEADER_SIZE p + UDP_FRAME_SIZE) (ARP_PACKET_LENGTH p) + CRC_SIZE p)
          d mem
      ∧ st'.txlen
          = max (length + ETH_HEADER_SIZE p + UDP_FRAME_SIZE) (ARP_PACKET_LENGTH p) + CRC_SIZE p
      ∧ max (length + ETH_HEADER_SIZE p + UDP_FRAME_SIZE) (ARP_PACKET_LENGTH p) + CRC_SIZE p
          ≤ BUFFER_SIZE
      ∧ (∀ sel j, BUFFER_SIZE ≤ j → st'.txmem sel j = st.txmem sel j)
      ∧ (length % 2 = 1 → ETH_HEADER_SIZE p + UDP_FRAME_SIZE + length < BUFFER_SIZE) := by
  have hnz : macNonZero st.cached_mac = true := (exists_ne_zero_iff _).mp hmac
  obtain ⟨st', hsend⟩ := microudp_send_isSome p env src_port dst_port length st hnz
    (by rw [hready]; rfl)
  obtain ⟨-, d', mem, g1, g2, g3, g4, g5, -⟩ :=
    microudp_send_inv p env src_port dst_port length st 1 st' hnz hsend
  have hd : d' = d := by rw [hready] at g1; exact (Option.some.inj g1).symm
  subst hd
  simp only [UDP_FRAME_SIZE, BUFFER_SIZE] at hlen g2 g3 ⊢
  have hnum : (ETH_HEADER_SIZE p = 14 ∧ ARP_PACKET_LENGTH p = 60 ∧ CRC_SIZE p = 0
        ∧ p.hw_preamble_crc = true)
      ∨ (ETH_HEADER_SIZE p = 22 ∧ ARP_PACKET_LENGTH p = 68 ∧ CRC_SIZE p = 4
        ∧ p.hw_preamble_crc = false) := by
    cases hp : p.hw_preamble_crc <;>
      simp [ETH_HEADER_SIZE, ETH_DESTMAC, ARP_PACKET_LENGTH, CRC_SIZE, hp]
  have htx := send_txlen_max p length (by omega)
  rw [htx] at g2 g3 g4
  have hT1 : length + ETH_HEADER_SIZE p + 28
      ≤ max (length + ETH_HEADER_SIZE p + 28) (ARP_PACKET_LENGTH p) := le_max_left _ _
  have hT2 : max (length + ETH_HEADER_SIZE p + 28) (ARP_PACKET_LENGTH p)
      ≤ max (length + ETH_HEADER_SIZE p + 28) 68 :=
    max_le_max (le_refl _) (by omega)
  have hT3 : max (length + ETH_HEADER_SIZE p + 28) 68 + CRC_SIZE p ≤ 1532 := by
    rcases max_cases (length + ETH_HEADER_SIZE p + 28) 68 with h | h <;> rw [h.1] <;> omega
  generalize max (length + ETH_HEADER_SIZE p + 28) (ARP_PACKET_LENGTH p) = T at *
  generalize max (length + ETH_HEADER_SIZE p + 28) 68 = T' at *
  have hL : (if p.hw_preamble_crc then T else (T + 4) % 4294967296) = T + CRC_SIZE p := by
    rcases hnum with ⟨-, -, h3, h4⟩ | ⟨-, -, h3, h4⟩
    · rw [h3, h4]; rfl
    · rw [h3, h4]; exact Nat.mod_eq_of_lt (by omega)
  rw [hL] at g2 g3
  refine ⟨st', mem, hsend, g2, g3, by omega, ?_, ?_⟩
  · intro sel j hj
    by_cases hs : sel = st.txbuffer
    · subst hs
      rw [g4]
      have h1 : crc_appended p (send_fill p (st.txmem st.txbuffer) st.cached_mac st.my_mac
          st.my_ip st.cached_ip src_port dst_port length) T j
          = send_fill p (st.txmem st.txbuffer) st.cached_mac st.my_mac
          st.my_ip st.cached_ip src_port dst_port length j := by
        rcases hnum with ⟨-, -, h3, h4⟩ | ⟨-, -, h3, h4⟩
        · rw [crc_appended_hw p _ _ h4]
        · exact crc_appended_of_ge p _ T j (by omega) (by omega)
      rw [h1]
      exact send_fill_of_ge p _ _ _ _ _ _ _ _ _ (by omega) (by omega) (by omega)
    · rw [ne_eq_other _ _ hs, g5]
  · intro hodd
    omega

theorem microudp_send_in_bounds_witness :
    ∃ st' mem,
      microudp_send demo_platform_sw demo_env 1234 5678 3 demo_resolved = some (1, st')
      ∧ st'.trace = demo_resolved.trace ++ tx_events demo_resolved.txslot
          (max (3 + ETH_HEADER_SIZE demo_platform_sw + UDP_FRAME_SIZE)
            (ARP_PACKET_LENGTH demo_platform_sw) + CRC_SIZE demo_platform_sw) 0 mem
      ∧ st'.txlen
          = max (3 + ETH_HEADER_SIZE demo_platform_sw + UDP_FRAME_SIZE)
              (ARP_PACKET_LENGTH demo_platform_sw) + CRC_SIZE demo_platform_sw
      ∧ max (3 + ETH_HEADER_SIZE demo_platform_sw + UDP_FRAME_SIZE)
            (ARP_PACKET_LENGTH demo_platform_sw) + CRC_SIZE demo_platform_sw ≤ BUFFER_SIZE
      ∧ (∀ sel j, BUFFER_SIZE ≤ j → st'.txmem sel j = demo_resolved.txmem sel j)
      ∧ (3 % 2 = 1 → ETH_HEADER_SIZE demo_platform_sw + UDP_FRAME_SIZE + 3 < BUFFER_SIZE) :=
  microudp_send_in_bounds demo_platform_sw demo_env 1234 5678 3 demo_resolved 0
    ⟨0, by decide⟩ (by decide) rfl

theorem process_ip_eq (p : Platform) (st : State) :
    process_ip p st =
      if st.rx_callback ≠ 0 ∧ ETH_HEADER_SIZE p + 28 ≤ st.rxlen
          ∧ rd8 (st.rxmem st.rxbuffer) (ETH_HEADER_SIZE p) = 0x45
          ∧ 28 ≤ rd16 p (st.rxmem st.rxbuffer) (ETH_HEADER_SIZE p + 2)
          ∧ rd8 (st.rxmem st.rxbuffer) (ETH_HEADER_SIZE p + 9) = 17
          ∧ rd32 p (st.rxmem st.rxbuffer) (ETH_HEADER_SIZE p + 16) = st.my_ip
          ∧ 8 ≤ rd16 p (st.rxmem st.rxbuffer) (ETH_HEADER_SIZE p + 24)
      then
        { st with trace := st.trace ++
          [Event.callback st.rx_callback
            (rd32 p (st.rxmem st.rxbuffer) (ETH_HEADER_SIZE p + 12))
            (rd16 p (st.rxmem st.rxbuffer) (ETH_HEADER_SIZE p + 20))
            (rd16 p (st.rxmem st.rxbuffer) (ETH_HEADER_SIZE p + 22))
            st.rxbuffer (ETH_HEADER_SIZE p + 28)
            (rd16 p (st.rxmem st.rxbuffer) (ETH_HEADER_SIZE p + 24) - 8)] }
      else st := by
  unfold process_ip
  simp only [UDP_FRAME_SIZE, UDP_HEADER_SIZE, IP_IPV4, IP_PROTO_UDP]
  generalize rd8 (st.rxmem st.rxbuffer) (ETH_HEADER_SIZE p) = v
  generalize rd16 p (st.rxmem st.rxbuffer) (ETH_HEADER_SIZE p + 2) = tl
  generalize rd8 (st.rxmem st.rxbuffer) (ETH_HEADER_SIZE p + 9) = pr
  generalize rd32 p (st.rxmem st.rxbuffer) (ETH_HEADER_SIZE p + 16) = di
  generalize rd16 p (st.rxmem st.rxbuffer) (ETH_HEADER_SIZE p + 24) = ul
  generalize rd32 p (st.rxmem st.rxbuffer) (ETH_HEADER_SIZE p + 12) = si
  generalize rd16 p (st.rxmem st.rxbuffer) (ETH_HEADER_SIZE p + 20) = sp
  generalize rd16 p (st.rxmem st.rxbuffer) (ETH_HEADER_SIZE p + 22) = dp
  split_ifs <;> first | rfl | (exfalso; simp_all; done) | (exfalso; omega)

/-- Claim C11.  `process_ip` calls the registered callback exactly when a
callback is registered and the frame passes every test: received length at
least the Ethernet header size + 28, version byte 0x45, IPv4 total length at
least 28, protocol 17, destination IP equal to the host IP, UDP length at
least 8.  It is then called once, with the source IP, the source port, the
destination port, the payload area of the active RX buffer and the payload
length UDP length - 8, and nothing else in the state changes: no CSR access
is made, the ARP cache and the buffers are as before.  Otherwise the state is
unchanged; in particular a wrong version, destination IP or protocol, or a
UDP length below 8, each suppresses the callback on its own. -/
theorem process_ip_callback (p : Platform) (st : State) :
    (process_ip p st =
      if st.rx_callback ≠ 0 ∧ ETH_HEADER_SIZE p + 28 ≤ st.rxlen
          ∧ rd8 (st.rxmem st.rxbuffer) (ETH_HEADER_SIZE p) = 0x45
          ∧ 28 ≤ rd16 p (st.rxmem st.rxbuffer) (ETH_HEADER_SIZE p + 2)
          ∧ rd8 (st.rxmem st.rxbuffer) (ETH_HEADER_SIZE p + 9) = 17
          ∧ rd32 p (st.rxmem st.rxbuffer) (ETH_HEADER_SIZE p + 16) = st.my_ip
          ∧ 8 ≤ rd16 p (st.rxmem st.rxbuffer) (ETH_HEADER_SIZE p + 24)
      then
        { st with trace := st.trace ++
          [Event.callback st.rx_callback
            (rd32 p (st.rxmem st.rxbuffer) (ETH_HEADER_SIZE p + 12))
            (rd16 p (st.rxmem st.rxbuffer) (ETH_HEADER_SIZE p + 20))
            (rd16 p (st.rxmem st.rxbuffer) (ETH_HEADER_SIZE p + 22))
            st.rxbuffer (ETH_HEADER_SIZE p + 28)
            (rd16 p (st.rxmem st.rxbuffer) (ETH_HEADER_SIZE p + 24) - 8)] }
      else st)
    ∧ (rd8 (st.rxmem st.rxbuffer) (ETH_HEADER_SIZE p) ≠ 0x45 → process_ip p st = st)
    ∧ (rd32 p (st.rxmem st.rxbuffer) (ETH_HEADER_SIZE p + 16) ≠ st.my_ip → process_ip p st = st)
    ∧ (rd8 (st.rxmem st.rxbuffer) (ETH_HEADER_SIZE p + 9) ≠ 17 → process_ip p st = st)
    ∧ (rd16 p (st.rxmem st.rxbuffer) (ETH_HEADER_SIZE p + 24) < 8 → process_ip p st = st) := by
  refine ⟨process_ip_eq p st, ?_, ?_, ?_, ?_⟩ <;> intro h <;> rw [process_ip_eq, if_neg] <;>
    rintro ⟨-, -, h1, -, h2, h3, h4⟩
  · exact h h1
  · exact h h3
  · exact h h2
  · omega

theorem demo_udp_checks :
    demo_udp_state.rx_callback ≠ 0 ∧ ETH_HEADER_SIZE demo_platform + 28 ≤ demo_udp_state.rxlen
      ∧ rd8 (demo_udp_state.rxmem demo_udp_state.rxbuffer) (ETH_HEADER_SIZE demo_platform) = 0x45
      ∧ 28 ≤ rd16 demo_platform (demo_udp_state.rxmem demo_udp_state.rxbuffer)
          (ETH_HEADER_SIZE demo_platform + 2)
      ∧ rd8 (demo_udp_state.rxmem demo_udp_state.rxbuffer) (ETH_HEADER_SIZE demo_platform + 9) = 17
      ∧ rd32 demo_platform (demo_udp_state.rxmem demo_udp_state.rxbuffer)
          (ETH_HEADER_SIZE demo_platform + 16) = demo_udp_state.my_ip
      ∧ 8 ≤ rd16 demo_platform (demo_udp_state.rxmem demo_udp_state.rxbuffer)
          (ETH_HEADER_SIZE demo_platform + 24) := by
  decide

theorem process_ip_callback_witness :
    process_ip demo_platform demo_udp_state =
      { demo_udp_state with trace := demo_udp_state.trace ++
        [Event.callback 1 demo_peer_ip 1234 5678 BufSel.buf0 42 65527] } := by
  rw [(process_ip_callback demo_platform demo_udp_state).1, if_pos demo_udp_checks]
  rfl

/-- Claim C20.  For the host 10.0.0.1 with a callback registered and a
received frame of exactly the Ethernet header size + 28 bytes that passes all
tests of `process_ip` and whose UDP length field is 0xFFFF, the callback is
called with payload length 0xFFFF - 8 = 65527, which is more than the 0
payload bytes received. -/
theorem process_ip_length_unchecked :
    ∃ len,
      (process_ip demo_platform demo_udp_state).trace = demo_udp_state.trace ++
        [Event.callback 1 demo_peer_ip 1234 5678 BufSel.buf0
          (ETH_HEADER_SIZE demo_platform + UDP_FRAME_SIZE) len]
      ∧ len = rd16 demo_platform demo_udp_frame (ETH_HEADER_SIZE demo_platform + 24) - 8
      ∧ len = 0xffff - 8
      ∧ demo_udp_state.rxlen = ETH_HEADER_SIZE demo_platform + 28
      ∧ demo_udp_state.rxlen - ETH_HEADER_SIZE demo_platform - 28 < len := by
  refine ⟨65527, ?_, by decide, by decide, by decide, by decide⟩
  rw [process_ip_eq, if_pos demo_udp_checks]
  rfl

theorem alternating_append (s n m : Nat) :
    alternating s n ++ alternating ((s + n) % 2) m = alternating s (n + m) := by
  unfold alternating
  rw [List.range_add, List.map_append, List.map_map]
  congr 1
  apply List.map_congr_left
  intro k _
  simp only [Function.comp]
  omega

theorem tx_consistent_txslot (st : State) (h : st.tx_consistent) : st.txslot % 2 = st.txslot := by
  rcases h with ⟨h, -⟩ | ⟨h, -⟩ <;> rw [h]

theorem tx_run_quiet (P : Nat → Prop) (st st' : State) (mid : List Event)
    (h1 : st'.trace = st.trace ++ mid) (h2 : slot_writes mid = []) (h3 : length_writes mid = [])
    (h4 : st'.txslot = st.txslot) (h5 : st'.txbuffer = st.txbuffer) : tx_run P st st' := by
  refine ⟨mid, h1, ?_, ?_⟩
  · rw [h3]; intro v hv; exact absurd hv (List.not_mem_nil v)
  · intro hc
    rw [h2]
    refine ⟨?_, rfl, ?_⟩
    · unfold State.tx_consistent at hc ⊢; rw [h4, h5]; exact hc
    · rw [h4]; exact (tx_consistent_txslot st hc).symm

theorem tx_run_same (P : Nat → Prop) (st st' : State)
    (h1 : st'.trace = st.trace) (h4 : st'.txslot = st.txslot) (h5 : st'.txbuffer = st.txbuffer) :
    tx_run P st st' :=
  tx_run_quiet P st st' [] (by rw [h1, List.append_nil]) rfl rfl h4 h5

theorem tx_run_trans (P : Nat → Prop) (a b c : State) (h1 : tx_run P a b) (h2 : tx_run P b c) :
    tx_run P a c := by
  obtain ⟨n1, t1, l1, c1⟩ := h1
  obtain ⟨n2, t2, l2, c2⟩ := h2
  refine ⟨n1 ++ n2, by rw [t2, t1, List.append_assoc], ?_, ?_⟩
  · intro v hv
    rw [length_writes_append, List.mem_append] at hv
    rcases hv with hv | hv
    · exact l1 v hv
    · exact l2 v hv
  · intro hc
    obtain ⟨d1, d2, d3⟩ := c1 hc
    obtain ⟨e1, e2, e3⟩ := c2 d1
    refine ⟨e1, ?_, ?_⟩
    · rw [slot_writes_append, List.length_append, ← alternating_append, ← d3, ← d2, ← e2]
    · rw [e3, d3, slot_writes_append, List.length_append]; omega

theorem tx_run_mono (P Q : Nat → Prop) (h : ∀ v, P v → Q v) (a b : State) (h1 : tx_run P a b) :
    tx_run Q a b := by
  obtain ⟨n1, t1, l1, c1⟩ := h1
  exact ⟨n1, t1, fun v hv => h v (l1 v hv), c1⟩

theorem tx_run_send_packet (p : Platform) (env : Env) (st st' : State)
    (h : send_packet p env st = some st') :
    tx_run (fun v => v = if p.hw_preamble_crc then st.txlen else (st.txlen + 4) % 4294967296)
      st st' := by
  obtain ⟨d, mem, -, g2, -, -, -, -, -, g8⟩ := send_packet_inv p env st st' h
  refine ⟨_, g2, ?_, ?_⟩
  · rw [length_writes_tx_events]
    intro v hv
    simpa using hv
  · intro hc
    obtain ⟨-, k2, -, k4⟩ := g8 hc
    rw [slot_writes_tx_events]
    refine ⟨k2, ?_, k4⟩
    rw [show alternating st.txslot [st.txslot].length = [(st.txslot + 0) % 2] from rfl,
      Nat.add_zero, tx_consistent_txslot st hc]

theorem arp_length (p : Platform) :
    (if p.hw_preamble_crc then ARP_PACKET_LENGTH p else (ARP_PACKET_LENGTH p + 4) % 4294967296)
      = ARP_PACKET_LENGTH p + CRC_SIZE p := by
  cases hp : p.hw_preamble_crc <;> simp [ARP_PACKET_LENGTH, CRC_SIZE, hp]

theorem tx_run_arp_send (p : Platform) (env : Env) (st0 st st' : State)
    (h1 : st.trace = st0.trace) (h4 : st.txslot = st0.txslot) (h5 : st.txbuffer = st0.txbuffer)
    (hl : st.txlen = ARP_PACKET_LENGTH p)
    (h : send_packet p env st = some st') : tx_run (arp_len p) st0 st' := by
  have := tx_run_send_packet p env st st' h
  rw [hl, arp_length] at this
  exact tx_run_trans _ st0 st st' (tx_run_same _ _ _ h1 h4 h5) this

theorem process_arp_run (p : Platform) (env : Env) (st st' : State)
    (h : process_arp p env st = some st') : tx_run (arp_len p) st st' := by
  rw [process_arp_eq] at h
  split_ifs at h
  · cases h; exact tx_run_same _ _ _ rfl rfl rfl
  · cases h; exact tx_run_same _ _ _ rfl rfl rfl
  · refine tx_run_arp_send p env st _ st' ?_ ?_ ?_ ?_ h <;> rfl
  · cases h; exact tx_run_same _ _ _ rfl rfl rfl
  · cases h; exact tx_run_same _ _ _ rfl rfl rfl

theorem slot_writes_callback (fn a b c : Nat) (s : BufSel) (d e : Nat) :
    slot_writes [Event.callback fn a b c s d e] = [] := rfl

theorem process_ip_run (P : Nat → Prop) (p : Platform) (st : State) :
    tx_run P st (process_ip p st) := by
  rw [process_ip_eq]
  split
  · exact tx_run_quiet _ _ _ _ rfl rfl rfl rfl rfl
  · exact tx_run_same _ _ _ rfl rfl rfl

theorem process_frame_run (p : Platform) (env : Env) (st st' : State)
    (h : process_frame p env st = some st') : tx_run (arp_len p) st st' := by
  rw [process_frame_eq] at h
  split_ifs at h
  · exact tx_run_trans _ st { st with rxlen := parsed_length p st.rxlen } st'
      (tx_run_same _ _ _ rfl rfl rfl) (process_arp_run p env _ _ h)
  · cases h
    exact tx_run_trans _ st { st with rxlen := parsed_length p st.rxlen } _
      (tx_run_same _ _ _ rfl rfl rfl) (process_ip_run _ p _)
  · cases h; exact tx_run_same _ _ _ rfl rfl rfl
  · cases h; exact tx_run_same _ _ _ rfl rfl rfl

theorem microudp_service_run (p : Platform) (env : Env) (st st' : State)
    (h : microudp_service p env st = some st') : tx_run (arp_len p) st st' := by
  unfold microudp_service at h
  split at h
  · cases h; exact tx_run_quiet _ _ _ _ rfl rfl rfl rfl rfl
  · rename_i ev hev
    simp only at h
    split at h
    · exact absurd h (by simp)
    · rename_i st2 hst2
      cases h
      refine tx_run_trans _ st _ _ ?_
        (tx_run_trans _ _ st2 _ (process_frame_run p env _ _ hst2)
          (tx_run_quiet _ _ _ _ rfl rfl rfl rfl rfl))
      split
      · exact tx_run_quiet _ _ _ _ rfl rfl rfl rfl rfl
      · exact tx_run_quiet _ _ _ _ rfl rfl rfl rfl rfl

theorem arp_request_run (p : Platform) (env : Env) (ip : Nat) (arp : BufSel) (st st' : State)
    (h : arp_request p env ip arp st = some st') : tx_run (arp_len p) st st' := by
  unfold arp_request at h
  refine tx_run_arp_send p env st _ st' ?_ ?_ ?_ ?_ h <;> rfl

theorem arp_poll_run (p : Platform) (env : Env) :
    ∀ n st st' flag, arp_poll p env n st = some (st', flag) → tx_run (arp_len p) st st' := by
  intro n
  induction n with
  | zero =>
    intro st st' flag h
    simp only [arp_poll, Option.some.injEq, Prod.mk.injEq] at h
    rw [← h.1]; exact tx_run_same _ _ _ rfl rfl rfl
  | succ n ih =>
    intro st st' flag h
    simp only [arp_poll] at h
    split at h
    · exact absurd h (by simp)
    · rename_i st1 hst1
      have r1 := microudp_service_run p env st st1 hst1
      split at h
      · simp only [Option.some.injEq, Prod.mk.injEq] at h
        rw [← h.1]; exact r1
      · exact tx_run_trans _ _ _ _ r1 (ih st1 st' flag h)

theorem arp_tries_run (p : Platform) (env : Env) (ip : Nat) (arp : BufSel) :
    ∀ k st r st', arp_tries p env ip arp k st = some (r, st') → tx_run (arp_len p) st st' := by
  intro k
  induction k with
  | zero =>
    intro st r st' h
    simp only [arp_tries, Option.some.injEq, Prod.mk.injEq] at h
    rw [← h.2]; exact tx_run_same _ _ _ rfl rfl rfl
  | succ k ih =>
    intro st r st' h
    simp only [arp_tries] at h
    split at h
    · exact absurd h (by simp)
    · rename_i st1 hst1
      have r1 := arp_request_run p env ip arp st st1 hst1
      split at h
      · exact absurd h (by simp)
      · rename_i st2 hst2
        simp only [Option.some.injEq, Prod.mk.injEq] at h
        rw [← h.2]
        exact tx_run_trans _ _ _ _ r1 (arp_poll_run p env _ _ _ _ hst2)
      · rename_i st2 hst2
        exact tx_run_trans _ _ _ _ r1
          (tx_run_trans _ _ _ _ (arp_poll_run p env _ _ _ _ hst2) (ih st2 r st' h))

theorem microudp_arp_resolve_run (p : Platform) (env : Env) (ip : Nat) (st : State) (r : Nat)
    (st' : State) (h : microudp_arp_resolve p env ip st = some (r, st')) :
    tx_run (arp_len p) st st' := by
  unfold microudp_arp_resolve at h
  simp only at h
  split at h
  · simp only [Option.some.injEq, Prod.mk.injEq] at h
    rw [← h.2]; exact tx_run_same _ _ _ rfl rfl rfl
  · exact tx_run_trans _ st { st with cached_ip := ip, cached_mac := zeroMac } st'
      (tx_run_same _ _ _ rfl rfl rfl) (arp_tries_run p env ip _ 5 _ r st' h)

theorem send_txlen_ge (p : Platform) (length : Nat) : ARP_PACKET_LENGTH p ≤ send_txlen p length := by
  unfold send_txlen; split <;> omega

theorem send_txlen_lt (p : Platform) (length : Nat) : send_txlen p length < 4294967296 := by
  have : ARP_PACKET_LENGTH p ≤ 68 := by unfold ARP_PACKET_LENGTH; split <;> omega
  unfold send_txlen; split <;> omega

theorem microudp_send_run (p : Platform) (env : Env) (src_port dst_port length : Nat)
    (st : State) (r : Nat) (st' : State)
    (h : microudp_send p env src_port dst_port length st = some (r, st')) :
    tx_run (fun v => v = if p.hw_preamble_crc then send_txlen p length
      else (send_txlen p length + 4) % 4294967296) st st' := by
  cases hm : macNonZero st.cached_mac with
  | false =>
    simp only [microudp_send, hm, Bool.not_false, if_true, Option.some.injEq, Prod.mk.injEq] at h
    rw [← h.2]; exact tx_run_same _ _ _ rfl rfl rfl
  | true =>
    obtain ⟨-, d, mem, -, g2, -, -, -, -, -, g8⟩ :=
      microudp_send_inv p env src_port dst_port length st r st' hm h
    refine ⟨_, g2, ?_, ?_⟩
    · rw [length_writes_tx_events]
      intro v hv
      simpa using hv
    · intro hc
      obtain ⟨-, k2, k4⟩ := g8 hc
      rw [slot_writes_tx_events]
      refine ⟨k2, ?_, k4⟩
      rw [show alternating st.txslot [st.txslot].length = [(st.txslot + 0) % 2] from rfl,
        Nat.add_zero, tx_consistent_txslot st hc]

/-- Claim C14, as amended.  Every length written to the length register is at
least `ARP_PACKET_LENGTH` plus the CRC bytes (60 with `HW_PREAMBLE_CRC`, else
68 + 4): for every call of `microudp_send` that returns, with
`HW_PREAMBLE_CRC` for every `length` (also when the sum of line 302 wraps),
and without it for every `length` whose sum `length + 50` modulo 2^32 is
below 2^32 - 4; and for every call of `microudp_arp_resolve` and of
`microudp_service` that returns, where every length written is exactly that
minimum. -/
theorem tx_length_at_least_arp (p : Platform) (env : Env) :
    (∀ src_port dst_port length st r st',
      microudp_send p env src_port dst_port length st = some (r, st') →
      (p.hw_preamble_crc = true
        ∨ (length + ETH_HEADER_SIZE p + UDP_FRAME_SIZE) % 4294967296 < 4294967296 - 4) →
      ∃ new, st'.trace = st.trace ++ new
        ∧ ∀ v ∈ length_writes new, ARP_PACKET_LENGTH p + CRC_SIZE p ≤ v)
    ∧ (∀ ip st r st', microudp_arp_resolve p env ip st = some (r, st') →
      ∃ new, st'.trace = st.trace ++ new
        ∧ ∀ v ∈ length_writes new, v = ARP_PACKET_LENGTH p + CRC_SIZE p)
    ∧ (∀ st st', microudp_service p env st = some st' →
      ∃ new, st'.trace = st.trace ++ new
        ∧ ∀ v ∈ length_writes new, v = ARP_PACKET_LENGTH p + CRC_SIZE p) := by
  refine ⟨?_, ?_, ?_⟩
  · intro sp dp length st r st' h hw
    obtain ⟨new, h1, h2, -⟩ := microudp_send_run p env sp dp length st r st' h
    refine ⟨new, h1, fun v hv => ?_⟩
    rw [h2 v hv]
    have hge := send_txlen_ge p length
    have hA : ARP_PACKET_LENGTH p ≤ 68 := by unfold ARP_PACKET_LENGTH; split <;> omega
    cases hp : p.hw_preamble_crc with
    | true => simp only [CRC_SIZE, hp, if_true]; omega
    | false =>
      simp only [hp, Bool.false_eq_true, false_or] at hw
      have hlt : send_txlen p length < 4294967292 := by
        unfold send_txlen; split <;> omega
      simp only [CRC_SIZE, hp, Bool.false_eq_true, if_false]
      rw [Nat.mod_eq_of_lt (by omega)]
      omega
  · intro ip st r st' h
    obtain ⟨new, h1, h2, -⟩ := microudp_arp_resolve_run p env ip st r st' h
    exact ⟨new, h1, h2⟩
  · intro st st' h
    obtain ⟨new, h1, h2, -⟩ := microudp_service_run p env st st' h
    exact ⟨new, h1, h2⟩

theorem tx_length_at_least_arp_witness :
    ∃ st', microudp_send demo_platform_sw demo_env 1234 5678 4 demo_resolved = some (1, st')
      ∧ ∃ new, st'.trace = demo_resolved.trace ++ new
        ∧ ∀ v ∈ length_writes new,
            ARP_PACKET_LENGTH demo_platform_sw + CRC_SIZE demo_platform_sw ≤ v := by
  obtain ⟨st', h⟩ := microudp_send_isSome demo_platform_sw demo_env 1234 5678 4 demo_resolved
    (by decide) rfl
  exact ⟨st', h, (tx_length_at_least_arp demo_platform_sw demo_env).1 1234 5678 4 demo_resolved
    1 st' h (Or.inr (by decide))⟩

/-- Claim C14 fails as stated.  On a target that computes the CRC in
software, `microudp_send` with `length` = 2^32 - 54 sets `txlen` to 2^32 - 4,
which line 303 leaves alone, and the `txlen += 4` of `send_packet` wraps: the
length register is written with 0, below `ARP_PACKET_LENGTH`. -/
theorem tx_length_wraps_below_arp :
    ∃ st' mem,
      microudp_send demo_platform_sw demo_env 1234 5678 4294967242 demo_resolved = some (1, st')
      ∧ st'.trace = demo_resolved.trace ++ tx_events 0 0 0 mem
      ∧ length_writes (tx_events 0 0 0 mem) = [0]
      ∧ 0 < ARP_PACKET_LENGTH demo_platform_sw := by
  obtain ⟨st', h⟩ := microudp_send_isSome demo_platform_sw demo_env 1234 5678 4294967242
    demo_resolved (by decide) rfl
  obtain ⟨-, d, mem, g1, g2, -⟩ :=
    microudp_send_inv demo_platform_sw demo_env 1234 5678 4294967242 demo_resolved 1 st'
      (by decide) h
  have hd : d = 0 := (Option.some.inj g1).symm
  subst hd
  refine ⟨st', mem, h, ?_, length_writes_tx_events _ _ _ _, by decide⟩
  rw [g2]
  rfl

theorem alternating_zero (n : Nat) : alternating 0 n = (List.range n).map (fun k => k % 2) := by
  unfold alternating
  simp only [Nat.zero_add]

theorem reachable_step (st st' : State) (t new : List Event) (P : Nat → Prop)
    (hrun : tx_run P st st') (htr : st'.trace = st.trace ++ new)
    (ih : st.tx_consistent ∧ slot_writes t = alternating 0 (slot_writes t).length
      ∧ st.txslot = (slot_writes t).length % 2) :
    st'.tx_consistent ∧ slot_writes (t ++ new) = alternating 0 (slot_writes (t ++ new)).length
      ∧ st'.txslot = (slot_writes (t ++ new)).length % 2 := by
  obtain ⟨new', h1, -, h3⟩ := hrun
  have hnew : new' = new := List.append_cancel_left (h1.symm.trans htr)
  subst hnew
  obtain ⟨i1, i2, i3⟩ := ih
  obtain ⟨k1, k2, k3⟩ := h3 i1
  refine ⟨k1, ?_, ?_⟩
  · rw [slot_writes_append, List.length_append, ← alternating_append, ← i2, Nat.zero_add, ← i3,
      ← k2]
  · rw [k3, i3, slot_writes_append, List.length_append]; omega

theorem reachable_inv (p : Platform) (env : Env) (st : State) (t : List Event)
    (h : Reachable p env st t) :
    st.tx_consistent ∧ slot_writes t = alternating 0 (slot_writes t).length
      ∧ st.txslot = (slot_writes t).length % 2 := by
  induction h with
  | start macaddr ip st => exact ⟨Or.inl ⟨rfl, rfl⟩, rfl, rfl⟩
  | set_callback cb st t _ ih => exact ih
  | fill b st t _ ih => exact ih
  | send sp dp len st t r st' new _ hs htr ih =>
    exact reachable_step st st' t new _ (microudp_send_run p env sp dp len st r st' hs) htr ih
  | resolve ip st t r st' new _ hs htr ih =>
    exact reachable_step st st' t new _ (microudp_arp_resolve_run p env ip st r st' hs) htr ih
  | service st t st' new _ hs htr ih =>
    exact reachable_step st st' t new _ (microudp_service_run p env st st' hs) htr ih

theorem process_arp_rx (p : Platform) (env : Env) (st st' : State)
    (h : process_arp p env st = some st') :
    st'.rxslot = st.rxslot ∧ st'.rxbuffer = st.rxbuffer := by
  rw [process_arp_eq] at h
  split_ifs at h
  · cases h; exact ⟨rfl, rfl⟩
  · cases h; exact ⟨rfl, rfl⟩
  · obtain ⟨-, -, -, -, g5, -, g7, -⟩ := send_packet_frame p env _ _ h
    exact ⟨g5, g7⟩
  · cases h; exact ⟨rfl, rfl⟩
  · cases h; exact ⟨rfl, rfl⟩

theorem process_ip_rx (p : Platform) (st : State) :
    (process_ip p st).rxslot = st.rxslot ∧ (process_ip p st).rxbuffer = st.rxbuffer := by
  rw [process_ip_eq]
  split <;> exact ⟨rfl, rfl⟩

theorem process_frame_rx (p : Platform) (env : Env) (st st' : State)
    (h : process_frame p env st = some st') :
    st'.rxslot = st.rxslot ∧ st'.rxbuffer = st.rxbuffer := by
  rw [process_frame_eq] at h
  split_ifs at h
  · exact process_arp_rx p env { st with rxlen := parsed_length p st.rxlen } st' h
  · cases h; exact process_ip_rx p _
  · cases h; exact ⟨rfl, rfl⟩
  · cases h; exact ⟨rfl, rfl⟩

theorem microudp_service_rx (p : Platform) (env : Env) (st st' : State) (ev : RxEvent)
    (hev : env.rx st.polls = some ev) (h : microudp_service p env st = some st') :
    st'.rxslot = ev.slot
      ∧ st'.rxbuffer = (if ev.slot ≠ 0 then BufSel.buf1 else BufSel.buf0) := by
  unfold microudp_service at h
  simp only [hev] at h
  split at h
  · exact absurd h (by simp)
  · rename_i s1 hs1
    simp only [Option.some.injEq] at h
    subst h
    obtain ⟨e1, e2⟩ := process_frame_rx p env _ _ hs1
    by_cases hs : ev.slot = 0
    · simp only [hs, ne_eq, not_true_eq_false, if_false] at e1 e2 ⊢
      exact ⟨e1, e2⟩
    · simp only [hs, ne_eq, not_false_eq_true, if_true] at e1 e2 ⊢
      exact ⟨e1, e2⟩

/-- Claim C15.  In every state reachable after `microudp_start`, `txslot`
is 0 or 1 and `txbuffer` designates the TX buffer of that slot; the slot of
the `k`-th transmission since the start, counted from 0, is `k` mod 2, and
`txslot` is the number of transmissions mod 2.  Each `send_packet` writes the
current `txslot` and `txlen` to the slot and length registers, writes the
start register only after the ready register has read non-zero, then flips
`txslot` and makes `txbuffer` designate the other buffer; two calls of
`send_packet` restore slot and buffer.  After a call of `microudp_service`
that finds an event pending, `rxslot` is the slot the hardware reports and
`rxbuffer` designates RX buffer 1 when that slot is non-zero, else RX
buffer 0. -/
theorem tx_slot_alternates (p : Platform) (env : Env) :
    (∀ st t, Reachable p env st t →
      st.tx_consistent
      ∧ (∀ k, k < (slot_writes t).length → (slot_writes t)[k]? = some (k % 2))
      ∧ st.txslot = (slot_writes t).length % 2)
    ∧ (∀ st d, st.tx_consistent → env.ready_after st.sends = some d →
      ∃ st' mem, send_packet p env st = some st'
        ∧ st'.trace = st.trace ++
            [Event.sram_reader_slot_write st.txslot, Event.sram_reader_length_write st'.txlen] ++
            List.replicate d (Event.sram_reader_ready_read false) ++
            [Event.sram_reader_ready_read true, Event.sram_reader_start_write 1 mem]
        ∧ mem = st'.txmem st.txbuffer
        ∧ st'.txslot = 1 - st.txslot
        ∧ st'.txbuffer = st.txbuffer.other
        ∧ st'.tx_consistent)
    ∧ (∀ st st1 st1' st2, st.tx_consistent → send_packet p env st = some st1 →
      st1'.txslot = st1.txslot → st1'.txbuffer = st1.txbuffer →
      send_packet p env st1' = some st2 →
      st2.txslot = st.txslot ∧ st2.txbuffer = st.txbuffer)
    ∧ (∀ st st' ev, env.rx st.polls = some ev → microudp_service p env st = some st' →
      st'.rxslot = ev.slot
      ∧ st'.rxbuffer = (if ev.slot ≠ 0 then BufSel.buf1 else BufSel.buf0)) := by
  refine ⟨?_, ?_, ?_, ?_⟩
  · intro st t h
    obtain ⟨h1, h2, h3⟩ := reachable_inv p env st t h
    refine ⟨h1, fun k hk => ?_, h3⟩
    rw [h2, alternating_zero, List.getElem?_map, List.getElem?_range hk]
    rfl
  · intro st d hc hr
    obtain ⟨st', h1, h2, h3, h4, h5, h6, h7, -⟩ := send_packet_spec p env st d hr hc
    obtain ⟨_, _, -, -, -, g4, -⟩ := send_packet_inv p env st st' h1
    refine ⟨st', _, h1, ?_, h3.symm, ?_, h5, h6⟩
    · rw [h2, h7]
    · rcases hc with ⟨c1, -⟩ | ⟨c1, -⟩ <;> rw [g4, c1]
  · intro st st1 st1' st2 hc h1 e1 e2 h2
    obtain ⟨_, _, -, -, -, -, -, -, -, g8⟩ := send_packet_inv p env st st1 h1
    obtain ⟨-, k2, k3, k4⟩ := g8 hc
    have hc1 : st1'.tx_consistent := by
      unfold State.tx_consistent at k2 ⊢; rw [e1, e2]; exact k2
    obtain ⟨_, _, -, -, -, -, -, -, -, g8'⟩ := send_packet_inv p env st1' st2 h2
    obtain ⟨-, m2, m3, m4⟩ := g8' hc1
    refine ⟨?_, ?_⟩
    · rw [m4, e1, k4]; rcases hc with ⟨c1, -⟩ | ⟨c1, -⟩ <;> rw [c1]
    · rw [m3, e2, k3, other_other]
  · intro st st' ev hev h
    exact microudp_service_rx p env st st' ev hev h

theorem tx_slot_alternates_witness :
    ∃ st' mem, send_packet demo_platform demo_env demo_started = some st'
      ∧ st'.trace = demo_started.trace ++
          [Event.sram_reader_slot_write demo_started.txslot,
           Event.sram_reader_length_write st'.txlen] ++
          List.replicate 0 (Event.sram_reader_ready_read false) ++
          [Event.sram_reader_ready_read true, Event.sram_reader_start_write 1 mem]
      ∧ mem = st'.txmem demo_started.txbuffer
      ∧ st'.txslot = 1 - demo_started.txslot
      ∧ st'.txbuffer = demo_started.txbuffer.other
      ∧ st'.tx_consistent :=
  (tx_slot_alternates demo_platform demo_env).2.1 demo_started 0 (Or.inl ⟨rfl, rfl⟩) rfl

theorem arp_poll_post (p : Platform) (env : Env) :
    ∀ n st st' flag, arp_poll p env n st = some (st', flag) →
      st'.cached_ip = st.cached_ip
      ∧ (flag = true → macNonZero st'.cached_mac = true)
      ∧ (flag = false → macNonZero st.cached_mac = false → macNonZero st'.cached_mac = false) := by
  intro n
  induction n with
  | zero =>
    intro st st' flag h
    simp only [arp_poll, Option.some.injEq, Prod.mk.injEq] at h
    obtain ⟨h1, h2⟩ := h
    subst h1 h2
    exact ⟨rfl, fun h => absurd h (by simp), fun _ h => h⟩
  | succ n ih =>
    intro st st' flag h
    simp only [arp_poll] at h
    split at h
    · exact absurd h (by simp)
    · rename_i st1 hst1
      obtain ⟨c1, -⟩ := microudp_service_cache p env st st1 hst1
      split at h
      · rename_i hnz
        simp only [Option.some.injEq, Prod.mk.injEq] at h
        obtain ⟨h1, h2⟩ := h
        subst h1 h2
        exact ⟨c1, fun _ => hnz, fun h => absurd h (by simp)⟩
      · rename_i hnz
        obtain ⟨i1, i2, i3⟩ := ih st1 st' flag h
        exact ⟨i1.trans c1, i2, fun hf _ => i3 hf (by simpa using hnz)⟩

theorem arp_tries_post (p : Platform) (env : Env) (ip : Nat) (arp : BufSel) :
    ∀ k st r st', arp_tries p env ip arp k st = some (r, st') →
      st.cached_ip = ip → macNonZero st.cached_mac = false →
      st'.cached_ip = ip
      ∧ ((r = 1 ∧ macNonZero st'.cached_mac = true)
        ∨ (r = 0 ∧ macNonZero st'.cached_mac = false)) := by
  intro k
  induction k with
  | zero =>
    intro st r st' h hip hz
    simp only [arp_tries, Option.some.injEq, Prod.mk.injEq] at h
    obtain ⟨h1, h2⟩ := h
    subst h1 h2
    exact ⟨hip, Or.inr ⟨rfl, hz⟩⟩
  | succ k ih =>
    intro st r st' h hip hz
    simp only [arp_tries] at h
    split at h
    · exact absurd h (by simp)
    · rename_i st1 hst1
      obtain ⟨c1, c2⟩ := arp_request_cache p env ip arp st st1 hst1
      split at h
      · exact absurd h (by simp)
      · rename_i st2 hst2
        simp only [Option.some.injEq, Prod.mk.injEq] at h
        obtain ⟨h1, h2⟩ := h
        subst h1 h2
        obtain ⟨i1, i2, -⟩ := arp_poll_post p env _ _ _ _ hst2
        exact ⟨by rw [i1, c1, hip], Or.inl ⟨rfl, i2 rfl⟩⟩
      · rename_i st2 hst2
        obtain ⟨i1, -, i3⟩ := arp_poll_post p env _ _ _ _ hst2
        exact ih st2 r st' h (by rw [i1, c1, hip]) (i3 rfl (by rw [c2]; exact hz))

theorem microudp_arp_resolve_result (p : Platform) (env : Env) (ip : Nat) (st : State) (r : Nat)
    (st' : State) (h : microudp_arp_resolve p env ip st = some (r, st')) :
    st'.cached_ip = ip
      ∧ ((r = 1 ∧ macNonZero st'.cached_mac = true)
        ∨ (r = 0 ∧ macNonZero st'.cached_mac = false)) := by
  unfold microudp_arp_resolve at h
  simp only at h
  split at h
  · rename_i hhit
    simp only [Option.some.injEq, Prod.mk.injEq] at h
    obtain ⟨h1, h2⟩ := h
    subst h1 h2
    simp only [Bool.and_eq_true, decide_eq_true_eq] at hhit
    exact ⟨hhit.1, Or.inl ⟨rfl, hhit.2⟩⟩
  · exact arp_tries_post p env ip st.txbuffer 5 { st with cached_ip := ip, cached_mac := zeroMac }
      r st' h rfl ((macNonZero_eq_false _).mpr rfl)

theorem microudp_arp_resolve_hit (p : Platform) (env : Env) (ip : Nat) (st : State)
    (h1 : st.cached_ip = ip) (h2 : macNonZero st.cached_mac = true) :
    microudp_arp_resolve p env ip st = some (1, st) := by
  simp [microudp_arp_resolve, h1, h2]

/-- Claim C17.  Whenever `microudp_arp_resolve(ip)` returns, it returns 1 or
0 and `cached_ip` is `ip`.  When it returns 1, `cached_mac` is not all-zero, a
following `microudp_send` can only return 1, and, for a payload that fits and
a MAC that becomes ready, it does return 1 and the destination IP field of
its frame is `ip`.  When it returns 0, `cached_mac` is all-zero and a
following `microudp_send` returns 0 and changes nothing. -/
theorem microudp_arp_resolve_post (p : Platform) (env : Env) (ip : Nat) (st : State) (r : Nat)
    (st' : State) (h : microudp_arp_resolve p env ip st = some (r, st')) :
    (r = 1 ∨ r = 0)
    ∧ st'.cached_ip = ip
    ∧ (r = 1 →
        (∃ i, st'.cached_mac i ≠ 0)
        ∧ (∀ src_port dst_port length r2 st2,
            microudp_send p env src_port dst_port length st' = some (r2, st2) → r2 = 1)
        ∧ (∀ src_port dst_port length d, st.tx_consistent → ip < 4294967296 →
            ETH_HEADER_SIZE p + UDP_FRAME_SIZE + length + CRC_SIZE p ≤ BUFFER_SIZE →
            env.ready_after st'.sends = some d →
            ∃ st2 l mem, microudp_send p env src_port dst_port length st' = some (1, st2)
              ∧ st2.trace = st'.trace ++ tx_events st'.txslot l d mem
              ∧ rd32 p mem (ETH_HEADER_SIZE p + 16) = ip))
    ∧ (r = 0 →
        (∀ i, st'.cached_mac i = 0)
        ∧ ∀ src_port dst_port length,
            microudp_send p env src_port dst_port length st' = some (0, st')) := by
  obtain ⟨hip, hres⟩ := microudp_arp_resolve_result p env ip st r st' h
  refine ⟨by rcases hres with ⟨h1, -⟩ | ⟨h1, -⟩ <;> simp [h1], hip, ?_, ?_⟩
  · intro hr
    have hnz : macNonZero st'.cached_mac = true := by
      rcases hres with ⟨-, h2⟩ | ⟨h1, -⟩
      · exact h2
      · omega
    refine ⟨(exists_ne_zero_iff _).mpr hnz, ?_, ?_⟩
    · intro sp dp length r2 st2 hs
      exact (microudp_send_inv p env sp dp length st' r2 st2 hnz hs).1
    · intro sp dp length d hc hlt hfit hready
      obtain ⟨_, -, -, hrun⟩ := microudp_arp_resolve_run p env ip st r st' h
      obtain ⟨hc', -⟩ := hrun hc
      obtain ⟨st2, hs⟩ := microudp_send_isSome p env sp dp length st' hnz (by rw [hready]; rfl)
      obtain ⟨-, d', mem, g1, g2, -, -, -, -, -, g8⟩ :=
        microudp_send_inv p env sp dp length st' 1 st2 hnz hs
      have hd : d' = d := by rw [hready] at g1; exact (Option.some.inj g1).symm
      subst hd
      obtain ⟨k1, -⟩ := g8 hc'
      refine ⟨st2, _, mem, hs, g2, ?_⟩
      have hH := ETH_HEADER_SIZE_le p
      have hA := ETH_HEADER_SIZE_ARP p
      have hge := send_txlen_ge p length
      have hlt2 := send_txlen_lt p length
      have hC : CRC_SIZE p ≤ 4 := by unfold CRC_SIZE; split <;> omega
      simp only [UDP_FRAME_SIZE, BUFFER_SIZE] at hfit
      have htx := send_txlen_max p length (by omega)
      have hfields := send_fill_fields p (st'.txmem st'.txbuffer) st'.cached_mac st'.my_mac
        st'.my_ip st'.cached_ip sp dp length (by omega)
      rw [k1, rd32_congr p _ _ _ (fun j _ hj => crc_appended_of_lt p _ _ j (by omega) (by omega)),
        hfields.2.2.2.2.2.2.2.2.2.2.2.1, hip]
      exact Nat.mod_eq_of_lt hlt
  · intro hr
    have hz : macNonZero st'.cached_mac = false := by
      rcases hres with ⟨h1, -⟩ | ⟨-, h2⟩
      · omega
      · exact h2
    refine ⟨fun i => ?_, fun sp dp length => ?_⟩
    · have := (macNonZero_eq_false _).mp hz
      rw [this]; rfl
    · simp [microudp_send, hz]

theorem microudp_arp_resolve_post_witness :
    (1 = 1 ∨ 1 = 0)
    ∧ demo_resolved.cached_ip = demo_peer_ip
    ∧ (1 = 1 →
        (∃ i, demo_resolved.cached_mac i ≠ 0)
        ∧ (∀ src_port dst_port length r2 st2,
            microudp_send demo_platform demo_env src_port dst_port length demo_resolved
              = some (r2, st2) → r2 = 1)
        ∧ (∀ src_port dst_port length d, demo_resolved.tx_consistent →
            demo_peer_ip < 4294967296 →
            ETH_HEADER_SIZE demo_platform + UDP_FRAME_SIZE + length + CRC_SIZE demo_platform
              ≤ BUFFER_SIZE →
            demo_env.ready_after demo_resolved.sends = some d →
            ∃ st2 l mem,
              microudp_send demo_platform demo_env src_port dst_port length demo_resolved
                = some (1, st2)
              ∧ st2.trace = demo_resolved.trace ++ tx_events demo_resolved.txslot l d mem
              ∧ rd32 demo_platform mem (ETH_HEADER_SIZE demo_platform + 16) = demo_peer_ip))
    ∧ (1 = 0 →
        (∀ i, demo_resolved.cached_mac i = 0)
        ∧ ∀ src_port dst_port length,
            microudp_send demo_platform demo_env src_port dst_port length demo_resolved
              = some (0, demo_resolved)) :=
  microudp_arp_resolve_post demo_platform demo_env demo_peer_ip demo_resolved 1 demo_resolved
    (microudp_arp_resolve_hit demo_platform demo_env demo_peer_ip demo_resolved rfl (by decide))

theorem mask_shift (c k : Nat) : ((c &&& (255 <<< k)) >>> k) % 256 = (c >>> k) % 256 := by
  apply Nat.eq_of_testBit_eq
  intro i
  rw [show (256 : Nat) = 2 ^ 8 from rfl, Nat.testBit_mod_two_pow, Nat.testBit_mod_two_pow,
    Nat.testBit_shiftRight, Nat.testBit_shiftRight, Nat.testBit_and, Nat.testBit_shiftLeft]
  by_cases hi : i < 8
  · have : (255 : Nat).testBit i = true := by
      rw [show (255 : Nat) = 2 ^ 8 - 1 from rfl, Nat.testBit_two_pow_sub_one]
      exact decide_eq_true hi
    simp [hi, this]
  · simp [hi]

theorem shl_or (a b k : Nat) (h : b < 2 ^ k) : (a <<< k) ||| b = a * 2 ^ k + b := by
  rw [Nat.shiftLeft_eq, Nat.mul_comm, ← Nat.mul_add_lt_is_or h]

theorem crc_bytes (c : Nat) (hc : c < 4294967296) :
    ((((c &&& 0xff000000) >>> 24) % 256) <<< 24)
      ||| ((((c &&& 0xff0000) >>> 16) % 256) <<< 16)
      ||| ((((c &&& 0xff00) >>> 8) % 256) <<< 8)
      ||| ((c &&& 0xff) % 256) = c := by
  have h3 := mask_shift c 24
  have h2 := mask_shift c 16
  have h1 := mask_shift c 8
  have h0 := mask_shift c 0
  simp only [show (255 : Nat) <<< 24 = 0xff000000 from rfl, show (255 : Nat) <<< 16 = 0xff0000 from rfl,
    show (255 : Nat) <<< 8 = 0xff00 from rfl, show (255 : Nat) <<< 0 = 0xff from rfl,
    Nat.shiftRight_zero] at h3 h2 h1 h0
  rw [h3, h2, h1, h0]
  simp only [Nat.shiftRight_eq_div_pow]
  rw [shl_or _ _ 24 (by
      rw [Nat.shiftLeft_eq]
      have : c / 2 ^ 16 % 256 < 256 := Nat.mod_lt _ (by decide)
      omega)]
  rw [Nat.shiftLeft_eq, Nat.shiftLeft_eq]
  rw [show c / 2 ^ 24 % 256 * 2 ^ 24 + c / 2 ^ 16 % 256 * 2 ^ 16
      = (c / 2 ^ 24 % 256 * 256 + c / 2 ^ 16 % 256) * 2 ^ 16 by omega]
  rw [← Nat.shiftLeft_eq, ← Nat.shiftLeft_eq (c / 2 ^ 8 % 256)]
  rw [shl_or _ _ 16 (by
      rw [Nat.shiftLeft_eq]
      have : c / 2 ^ 8 % 256 < 256 := Nat.mod_lt _ (by decide)
      omega)]
  rw [Nat.shiftLeft_eq]
  rw [show (c / 2 ^ 24 % 256 * 256 + c / 2 ^ 16 % 256) * 2 ^ 16 + c / 2 ^ 8 % 256 * 2 ^ 8
      = ((c / 2 ^ 24 % 256 * 256 + c / 2 ^ 16 % 256) * 256 + c / 2 ^ 8 % 256) * 2 ^ 8 by omega]
  rw [← Nat.shiftLeft_eq]
  rw [shl_or _ (c % 256) 8 (Nat.mod_lt _ (by decide))]
  omega

theorem received_crc_appended (p : Platform) (hsw : p.hw_preamble_crc = false) (b : Buf) (T : Nat)
    (hT : T + 4 < 4294967296) :
    received_crc (crc_appended p b T) (T + 4)
      = p.crc32 b 8 ((T + 4294967296 - 8) % 4294967296) % 4294967296 := by
  unfold received_crc crc_appended
  simp only [hsw, Bool.false_eq_true, if_false]
  have hc : p.crc32 b 8 ((T + 4294967296 - 8) % 4294967296) % 4294967296 < 4294967296 :=
    Nat.mod_lt _ (by decide)
  generalize p.crc32 b 8 ((T + 4294967296 - 8) % 4294967296) % 4294967296 = c at hc ⊢
  have e1 : (T + 4 + 4294967296 - 1) % 4294967296 = T + 3 := by omega
  have e2 : (T + 4 + 4294967296 - 2) % 4294967296 = T + 2 := by omega
  have e3 : (T + 4 + 4294967296 - 3) % 4294967296 = T + 1 := by omega
  have e4 : (T + 4 + 4294967296 - 4) % 4294967296 = T := by omega
  have m1 : (T + 1) % 4294967296 = T + 1 := Nat.mod_eq_of_lt (by omega)
  have m2 : (T + 2) % 4294967296 = T + 2 := Nat.mod_eq_of_lt (by omega)
  have m3 : (T + 3) % 4294967296 = T + 3 := Nat.mod_eq_of_lt (by omega)
  rw [e1, e2, e3, e4, m1, m2, m3]
  simp (disch := omega) only [rd8_wr8, if_true, if_neg]
  exact crc_bytes c hc

theorem preamble_ok_congr (b c : Buf) (h : ∀ j, j < 8 → b j = c j) :
    preamble_ok b = preamble_ok c := by
  unfold preamble_ok rd8
  rw [show List.range 7 = [0, 1, 2, 3, 4, 5, 6] from rfl]
  simp only [List.all_cons, List.all_nil, h 0 (by omega), h 1 (by omega), h 2 (by omega),
    h 3 (by omega), h 4 (by omega), h 5 (by omega), h 6 (by omega), h 7 (by omega)]

/-- Claim C18.  Without `HW_PREAMBLE_CRC`, for every `crc32` that is a
function of the bytes it is given, every TX buffer that starts with the
preamble and every `txlen` from 8 to 1528: `send_packet` hands the buffer
with length `txlen + 4` to the hardware, and that buffer with that length,
taken as the received frame, passes the preamble test and the CRC test of
`process_frame`: the four bytes behind the frame, read back least significant
first, are the CRC computed when sending, which is also the CRC recomputed
over bytes 8 to `rxlen - 5`.  The length used from then on is `txlen`, so
`process_frame` goes on to `process_arp` or `process_ip` with that length. -/
theorem crc_round_trip (p : Platform) (env : Env) (st : State) (d : Nat)
    (hsw : p.hw_preamble_crc = false) (hloc : p.crc32_local)
    (hpre : preamble_ok (st.txmem st.txbuffer) = true)
    (h8 : 8 ≤ st.txlen) (hmax : st.txlen ≤ 1528)
    (hready : env.ready_after st.sends = some d) (hcons : st.tx_consistent) :
    ∃ st' mem,
      send_packet p env st = some st'
      ∧ st'.trace = st.trace ++ tx_events st.txslot (st.txlen + 4) d mem
      ∧ preamble_ok mem = true
      ∧ received_crc mem (st.txlen + 4)
          = p.crc32 (st.txmem st.txbuffer) 8 (st.txlen - 8) % 4294967296
      ∧ received_crc mem (st.txlen + 4) = p.crc32 mem 8 (st.txlen + 4 - 12) % 4294967296
      ∧ frame_accepted p mem (st.txlen + 4) = true
      ∧ parsed_length p (st.txlen + 4) = st.txlen
      ∧ ∀ rx : State, rx.rxmem rx.rxbuffer = mem → rx.rxlen = st.txlen + 4 →
          process_frame p env rx =
            if rd16 p mem (ETH_DESTMAC p + 12) = ETHERTYPE_ARP then
              process_arp p env { rx with rxlen := st.txlen }
            else if rd16 p mem (ETH_DESTMAC p + 12) = ETHERTYPE_IP then
              some (process_ip p { rx with rxlen := st.txlen })
            else some { rx with rxlen := st.txlen } := by
  obtain ⟨st', h1, h2, -⟩ := send_packet_spec2 p env st d hready hcons
  simp only [hsw, Bool.false_eq_true, if_false] at h2
  rw [Nat.mod_eq_of_lt (show st.txlen + 4 < 4294967296 by omega)] at h2
  have hlow : ∀ j, j < st.txlen → crc_appended p (st.txmem st.txbuffer) st.txlen j
      = st.txmem st.txbuffer j :=
    fun j hj => crc_appended_of_lt p _ _ j (by omega) hj
  have hp : preamble_ok (crc_appended p (st.txmem st.txbuffer) st.txlen) = true := by
    rw [preamble_ok_congr _ (st.txmem st.txbuffer) (fun j hj => hlow j (by omega))]
    exact hpre
  have c1 : (st.txlen + 4294967296 - 8) % 4294967296 = st.txlen - 8 := by omega
  have c2 : (st.txlen + 4 + 4294967296 - 12) % 4294967296 = st.txlen - 8 := by omega
  have c3 : st.txlen + 4 - 12 = st.txlen - 8 := by omega
  have hr := received_crc_appended p hsw (st.txmem st.txbuffer) st.txlen (by omega)
  rw [c1] at hr
  have hcrc : p.crc32 (crc_appended p (st.txmem st.txbuffer) st.txlen) 8 (st.txlen - 8)
      = p.crc32 (st.txmem st.txbuffer) 8 (st.txlen - 8) :=
    hloc _ _ 8 (st.txlen - 8) (fun i hi => hlow (8 + i) (by omega))
  have hacc : frame_accepted p (crc_appended p (st.txmem st.txbuffer) st.txlen) (st.txlen + 4)
      = true := by
    unfold frame_accepted
    rw [hp, c2, hr, hcrc]
    simp
  have hpl : parsed_length p (st.txlen + 4) = st.txlen := by
    unfold parsed_length
    simp only [hsw, Bool.false_eq_true, if_false]
    omega
  refine ⟨st', _, h1, h2, hp, hr, by rw [c3, hcrc, hr], hacc, hpl, ?_⟩
  intro rx hm hl
  rw [process_frame_eq, hm, hl, if_pos hacc, hpl]

theorem arp_fill_fields (p : Platform) (b : Buf) (op sip : Nat) (smac : Mac) (tip : Nat)
    (tmac : Mac) :
    rd16 p (arp_fill p b op sip smac tip tmac) (ETH_HEADER_SIZE p) = 1
    ∧ rd16 p (arp_fill p b op sip smac tip tmac) (ETH_HEADER_SIZE p + 2) = 0x0800
    ∧ rd8 (arp_fill p b op sip smac tip tmac) (ETH_HEADER_SIZE p + 4) = 6
    ∧ rd8 (arp_fill p b op sip smac tip tmac) (ETH_HEADER_SIZE p + 5) = 4
    ∧ rd16 p (arp_fill p b op sip smac tip tmac) (ETH_HEADER_SIZE p + 6) = op % 65536
    ∧ rdMac (arp_fill p b op sip smac tip tmac) (ETH_HEADER_SIZE p + 8) = smac
    ∧ rd32 p (arp_fill p b op sip smac tip tmac) (ETH_HEADER_SIZE p + 14) = sip % 4294967296
    ∧ rdMac (arp_fill p b op sip smac tip tmac) (ETH_HEADER_SIZE p + 18) = tmac
    ∧ rd32 p (arp_fill p b op sip smac tip tmac) (ETH_HEADER_SIZE p + 24) = tip % 4294967296 := by
  refine ⟨?_, ?_, ?_, ?_, ?_, ?_, ?_, ?_, ?_⟩
  all_goals
    unfold arp_fill
    simp (disch := omega) only [rdMac_wr8_ne, rdMac_wr16_ne, rdMac_wr32_ne, rdMac_wrMac_ne,
      rd8_wr8_ne, rd8_wr16_ne, rd8_wr32_ne, rd8_wrMac_ne, rd16_wr8_ne, rd16_wr16_ne, rd16_wr32_ne,
      rd16_wrMac_ne, rd32_wr8_ne, rd32_wr16_ne, rd32_wr32_ne, rd32_wrMac_ne,
      rd16_wr16, rd32_wr32, rdMac_wrMac, rd8_wr8_same, ARP_HWTYPE_ETHERNET, ARP_PROTO_IP]

theorem arp_reply_state_mem (p : Platform) (st : State) :
    (arp_reply_state p st).txmem st.txbuffer
      = arp_fill p
          (fill_eth_header p (st.txmem st.txbuffer)
            (rdMac (st.rxmem st.rxbuffer) (ETH_HEADER_SIZE p + 8)) st.my_mac ETHERTYPE_ARP)
          ARP_OPCODE_REPLY st.my_ip st.my_mac
          (rd32 p (st.rxmem st.rxbuffer) (ETH_HEADER_SIZE p + 14))
          (rdMac (st.rxmem st.rxbuffer) (ETH_HEADER_SIZE p + 8)) := by
  cases hb : st.txbuffer <;> simp [arp_reply_state, hb, State.setTxmem, State.txmem]

theorem arp_checks_of (p : Platform) (rx : Buf) (rxlen : Nat)
    (hlen : ARP_PACKET_LENGTH p ≤ rxlen)
    (hhw : rd16 p rx (ETH_HEADER_SIZE p) = 1)
    (hpr : rd16 p rx (ETH_HEADER_SIZE p + 2) = 0x0800)
    (hhs : rd8 rx (ETH_HEADER_SIZE p + 4) = 6)
    (hps : rd8 rx (ETH_HEADER_SIZE p + 5) = 4) : arp_checks p rx rxlen = true := by
  simp [arp_checks, hlen, hhw, hpr, hhs, hps]

/-- The frame `process_arp` sends in answer to a request. -/
theorem arp_reply_frame (p : Platform) (b rx : Buf) (my_mac : Mac) (my_ip : Nat)
    (hmi : my_ip < 4294967296) :
    rdMac (crc_appended p (arp_fill p
        (fill_eth_header p b (rdMac rx (ETH_HEADER_SIZE p + 8)) my_mac ETHERTYPE_ARP)
        ARP_OPCODE_REPLY my_ip my_mac (rd32 p rx (ETH_HEADER_SIZE p + 14))
        (rdMac rx (ETH_HEADER_SIZE p + 8))) (ARP_PACKET_LENGTH p)) (ETH_DESTMAC p)
      = rdMac rx (ETH_HEADER_SIZE p + 8)
    ∧ rdMac (crc_appended p (arp_fill p
        (fill_eth_header p b (rdMac rx (ETH_HEADER_SIZE p + 8)) my_mac ETHERTYPE_ARP)
        ARP_OPCODE_REPLY my_ip my_mac (rd32 p rx (ETH_HEADER_SIZE p + 14))
        (rdMac rx (ETH_HEADER_SIZE p + 8))) (ARP_PACKET_LENGTH p)) (ETH_DESTMAC p + 6) = my_mac
    ∧ rd16 p (crc_appended p (arp_fill p
        (fill_eth_header p b (rdMac rx (ETH_HEADER_SIZE p + 8)) my_mac ETHERTYPE_ARP)
        ARP_OPCODE_REPLY my_ip my_mac (rd32 p rx (ETH_HEADER_SIZE p + 14))
        (rdMac rx (ETH_HEADER_SIZE p + 8))) (ARP_PACKET_LENGTH p)) (ETH_DESTMAC p + 12) = 0x0806
    ∧ rd16 p (crc_appended p (arp_fill p
        (fill_eth_header p b (rdMac rx (ETH_HEADER_SIZE p + 8)) my_mac ETHERTYPE_ARP)
        ARP_OPCODE_REPLY my_ip my_mac (rd32 p rx (ETH_HEADER_SIZE p + 14))
        (rdMac rx (ETH_HEADER_SIZE p + 8))) (ARP_PACKET_LENGTH p)) (ETH_HEADER_SIZE p) = 1
    ∧ rd16 p (crc_appended p (arp_fill p
        (fill_eth_header p b (rdMac rx (ETH_HEADER_SIZE p + 8)) my_mac ETHERTYPE_ARP)
        ARP_OPCODE_REPLY my_ip my_mac (rd32 p rx (ETH_HEADER_SIZE p + 14))
        (rdMac rx (ETH_HEADER_SIZE p + 8))) (ARP_PACKET_LENGTH p)) (ETH_HEADER_SIZE p + 2) = 0x0800
    ∧ rd8 (crc_appended p (arp_fill p
        (fill_eth_header p b (rdMac rx (ETH_HEADER_SIZE p + 8)) my_mac ETHERTYPE_ARP)
        ARP_OPCODE_REPLY my_ip my_mac (rd32 p rx (ETH_HEADER_SIZE p + 14))
        (rdMac rx (ETH_HEADER_SIZE p + 8))) (ARP_PACKET_LENGTH p)) (ETH_HEADER_SIZE p + 4) = 6
    ∧ rd8 (crc_appended p (arp_fill p
        (fill_eth_header p b (rdMac rx (ETH_HEADER_SIZE p + 8)) my_mac ETHERTYPE_ARP)
        ARP_OPCODE_REPLY my_ip my_mac (rd32 p rx (ETH_HEADER_SIZE p + 14))
        (rdMac rx (ETH_HEADER_SIZE p + 8))) (ARP_PACKET_LENGTH p)) (ETH_HEADER_SIZE p + 5) = 4
    ∧ rd16 p (crc_appended p (arp_fill p
        (fill_eth_header p b (rdMac rx (ETH_HEADER_SIZE p + 8)) my_mac ETHERTYPE_ARP)
        ARP_OPCODE_REPLY my_ip my_mac (rd32 p rx (ETH_HEADER_SIZE p + 14))
        (rdMac rx (ETH_HEADER_SIZE p + 8))) (ARP_PACKET_LENGTH p)) (ETH_HEADER_SIZE p + 6) = 2
    ∧ rdMac (crc_appended p (arp_fill p
        (fill_eth_header p b (rdMac rx (ETH_HEADER_SIZE p + 8)) my_mac ETHERTYPE_ARP)
        ARP_OPCODE_REPLY my_ip my_mac (rd32 p rx (ETH_HEADER_SIZE p + 14))
        (rdMac rx (ETH_HEADER_SIZE p + 8))) (ARP_PACKET_LENGTH p)) (ETH_HEADER_SIZE p + 8) = my_mac
    ∧ rd32 p (crc_appended p (arp_fill p
        (fill_eth_header p b (rdMac rx (ETH_HEADER_SIZE p + 8)) my_mac ETHERTYPE_ARP)
        ARP_OPCODE_REPLY my_ip my_mac (rd32 p rx (ETH_HEADER_SIZE p + 14))
        (rdMac rx (ETH_HEADER_SIZE p + 8))) (ARP_PACKET_LENGTH p)) (ETH_HEADER_SIZE p + 14) = my_ip
    ∧ rdMac (crc_appended p (arp_fill p
        (fill_eth_header p b (rdMac rx (ETH_HEADER_SIZE p + 8)) my_mac ETHERTYPE_ARP)
        ARP_OPCODE_REPLY my_ip my_mac (rd32 p rx (ETH_HEADER_SIZE p + 14))
        (rdMac rx (ETH_HEADER_SIZE p + 8))) (ARP_PACKET_LENGTH p)) (ETH_HEADER_SIZE p + 18)
      = rdMac rx (ETH_HEADER_SIZE p + 8)
    ∧ rd32 p (crc_appended p (arp_fill p
        (fill_eth_header p b (rdMac rx (ETH_HEADER_SIZE p + 8)) my_mac ETHERTYPE_ARP)
        ARP_OPCODE_REPLY my_ip my_mac (rd32 p rx (ETH_HEADER_SIZE p + 14))
        (rdMac rx (ETH_HEADER_SIZE p + 8))) (ARP_PACKET_LENGTH p)) (ETH_HEADER_SIZE p + 24)
      = rd32 p rx (ETH_HEADER_SIZE p + 14) := by
  have hA := ETH_HEADER_SIZE_ARP p
  have hL := ARP_PACKET_LENGTH_lt p
  have hH : ETH_HEADER_SIZE p = ETH_DESTMAC p + 14 := rfl
  have hrx : rd32 p rx (ETH_HEADER_SIZE p + 14) < 4294967296 := by
    have h1 := rd8_lt rx (ETH_HEADER_SIZE p + 14)
    have h2 := rd8_lt rx (ETH_HEADER_SIZE p + 14 + 1)
    have h3 := rd8_lt rx (ETH_HEADER_SIZE p + 14 + 2)
    have h4 := rd8_lt rx (ETH_HEADER_SIZE p + 14 + 3)
    unfold rd32; split <;> omega
  obtain ⟨f1, f2, f3, f4, f5, f6, f7, f8, f9⟩ := arp_fill_fields p
    (fill_eth_header p b (rdMac rx (ETH_HEADER_SIZE p + 8)) my_mac ETHERTYPE_ARP)
    ARP_OPCODE_REPLY my_ip my_mac (rd32 p rx (ETH_HEADER_SIZE p + 14))
    (rdMac rx (ETH_HEADER_SIZE p + 8))
  have g1 := rdMac_arp_fill p
    (fill_eth_header p b (rdMac rx (ETH_HEADER_SIZE p + 8)) my_mac ETHERTYPE_ARP)
    ARP_OPCODE_REPLY my_ip my_mac (rd32 p rx (ETH_HEADER_SIZE p + 14))
    (rdMac rx (ETH_HEADER_SIZE p + 8)) (ETH_DESTMAC p) (by omega)
  have g2 := rdMac_arp_fill p
    (fill_eth_header p b (rdMac rx (ETH_HEADER_SIZE p + 8)) my_mac ETHERTYPE_ARP)
    ARP_OPCODE_REPLY my_ip my_mac (rd32 p rx (ETH_HEADER_SIZE p + 14))
    (rdMac rx (ETH_HEADER_SIZE p + 8)) (ETH_DESTMAC p + 6) (by omega)
  have g3 : rd16 p (arp_fill p
      (fill_eth_header p b (rdMac rx (ETH_HEADER_SIZE p + 8)) my_mac ETHERTYPE_ARP)
      ARP_OPCODE_REPLY my_ip my_mac (rd32 p rx (ETH_HEADER_SIZE p + 14))
      (rdMac rx (ETH_HEADER_SIZE p + 8))) (ETH_DESTMAC p + 12)
      = rd16 p (fill_eth_header p b (rdMac rx (ETH_HEADER_SIZE p + 8)) my_mac ETHERTYPE_ARP)
        (ETH_DESTMAC p + 12) :=
    rd16_congr p _ _ _ (fun j _ _ => arp_fill_of_lt p _ _ _ _ _ _ j (by omega))
  rw [fill_eth_header_destmac] at g1
  rw [fill_eth_header_srcmac] at g2
  rw [fill_eth_header_ethertype] at g3
  generalize arp_fill p
    (fill_eth_header p b (rdMac rx (ETH_HEADER_SIZE p + 8)) my_mac ETHERTYPE_ARP)
    ARP_OPCODE_REPLY my_ip my_mac (rd32 p rx (ETH_HEADER_SIZE p + 14))
    (rdMac rx (ETH_HEADER_SIZE p + 8)) = F at *
  have hlow : ∀ j, j < ARP_PACKET_LENGTH p → crc_appended p F (ARP_PACKET_LENGTH p) j = F j :=
    fun j hj => crc_appended_of_lt p F _ j hL hj
  refine ⟨?_, ?_, ?_, ?_, ?_, ?_, ?_, ?_, ?_, ?_, ?_, ?_⟩
  · rw [rdMac_congr _ F _ (fun j _ _ => hlow j (by omega))]; exact g1
  · rw [rdMac_congr _ F _ (fun j _ _ => hlow j (by omega))]; exact g2
  · rw [rd16_congr _ _ F _ (fun j _ _ => hlow j (by omega))]; exact g3
  · rw [rd16_congr _ _ F _ (fun j _ _ => hlow j (by omega))]; exact f1
  · rw [rd16_congr _ _ F _ (fun j _ _ => hlow j (by omega))]; exact f2
  · rw [rd8_congr _ F _ (hlow _ (by omega))]; exact f3
  · rw [rd8_congr _ F _ (hlow _ (by omega))]; exact f4
  · rw [rd16_congr _ _ F _ (fun j _ _ => hlow j (by omega))]; exact f5
  · rw [rdMac_congr _ F _ (fun j _ _ => hlow j (by omega))]; exact f6
  · rw [rd32_congr _ _ F _ (fun j _ _ => hlow j (by omega)), f7]; exact Nat.mod_eq_of_lt hmi
  · rw [rdMac_congr _ F _ (fun j _ _ => hlow j (by omega))]; exact f8
  · rw [rd32_congr _ _ F _ (fun j _ _ => hlow j (by omega)), f9]; exact Nat.mod_eq_of_lt hrx

/-- Claim C12.  For a received ARP frame that passes the length, hardware
type, protocol type and address size tests of `process_arp`: when its opcode
is 1 and its target IP is the host IP, `process_arp` hands exactly one frame
to the hardware, of `ARP_PACKET_LENGTH` bytes (followed by the 4 CRC bytes
when the CRC is computed in software), with destination MAC = sender MAC of
the request, source MAC = host MAC, EtherType 0x0806, hardware type 1,
protocol type 0x0800, sizes 6 and 4, opcode 2, sender MAC and IP = host MAC
and IP, target MAC and IP = sender MAC and IP of the request, and leaves
`cached_ip` and `cached_mac` unchanged.  When the opcode is 1 and the target
IP is not the host IP, or the opcode is neither 1 nor 2, the state is
unchanged and nothing is transmitted.  The fields are read as the code reads
them, with the loads of the target. -/
theorem process_arp_request (p : Platform) (env : Env) (st : State)
    (hlen : ARP_PACKET_LENGTH p ≤ st.rxlen)
    (hhw : rd16 p (st.rxmem st.rxbuffer) (ETH_HEADER_SIZE p) = 1)
    (hpr : rd16 p (st.rxmem st.rxbuffer) (ETH_HEADER_SIZE p + 2) = 0x0800)
    (hhs : rd8 (st.rxmem st.rxbuffer) (ETH_HEADER_SIZE p + 4) = 6)
    (hps : rd8 (st.rxmem st.rxbuffer) (ETH_HEADER_SIZE p + 5) = 4) :
    (rd16 p (st.rxmem st.rxbuffer) (ETH_HEADER_SIZE p + 6) = 1 →
      rd32 p (st.rxmem st.rxbuffer) (ETH_HEADER_SIZE p + 24) = st.my_ip →
      ∀ d, env.ready_after st.sends = some d → st.tx_consistent → st.my_ip < 4294967296 →
      ∃ st' mem, process_arp p env st = some st'
        ∧ st'.trace = st.trace ++
            tx_events st.txslot (ARP_PACKET_LENGTH p + CRC_SIZE p) d mem
        ∧ rdMac mem (ETH_DESTMAC p) = rdMac (st.rxmem st.rxbuffer) (ETH_HEADER_SIZE p + 8)
        ∧ rdMac mem (ETH_DESTMAC p + 6) = st.my_mac
        ∧ rd16 p mem (ETH_DESTMAC p + 12) = 0x0806
        ∧ rd16 p mem (ETH_HEADER_SIZE p) = 1
        ∧ rd16 p mem (ETH_HEADER_SIZE p + 2) = 0x0800
        ∧ rd8 mem (ETH_HEADER_SIZE p + 4) = 6
        ∧ rd8 mem (ETH_HEADER_SIZE p + 5) = 4
        ∧ rd16 p mem (ETH_HEADER_SIZE p + 6) = 2
        ∧ rdMac mem (ETH_HEADER_SIZE p + 8) = st.my_mac
        ∧ rd32 p mem (ETH_HEADER_SIZE p + 14) = st.my_ip
        ∧ rdMac mem (ETH_HEADER_SIZE p + 18)
            = rdMac (st.rxmem st.rxbuffer) (ETH_HEADER_SIZE p + 8)
        ∧ rd32 p mem (ETH_HEADER_SIZE p + 24)
            = rd32 p (st.rxmem st.rxbuffer) (ETH_HEADER_SIZE p + 14)
        ∧ st'.cached_ip = st.cached_ip ∧ st'.cached_mac = st.cached_mac)
    ∧ (rd16 p (st.rxmem st.rxbuffer) (ETH_HEADER_SIZE p + 6) = 1 →
      rd32 p (st.rxmem st.rxbuffer) (ETH_HEADER_SIZE p + 24) ≠ st.my_ip →
      process_arp p env st = some st)
    ∧ (rd16 p (st.rxmem st.rxbuffer) (ETH_HEADER_SIZE p + 6) ≠ 1 →
      rd16 p (st.rxmem st.rxbuffer) (ETH_HEADER_SIZE p + 6) ≠ 2 →
      process_arp p env st = some st) := by
  have hchk := arp_checks_of p _ _ hlen hhw hpr hhs hps
  refine ⟨?_, ?_, ?_⟩
  · intro hop htip d hready hcons hmi
    have heq : process_arp p env st = send_packet p env (arp_reply_state p st) := by
      rw [process_arp_eq, if_pos hchk, if_neg (by rw [hop]; decide), if_pos ⟨hop, htip⟩]
    obtain ⟨st', h1, h2, -, -, -, -, -, -, -, c1, c2, -⟩ :=
      send_packet_spec p env (arp_reply_state p st) d hready hcons
    have hl : (arp_reply_state p st).txlen = ARP_PACKET_LENGTH p := rfl
    have hb : (arp_reply_state p st).txbuffer = st.txbuffer := rfl
    have hs : (arp_reply_state p st).txslot = st.txslot := rfl
    have ht : (arp_reply_state p st).trace = st.trace := rfl
    rw [hl, hb, hs, ht, arp_length, arp_reply_state_mem] at h2
    obtain ⟨f1, f2, f3, f4, f5, f6, f7, f8, f9, f10, f11, f12⟩ :=
      arp_reply_frame p (st.txmem st.txbuffer) (st.rxmem st.rxbuffer) st.my_mac st.my_ip hmi
    exact ⟨st', _, heq.trans h1, by rw [h2]; simp [tx_events], f1, f2, f3, f4, f5, f6, f7, f8, f9,
      f10, f11, f12, c1, c2⟩
  · intro hop htip
    rw [process_arp_eq, if_pos hchk, if_neg (by rw [hop]; decide),
      if_neg (fun h => htip h.2)]
  · intro h1 h2
    rw [process_arp_eq, if_pos hchk, if_neg h2, if_neg (fun h => h1 h.1)]

theorem process_arp_request_witness :
    ∃ st' mem, process_arp demo_platform demo_env demo_asked = some st'
      ∧ st'.trace = demo_asked.trace ++ tx_events 0 60 0 mem
      ∧ rdMac mem 0 = demo_peer_mac
      ∧ rd16 demo_platform mem 20 = 2
      ∧ rdMac mem 22 = demo_mac
      ∧ rd32 demo_platform mem 38 = demo_peer_ip
      ∧ st'.cached_mac = demo_asked.cached_mac := by
  obtain ⟨st', mem, h1, h2, h3, -, -, -, -, -, -, h4, h5, -, -, h6, -, h7⟩ :=
    (process_arp_request demo_platform demo_env demo_asked (by decide) (by decide) (by decide)
      (by decide) (by decide)).1 (by decide) (by decide) 0 rfl (Or.inl ⟨rfl, rfl⟩) (by decide)
  exact ⟨st', mem, h1, h2, h3.trans (by decide), h4, h5, h6.trans (by decide), h7⟩

theorem received_crc_three (rx : Buf) :
    received_crc rx 3
      = (rd8 rx 2 <<< 24) ||| (rd8 rx 1 <<< 16) ||| (rd8 rx 0 <<< 8) ||| rd8 rx 4294967295 := by
  unfold received_crc
  norm_num

theorem frame_accepted_three (p : Platform) (rx : Buf) (hsw : p.hw_preamble_crc = false) :
    frame_accepted p rx 3
      = (preamble_ok rx && received_crc rx 3 == p.crc32 rx 8 4294967287 % 4294967296) := by
  unfold frame_accepted
  rw [hsw]
  norm_num

/-- Claim C16, at a failing input.  On a target that computes preamble and
CRC in software, with a received length of 3 and an RX buffer that starts
with the preamble, `process_frame` passes the preamble test and goes on to
the CRC test without a test of the length: it reads `raw[rxlen-4]`, which is
`raw[4294967295]`, outside the 1532 bytes of the buffer, and passes `crc32`
the byte count `rxlen-12` = 4294967287, larger than the received length.  The
frame is then dropped because the CRC does not match. -/
theorem process_frame_runt_reads_wrap :
    demo_platform_sw.hw_preamble_crc = false
    ∧ demo_runt.rxlen = 3
    ∧ preamble_ok (demo_runt.rxmem demo_runt.rxbuffer) = true
    ∧ (∀ rx : Buf,
        frame_accepted demo_platform_sw rx 3
          = (preamble_ok rx &&
              ((rd8 rx 2 <<< 24) ||| (rd8 rx 1 <<< 16) ||| (rd8 rx 0 <<< 8) ||| rd8 rx 4294967295)
                == demo_platform_sw.crc32 rx 8 4294967287 % 4294967296))
    ∧ BUFFER_SIZE ≤ 4294967295
    ∧ demo_runt.rxlen < 4294967287
    ∧ process_frame demo_platform_sw demo_env demo_runt = some demo_runt := by
  refine ⟨rfl, rfl, by decide, ?_, by decide, by decide, ?_⟩
  · intro rx
    rw [frame_accepted_three _ _ rfl, received_crc_three]
  · rw [process_frame_eq, if_neg]
    decide

theorem crc_round_trip_witness :
    ∃ st' mem,
      send_packet demo_platform_sw demo_env demo_framed = some st'
      ∧ st'.trace = demo_framed.trace ++ tx_events 0 72 0 mem
      ∧ frame_accepted demo_platform_sw mem 72 = true
      ∧ parsed_length demo_platform_sw 72 = 68 := by
  obtain ⟨st', mem, h1, h2, -, -, -, h3, h4, -⟩ :=
    crc_round_trip demo_platform_sw demo_env demo_framed 0 rfl (fun _ _ _ _ _ => rfl)
      (by decide) (by decide) (by decide) rfl (Or.inl ⟨rfl, rfl⟩)
  exact ⟨st', mem, h1, h2, h3, h4⟩

/-! ### Byte order of the target -/

/-- Claim C8 fails as stated.  On a little-endian target the frame that
`microudp_send(1234, 5678, 4)` hands to the hardware for 10.0.0.1 to 10.0.0.2
has a UDP checksum that does not verify: the big-endian words of the pseudo
header, the UDP header and the payload sum to a value that folds to 55590,
not 0xFFFF. -/
theorem udp_checksum_fails_little_endian :
    ∃ st' mem,
      microudp_send demo_platform_le demo_env 1234 5678 4 demo_resolved = some (1, st')
      ∧ st'.trace = demo_resolved.trace ++
          [Event.sram_reader_slot_write 0, Event.sram_reader_length_write 60,
           Event.sram_reader_ready_read true, Event.sram_reader_start_write 1 mem]
      ∧ fold16 (udp_verify_sum demo_platform_le mem 4) = 55590
      ∧ fold16 (udp_verify_sum demo_platform_le mem 4) ≠ 0xffff := by
  obtain ⟨st', h1, h2⟩ := microudp_send_ok demo_platform_le demo_env 1234 5678 4 demo_resolved 0
    ⟨0, by decide⟩ (by decide) rfl (Or.inl ⟨rfl, rfl⟩)
  exact ⟨st', _, h1, h2, by decide, by decide⟩

end Microudp
